import Mathlib

/-! Wire protocol of the multiplayer server: packet framing and message codecs.

A shallow embedding of `src/common/packet.cpp`, `src/common/serialization.cpp`,
the frame-extraction part of `Server::handleClient` (`src/server/server.cpp`), the round
state machine of `src/common/game_state.cpp`, the vote resolution, the round start and
the PLAYER_JOIN, CHAT_MESSAGE and PLAYER_LEAVE cases of the packet callback in
`src/server/game_server.cpp`, the connection registry of
`src/server/connection_manager.cpp`, the queue of `src/server/message_queue.cpp` and the
send paths `sendPacket`, `broadcast` and `broadcastExcept` of `src/server/server.cpp`.

Conventions of the embedding
* a `std::vector<uint8_t>` and a `std::string` are lists of bytes; a
  `(pointer, size)` pair is the list of the `size` bytes that start at the pointer;
* `uint32_t` / `uint16_t` values are natural numbers, with an explicit `% 2^32`
  at every `static_cast<uint32_t>`; `int` is an integer in `[-2^31, 2^31)`;
* `size_t` is 64 bits wide: every `size_t` sum below is bounded by a buffer
  size plus a 32-bit value, so it is computed in `Nat` without wrap-around;
* `htonl` followed by a byte-wise insert is `be32`; a `memcpy` out of a buffer
  followed by `ntohl` is `readU32`.
-/

namespace net

/-- One octet of a buffer. -/
abbrev Byte := Fin 256

/-- Bytes of `htonl(n)` in memory order: the big-endian encoding of the low 32 bits of `n`. -/
def be32 (n : Nat) : List Byte :=
  [Fin.ofNat (n / 16777216), Fin.ofNat (n / 65536), Fin.ofNat (n / 256), Fin.ofNat n]

/-- Bytes of `htons(n)` in memory order: the big-endian encoding of the low 16 bits of `n`. -/
def be16 (n : Nat) : List Byte :=
  [Fin.ofNat (n / 256), Fin.ofNat n]

/-- A `memcpy` of four bytes from the front of a buffer followed by `ntohl`.
Every call in the source is guarded by a size check; a short buffer reads as 0. -/
def readU32 : List Byte → Nat
  | b0 :: b1 :: b2 :: b3 :: _ => b0.val * 16777216 + b1.val * 65536 + b2.val * 256 + b3.val
  | _ => 0

/-- A `memcpy` of two bytes from the front of a buffer followed by `ntohs`. -/
def readU16 : List Byte → Nat
  | b0 :: b1 :: _ => b0.val * 256 + b1.val
  | _ => 0

/-- The constant `PacketHeader::SIZE`, `sizeof(uint32_t) + sizeof(uint16_t)`. -/
def PacketHeader.SIZE : Nat := 4 + 2

/-- The class `Packet`: the two header fields and the payload `data_`. -/
structure Packet where
  length : Nat
  type : Nat
  data : List Byte
  deriving DecidableEq, Repr

namespace Packet

/-- The default constructor `Packet()`: `header_(0, 0)` and no data. -/
def default : Packet := { length := 0, type := 0, data := [] }

/-- The method `updateHeader`: `header_.length = static_cast<uint32_t>(SIZE + data_.size())`. -/
def updateHeader (p : Packet) : Packet :=
  { p with length := (PacketHeader.SIZE + p.data.length) % 2 ^ 32 }

/-- The constructor `Packet(type, data)`. -/
def new (type : Nat) (data : List Byte) : Packet :=
  updateHeader { length := 0, type := type, data := data }

/-- The method `setType`. -/
def setType (p : Packet) (type : Nat) : Packet := { p with type := type }

/-- The method `setData`. -/
def setData (p : Packet) (data : List Byte) : Packet :=
  updateHeader { p with data := data }

/-- The accessor `getType`. -/
def getType (p : Packet) : Nat := p.type

/-- The accessor `getData`. -/
def getData (p : Packet) : List Byte := p.data

/-- The accessor `getTotalSize`: `PacketHeader::SIZE + data_.size()`. -/
def getTotalSize (p : Packet) : Nat := PacketHeader.SIZE + p.data.length

/-- The method `serialize`: header length, header type, then the data. -/
def serialize (p : Packet) : List Byte :=
  be32 p.length ++ be16 p.type ++ p.data

/-- The static method `deserialize(buffer, size)`. -/
def deserialize (buffer : List Byte) : Packet :=
  let packet := Packet.default
  if buffer.length < PacketHeader.SIZE then packet
  else
    let packet := { packet with length := readU32 buffer, type := readU16 (buffer.drop 4) }
    if packet.length < PacketHeader.SIZE ∨ packet.length > buffer.length then packet
    else
      let dataSize := packet.length - PacketHeader.SIZE
      { packet with data := (buffer.drop PacketHeader.SIZE).take dataSize }

/-- The static method `isCompletePacket(buffer, size)`. -/
def isCompletePacket (buffer : List Byte) : Bool :=
  if buffer.length < PacketHeader.SIZE then false
  else
    let length := readU32 buffer
    decide (length ≤ buffer.length)

end Packet

/-! ## Message codecs (`serialization.cpp`) -/

/-- The conversion `static_cast<uint32_t>` of an `int` (or of an enum over `int`). -/
def toU32 (i : Int) : Nat := (i % 4294967296).toNat

/-- The conversion `static_cast<int>` of a `uint32_t` (two's complement). -/
def toI32 (n : Nat) : Int := if n < 2147483648 then (n : Int) else (n : Int) - 4294967296

/-- The scoped enum `PlayerRole`; its underlying type is `int`, so a decoded
`static_cast<PlayerRole>` can hold any `int`, named or not. -/
structure PlayerRole where
  val : Int
  deriving DecidableEq, Repr

/-- The enumerator `PlayerRole::NONE = 0`. -/
def PlayerRole.NONE : PlayerRole := ⟨0⟩

/-- The enumerator `PlayerRole::LIAR = 1`. -/
def PlayerRole.LIAR : PlayerRole := ⟨1⟩

/-- The enumerator `PlayerRole::GUESSER = 2`. -/
def PlayerRole.GUESSER : PlayerRole := ⟨2⟩

/-- The struct `PlayerState`. -/
structure PlayerState where
  id : Nat
  username : List Byte
  role : PlayerRole
  score : Int
  deriving DecidableEq, Repr

/-- The default constructor `PlayerState()`: `id(0), role(NONE), score(0)`, empty name. -/
def PlayerState.default : PlayerState :=
  { id := 0, username := [], role := PlayerRole.NONE, score := 0 }

/-- The struct `ChatMessage`. -/
structure ChatMessage where
  senderId : Nat
  senderUsername : List Byte
  senderMessage : List Byte
  deriving DecidableEq, Repr

/-- The default constructor `ChatMessage()`: `senderId(0)` and two empty strings. -/
def ChatMessage.default : ChatMessage :=
  { senderId := 0, senderUsername := [], senderMessage := [] }

/-- The constant `MessageType::GAME_STATE_UPDATE`. -/
def MessageType.GAME_STATE_UPDATE : Nat := 14

/-- The constant `MessageType::CHAT_BROADCAST`. -/
def MessageType.CHAT_BROADCAST : Nat := 17

/-- The function `serializePlayerState`. -/
def serializePlayerState (state : PlayerState) : List Byte :=
  let usernameSize := state.username.length
  let data : List Byte := []
  let data := data ++ be32 state.id
  let data := data ++ be32 (toU32 state.role.val)
  let data := data ++ be32 (toU32 state.score)
  let data := data ++ be32 (usernameSize % 2 ^ 32)
  let data := if usernameSize > 0 then data ++ state.username else data
  data

/-- The function `deserializePlayerState(data, size)`. -/
def deserializePlayerState (data : List Byte) : PlayerState :=
  let state := PlayerState.default
  if data.length < 4 * 4 then state
  else
    let offset := 0
    let state := { state with id := readU32 (data.drop offset) }
    let offset := offset + 4
    let state := { state with role := ⟨toI32 (readU32 (data.drop offset))⟩ }
    let offset := offset + 4
    let state := { state with score := toI32 (readU32 (data.drop offset)) }
    let offset := offset + 4
    if data.length < offset + 4 then state
    else
      let usernameLen := readU32 (data.drop offset)
      let offset := offset + 4
      if data.length ≥ offset + usernameLen ∧ usernameLen > 0 then
        { state with username := (data.drop offset).take usernameLen }
      else state

/-- The function `createGameStateUpdatePacket`: the count, then every state in turn. -/
def createGameStateUpdatePacket (states : List PlayerState) : Packet :=
  let count := states.length % 2 ^ 32
  let data := be32 count
  let data := states.foldl (fun data state => data ++ serializePlayerState state) data
  Packet.new MessageType.GAME_STATE_UPDATE data

/-- The `for` loop of `extractGameStateUpdate`; the first argument is the number of
iterations left, `count - i`. The source tests `data.size() < offset + 16` twice in a row;
the second test cannot differ from the first and is folded into it. -/
def extractGameStateUpdateLoop (data : List Byte) :
    Nat → Nat → List PlayerState → List PlayerState
  | 0, _, states => states
  | n + 1, offset, states =>
    if data.length < offset + 4 * 4 then states
    else
      let usernameLen := readU32 (data.drop (offset + 4 * 3))
      let playerSize := 4 * 4 + usernameLen
      if data.length < offset + playerSize then states
      else
        let state := deserializePlayerState ((data.drop offset).take playerSize)
        extractGameStateUpdateLoop data n (offset + playerSize) (states ++ [state])

/-- The function `extractGameStateUpdate`. -/
def extractGameStateUpdate (packet : Packet) : List PlayerState :=
  let states : List PlayerState := []
  let data := packet.getData
  if data.length < 4 then states
  else
    let count := readU32 data
    extractGameStateUpdateLoop data count 4 states

/-- The function `serializeChatMessage`. -/
def serializeChatMessage (message : ChatMessage) : List Byte :=
  let usernameSize := message.senderUsername.length
  let messageSize := message.senderMessage.length
  let data : List Byte := []
  let data := data ++ be32 message.senderId
  let data := data ++ be32 (usernameSize % 2 ^ 32)
  let data := if usernameSize > 0 then data ++ message.senderUsername else data
  let data := data ++ be32 (messageSize % 2 ^ 32)
  let data := if messageSize > 0 then data ++ message.senderMessage else data
  data

/-- The function `deserializeChatMessage(data, size)`. -/
def deserializeChatMessage (data : List Byte) : ChatMessage :=
  let message := ChatMessage.default
  if data.length < 4 * 3 then message
  else
    let offset := 0
    let message := { message with senderId := readU32 (data.drop offset) }
    let offset := offset + 4
    let usernameLen := readU32 (data.drop offset)
    let offset := offset + 4
    let fits := decide (usernameLen > 0 ∧ offset + usernameLen ≤ data.length)
    let message :=
      if fits then { message with senderUsername := (data.drop offset).take usernameLen }
      else message
    let offset := if fits then offset + usernameLen else offset
    if offset + 4 > data.length then message
    else
      let messageLen := readU32 (data.drop offset)
      let offset := offset + 4
      if messageLen > 0 ∧ offset + messageLen ≤ data.length then
        { message with senderMessage := (data.drop offset).take messageLen }
      else message

/-! ## Frame extraction of the receive loop (`Server::handleClient`) -/

/-- The inner `while (offset < packetBuffer.size())` loop of `handleClient`, started at
`offset`. It returns the packets that were pushed on the message queue and handed to the
packet callback, in that order, and the final `offset`. Every iteration advances `offset`
by `getTotalSize() ≥ 6`, so `fuel = packetBuffer.size()` iterations are never used up. -/
def extractFrames (packetBuffer : List Byte) : Nat → Nat → List Packet × Nat
  | 0, offset => ([], offset)
  | fuel + 1, offset =>
    if offset < packetBuffer.length then
      if !Packet.isCompletePacket (packetBuffer.drop offset) then ([], offset)
      else
        let packet := Packet.deserialize (packetBuffer.drop offset)
        let r := extractFrames packetBuffer fuel (offset + packet.getTotalSize)
        (if packet.getType ≠ 0 then packet :: r.1 else r.1, r.2)
    else ([], offset)

/-- The branch `bytesReceived > 0` of `handleClient`: append the received bytes to
`packetBuffer`, extract frames from offset 0, erase the consumed bytes. It returns the
dispatched packets and the new `packetBuffer`. -/
def receiveChunk (packetBuffer chunk : List Byte) : List Packet × List Byte :=
  let packetBuffer := packetBuffer ++ chunk
  let r := extractFrames packetBuffer packetBuffer.length 0
  (r.1, if r.2 > 0 then packetBuffer.drop r.2 else packetBuffer)

/-- The outer `while` loop of `handleClient` over the successive results of `recv`, each
given as the bytes it delivered: a result with no bytes (the peer closed) leaves the
loop. It returns every packet dispatched so far and the final `packetBuffer`. -/
def receiveLoop : List Byte → List (List Byte) → List Packet × List Byte
  | packetBuffer, [] => ([], packetBuffer)
  | packetBuffer, chunk :: later =>
    if chunk.length > 0 then
      let r := receiveChunk packetBuffer chunk
      let s := receiveLoop r.2 later
      (r.1 ++ s.1, s.2)
    else ([], packetBuffer)

/-! ## Specification-side notions -/

/-- Value of a byte string read as a big-endian number (specification side). -/
def beValue (bs : List Byte) : Nat := bs.foldl (fun acc b => acc * 256 + b.val) 0

/-- Frame extraction on the unconsumed part of the buffer alone: `extractFrames` with the
bytes below `offset` dropped. It returns the dispatched packets and the unconsumed tail
(a device of the proofs; `extractFrames_eq_framesOf` relates it to the source loop). -/
def framesOf : Nat → List Byte → List Packet × List Byte
  | 0, buf => ([], buf)
  | fuel + 1, buf =>
    if 0 < buf.length then
      if !Packet.isCompletePacket buf then ([], buf)
      else
        let packet := Packet.deserialize buf
        let r := framesOf fuel (buf.drop packet.getTotalSize)
        (if packet.getType ≠ 0 then packet :: r.1 else r.1, r.2)
    else ([], buf)

/-! ## Unordered maps

A `std::unordered_map<uint32_t, V>` is the list of its entries in iteration order. The
keys of a map are pairwise distinct; the order is not fixed by the language, so a
property of a loop over a map is stated for every list of entries. -/

/-- The type `std::unordered_map<uint32_t, V>`: the entries in iteration order. -/
abbrev UMap (V : Type) := List (Nat × V)

/-- The call `m.find(k)`: the mapped value, `none` for `m.end()`. -/
def UMap.find {V : Type} : UMap V → Nat → Option V
  | [], _ => none
  | (k', v) :: rest, k => if k' = k then some v else UMap.find rest k

/-- The assignment `m[k] = v`: the value of an existing key is replaced in place, a new
key gets a new entry. -/
def UMap.assign {V : Type} : UMap V → Nat → V → UMap V
  | [], k, v => [(k, v)]
  | (k', v') :: rest, k, v =>
    if k' = k then (k', v) :: rest else (k', v') :: UMap.assign rest k v

/-- The keys of a map, in iteration order. -/
def UMap.keys {V : Type} (m : UMap V) : List Nat := m.map Prod.fst

/-! ## Message codecs: role assignment and votes (`serialization.cpp`) -/

/-- The struct `RoleAssignment`. -/
structure RoleAssignment where
  playerId : Nat
  role : PlayerRole
  topic : List Byte
  secretWord : List Byte
  deriving DecidableEq, Repr

/-- The default constructor `RoleAssignment()`: `playerId(0), role(NONE)`, empty strings. -/
def RoleAssignment.default : RoleAssignment :=
  { playerId := 0, role := PlayerRole.NONE, topic := [], secretWord := [] }

/-- The struct `VoteCommand`. -/
structure VoteCommand where
  voterId : Nat
  targetId : Nat
  deriving DecidableEq, Repr

/-- The default constructor `VoteCommand()`: `voterId(0), targetId(0)`. -/
def VoteCommand.default : VoteCommand := { voterId := 0, targetId := 0 }

/-- The struct `VoteResult`; `tally` maps a target id to its vote count. -/
structure VoteResult where
  tally : UMap Nat
  winnerId : Nat
  liarCaught : Bool
  deriving DecidableEq, Repr

/-- The default constructor `VoteResult()`: empty tally, `winnerId(0), liarCaught(false)`. -/
def VoteResult.default : VoteResult := { tally := [], winnerId := 0, liarCaught := false }

/-- The constant `MessageType::ROLE_ASSIGNMENT`. -/
def MessageType.ROLE_ASSIGNMENT : Nat := 19

/-- The constant `MessageType::VOTE_COMMAND`. -/
def MessageType.VOTE_COMMAND : Nat := 21

/-- The constant `MessageType::VOTE_RESULT`. -/
def MessageType.VOTE_RESULT : Nat := 22

/-- The function `serializeRoleAssignment`. -/
def serializeRoleAssignment (assignment : RoleAssignment) : List Byte :=
  let topicSize := assignment.topic.length
  let wordSize := assignment.secretWord.length
  let data : List Byte := []
  let data := data ++ be32 assignment.playerId
  let data := data ++ be32 (toU32 assignment.role.val)
  let data := data ++ be32 (topicSize % 2 ^ 32)
  let data := if topicSize > 0 then data ++ assignment.topic else data
  let data := data ++ be32 (wordSize % 2 ^ 32)
  let data := if wordSize > 0 then data ++ assignment.secretWord else data
  data

/-- The function `deserializeRoleAssignment(data, size)`. -/
def deserializeRoleAssignment (data : List Byte) : RoleAssignment :=
  let assignment := RoleAssignment.default
  if data.length < 4 * 3 then assignment
  else
    let offset := 0
    let assignment := { assignment with playerId := readU32 (data.drop offset) }
    let offset := offset + 4
    let assignment := { assignment with role := ⟨toI32 (readU32 (data.drop offset))⟩ }
    let offset := offset + 4
    if data.length < offset + 4 then assignment
    else
      let topicLen := readU32 (data.drop offset)
      let offset := offset + 4
      let fits := decide (topicLen > 0 ∧ offset + topicLen ≤ data.length)
      let assignment :=
        if fits then { assignment with topic := (data.drop offset).take topicLen }
        else assignment
      let offset := if fits then offset + topicLen else offset
      if offset + 4 > data.length then assignment
      else
        let wordLen := readU32 (data.drop offset)
        let offset := offset + 4
        if wordLen > 0 ∧ offset + wordLen ≤ data.length then
          { assignment with secretWord := (data.drop offset).take wordLen }
        else assignment

/-- The function `createRoleAssignmentPacket`. -/
def createRoleAssignmentPacket (assignment : RoleAssignment) : Packet :=
  Packet.new MessageType.ROLE_ASSIGNMENT (serializeRoleAssignment assignment)

/-- The function `serializeVoteCommand`. -/
def serializeVoteCommand (vote : VoteCommand) : List Byte :=
  let data : List Byte := []
  let data := data ++ be32 vote.voterId
  let data := data ++ be32 vote.targetId
  data

/-- The function `deserializeVoteCommand(data, size)`. -/
def deserializeVoteCommand (data : List Byte) : VoteCommand :=
  let vote := VoteCommand.default
  if data.length < 4 * 2 then vote
  else
    let vote := { vote with voterId := readU32 data }
    let vote := { vote with targetId := readU32 (data.drop 4) }
    vote

/-- The function `serializeVoteResult`: the entry count, every `(targetId, voteCount)`
entry in iteration order, the winner id, the caught flag as 0 or 1. -/
def serializeVoteResult (result : VoteResult) : List Byte :=
  let count := result.tally.length % 2 ^ 32
  let data := be32 count
  let data := result.tally.foldl
    (fun data entry => data ++ be32 entry.1 ++ be32 entry.2) data
  let data := data ++ be32 result.winnerId
  let data := data ++ be32 (if result.liarCaught then 1 else 0)
  data

/-- The `for` loop of `deserializeVoteResult`; the first argument is the number of
iterations left, `count - i`. It returns the final `offset` and the tally. -/
def deserializeVoteResultLoop (data : List Byte) : Nat → Nat → UMap Nat → Nat × UMap Nat
  | 0, offset, tally => (offset, tally)
  | n + 1, offset, tally =>
    if data.length < offset + 4 * 2 then (offset, tally)
    else
      let targetId := readU32 (data.drop offset)
      let offset := offset + 4
      let voteCount := readU32 (data.drop offset)
      let offset := offset + 4
      deserializeVoteResultLoop data n offset (UMap.assign tally targetId voteCount)

/-- The function `deserializeVoteResult(data, size)`. -/
def deserializeVoteResult (data : List Byte) : VoteResult :=
  let result := VoteResult.default
  if data.length < 4 * 3 then result
  else
    let offset := 0
    let count := readU32 (data.drop offset)
    let offset := offset + 4
    let r := deserializeVoteResultLoop data count offset result.tally
    let offset := r.1
    let result := { result with tally := r.2 }
    if data.length < offset + 4 * 2 then result
    else
      let result := { result with winnerId := readU32 (data.drop offset) }
      let offset := offset + 4
      { result with liarCaught := decide (readU32 (data.drop offset) ≠ 0) }

/-- The function `createVoteResultPacket`. -/
def createVoteResultPacket (result : VoteResult) : Packet :=
  Packet.new MessageType.VOTE_RESULT (serializeVoteResult result)

/-! ## Round state machine (`game_state.cpp`)

Every public method of `GameState` other than `clearRound` runs under `mutex_` from its
first to its last statement (`clearRound` takes no lock: `startNewRound` calls it with the
lock held). The embedding follows the calls of one thread, so a method is one function
on the state. The draws of the random generator
are arguments of the functions that make them. A score is an `int` far from its bounds:
`score += 1` is integer addition. -/

/-- The bytes of an ASCII string literal. -/
def bytesOf (s : String) : List Byte := s.toList.map (fun c => Fin.ofNat c.toNat)

/-- The data members of the class `GameState` (the mutex apart). -/
structure GameState where
  players : UMap PlayerState
  roundActive : Bool
  currentTopic : List Byte
  currentWord : List Byte
  currentLiarId : Nat
  votes : UMap Nat
  deriving DecidableEq, Repr

namespace GameState

/-- The table `GameState::TOPIC_WORDS`. -/
def TOPIC_WORDS : List (List Byte × List (List Byte)) :=
  [(bytesOf "Fruit",
    [bytesOf "Apple", bytesOf "Banana", bytesOf "Orange", bytesOf "Grape",
     bytesOf "Strawberry", bytesOf "Watermelon", bytesOf "Pineapple", bytesOf "Mango"]),
   (bytesOf "City",
    [bytesOf "Paris", bytesOf "Tokyo", bytesOf "London", bytesOf "New York",
     bytesOf "Sydney", bytesOf "Berlin", bytesOf "Rome", bytesOf "Moscow"]),
   (bytesOf "Animal",
    [bytesOf "Dog", bytesOf "Cat", bytesOf "Elephant", bytesOf "Lion", bytesOf "Tiger",
     bytesOf "Bear", bytesOf "Wolf", bytesOf "Rabbit"]),
   (bytesOf "Color",
    [bytesOf "Red", bytesOf "Blue", bytesOf "Green", bytesOf "Yellow", bytesOf "Purple",
     bytesOf "Orange", bytesOf "Pink", bytesOf "Black"]),
   (bytesOf "Food",
    [bytesOf "Pizza", bytesOf "Burger", bytesOf "Pasta", bytesOf "Sushi", bytesOf "Taco",
     bytesOf "Salad", bytesOf "Soup", bytesOf "Sandwich"]),
   (bytesOf "Sport",
    [bytesOf "Soccer", bytesOf "Basketball", bytesOf "Tennis", bytesOf "Swimming",
     bytesOf "Running", bytesOf "Cycling", bytesOf "Golf", bytesOf "Baseball"])]

/-- The constructor `GameState()`: no player, no vote, no round. -/
def new : GameState :=
  { players := [], roundActive := false, currentTopic := [], currentWord := [],
    currentLiarId := 0, votes := [] }

/-- The method `getAllPlayerStates`: the mapped values in iteration order. -/
def getAllPlayerStates (s : GameState) : List PlayerState := s.players.map (fun pair => pair.2)

/-- The method `getPlayerCount`: `players_.size()`. -/
def getPlayerCount (s : GameState) : Nat := s.players.length

/-- The method `canStartRound`. -/
def canStartRound (s : GameState) : Bool :=
  let count := s.players.length
  decide (count ≥ 3 ∧ count ≤ 6)

/-- The method `clearRound`. -/
def clearRound (s : GameState) : GameState :=
  { s with
    roundActive := false
    currentTopic := []
    currentWord := []
    currentLiarId := 0
    votes := []
    players := s.players.map
      (fun (pair : Nat × PlayerState) => (pair.1, { pair.2 with role := PlayerRole.NONE })) }

/-- The method `getCurrentTopic`. -/
def getCurrentTopic (s : GameState) : List Byte := s.currentTopic

/-- The method `getCurrentWord`. -/
def getCurrentWord (s : GameState) : List Byte := s.currentWord

/-- The method `getCurrentLiarId`. -/
def getCurrentLiarId (s : GameState) : Nat := s.currentLiarId

/-- The method `isRoundActive`. -/
def isRoundActive (s : GameState) : Bool := s.roundActive

/-- The method `pickRandomTopicAndWord`; `topicIndex` is the draw from
`[0, TOPIC_WORDS.size() - 1]` and `wordIndex` the draw from `[0, words.size() - 1]`. -/
def pickRandomTopicAndWord (topicIndex wordIndex : Nat) : List Byte × List Byte :=
  if TOPIC_WORDS.isEmpty then ([], [])
  else
    let topicPair := TOPIC_WORDS.getD topicIndex ([], [])
    let topic := topicPair.1
    let words := topicPair.2
    if words.isEmpty then (topic, [])
    else
      let word := words.getD wordIndex []
      (topic, word)

/-- The method `startNewRound`; `liarIndex` is the draw from `[0, playerIds.size() - 1]`,
the other two draws are those of `pickRandomTopicAndWord`. -/
def startNewRound (s : GameState) (topicIndex wordIndex liarIndex : Nat) : GameState :=
  if s.players.length < 3 ∨ s.players.length > 6 then s
  else
    let s := clearRound s
    let tw := pickRandomTopicAndWord topicIndex wordIndex
    let s := { s with currentTopic := tw.1, currentWord := tw.2 }
    let playerIds := s.players.map (fun pair => pair.1)
    let s := { s with currentLiarId := playerIds.getD liarIndex 0 }
    let s := { s with
      players := s.players.map (fun (pair : Nat × PlayerState) =>
        if pair.1 = s.currentLiarId then (pair.1, { pair.2 with role := PlayerRole.LIAR })
        else (pair.1, { pair.2 with role := PlayerRole.GUESSER })) }
    { s with roundActive := true }

/-- The method `submitVote`: the returned flag and the state after the call. -/
def submitVote (s : GameState) (voterId targetId : Nat) : Bool × GameState :=
  if !s.roundActive then (false, s)
  else if (UMap.find s.votes voterId).isSome then (false, s)
  else if (UMap.find s.players voterId).isNone ∨ (UMap.find s.players targetId).isNone then
    (false, s)
  else (true, { s with votes := UMap.assign s.votes voterId targetId })

/-- The method `hasPlayerVoted`. -/
def hasPlayerVoted (s : GameState) (playerId : Nat) : Bool :=
  (UMap.find s.votes playerId).isSome

/-- The method `getVoteTally`: `tally[targetId]++` for every vote, a missing count
starting at 0. A count is at most the number of votes. -/
def getVoteTally (s : GameState) : UMap Nat :=
  s.votes.foldl
    (fun tally vote => UMap.assign tally vote.2 ((UMap.find tally vote.2).getD 0 + 1)) []

/-- The method `calculateAndApplyScores`. -/
def calculateAndApplyScores (s : GameState) (liarCaught : Bool) (votedOutId : Nat)
    (hasMajority : Bool) : GameState :=
  if !s.roundActive ∨ s.currentLiarId = 0 then s
  else if liarCaught ∧ votedOutId = s.currentLiarId ∧ hasMajority then
    { s with
      players := s.players.map (fun (pair : Nat × PlayerState) =>
        if pair.2.role = PlayerRole.GUESSER then
          if (UMap.find s.votes pair.1).isSome ∧
              UMap.find s.votes pair.1 = some s.currentLiarId then
            (pair.1, { pair.2 with score := pair.2.score + 1 })
          else pair
        else pair) }
  else if !liarCaught ∧ hasMajority ∧ votedOutId ≠ s.currentLiarId then
    match UMap.find s.players s.currentLiarId with
    | some liar =>
      { s with
        players := UMap.assign s.players s.currentLiarId { liar with score := liar.score + 2 } }
    | none => s
  else s

/-- The method `getPlayerScore`. -/
def getPlayerScore (s : GameState) (playerId : Nat) : Int :=
  match UMap.find s.players playerId with
  | some p => p.score
  | none => 0

end GameState

/-! ## Packet callback of the game server (`game_server.cpp`) -/

/-- The loop over `tally` in the vote resolution of the CHAT_MESSAGE handler: it returns
`(winnerId, maxVotes)`, both started at 0. -/
def tallyWinner (tally : UMap Nat) : Nat × Nat :=
  tally.foldl
    (fun best entry => if entry.2 > best.2 then (entry.1, entry.2) else best) (0, 0)

/-- The vote resolution of the CHAT_MESSAGE handler once every player has voted, for the
tally in its iteration order, `liarId = getCurrentLiarId()` and
`totalPlayers = getPlayerCount()`: the `VoteResult` that is broadcast, and `hasMajority`. -/
def resolveVotes (tally : UMap Nat) (liarId totalPlayers : Nat) : VoteResult × Bool :=
  let best := tallyWinner tally
  let winnerId := best.1
  let maxVotes := best.2
  let hasMajority := decide (maxVotes > totalPlayers / 2)
  let liarCaught := hasMajority && decide (winnerId = liarId)
  ({ tally := tally, winnerId := winnerId, liarCaught := liarCaught }, hasMajority)

/-- The lambda `startNewRoundIfPossible` of the packet callback: the game state after
the call and the role packets handed to `server.sendPacket`, each with its recipient. -/
def startNewRoundIfPossible (gameState : GameState) (topicIndex wordIndex liarIndex : Nat) :
    GameState × List (Nat × Packet) :=
  if !gameState.canStartRound then (gameState, [])
  else if gameState.isRoundActive then (gameState, [])
  else
    let gameState := gameState.startNewRound topicIndex wordIndex liarIndex
    let topic := gameState.getCurrentTopic
    let word := gameState.getCurrentWord
    let liarId := gameState.getCurrentLiarId
    if liarId = 0 ∨ topic.isEmpty then (gameState, [])
    else
      let allPlayerStates := gameState.getAllPlayerStates
      (gameState, allPlayerStates.flatMap (fun player =>
        if player.role = PlayerRole.LIAR then
          [(player.id, createRoleAssignmentPacket
            { playerId := player.id, role := PlayerRole.LIAR, topic := topic,
              secretWord := [] })]
        else if player.role = PlayerRole.GUESSER then
          [(player.id, createRoleAssignmentPacket
            { playerId := player.id, role := PlayerRole.GUESSER, topic := topic,
              secretWord := word })]
        else []))

/-! ## Sample states -/

/-- A lobby of two players, no round. -/
def sampleLobby : GameState :=
  { players := [(1, { id := 1, username := bytesOf "ann", role := PlayerRole.NONE, score := 0 }),
                (2, { id := 2, username := bytesOf "bob", role := PlayerRole.NONE, score := 5 })],
    roundActive := false, currentTopic := [], currentWord := [], currentLiarId := 0,
    votes := [] }

/-- Three players 1, 2, 3 and no round. -/
def sampleIdle : GameState :=
  { players := [(1, { id := 1, username := bytesOf "ann", role := PlayerRole.NONE, score := 0 }),
                (2, { id := 2, username := bytesOf "bob", role := PlayerRole.NONE, score := 0 }),
                (3, { id := 3, username := bytesOf "cy", role := PlayerRole.NONE, score := 0 })],
    roundActive := false, currentTopic := [], currentWord := [], currentLiarId := 0,
    votes := [] }

/-- The round of the specification's scenario, with the given votes: players 1, 2, 3,
topic Fruit, word Apple, liar 2. -/
def sampleRound (votes : UMap Nat) : GameState :=
  { players := [(1, { id := 1, username := bytesOf "ann", role := PlayerRole.GUESSER, score := 0 }),
                (2, { id := 2, username := bytesOf "bob", role := PlayerRole.LIAR, score := 0 }),
                (3, { id := 3, username := bytesOf "cy", role := PlayerRole.GUESSER, score := 0 })],
    roundActive := true, currentTopic := bytesOf "Fruit", currentWord := bytesOf "Apple",
    currentLiarId := 2, votes := votes }

/-! ## Players of the round state machine (`game_state.cpp`) -/

/-- The call `m.erase(k)`: the entry of key `k`, if any, is removed; the others keep
their order. -/
def UMap.erase {V : Type} (m : UMap V) (k : Nat) : UMap V :=
  m.filter (fun entry => decide (entry.1 ≠ k))

/-- The method `addPlayer`: the returned flag and the state after the call. A new player
is `PlayerState(id, username)`: role NONE, score 0. -/
def GameState.addPlayer (s : GameState) (id : Nat) (username : List Byte) :
    Bool × GameState :=
  if (UMap.find s.players id).isSome then (false, s)
  else
    (true, { s with
      players := UMap.assign s.players id
        { id := id, username := username, role := PlayerRole.NONE, score := 0 } })

/-- The method `removePlayer`: the returned flag and the state after the call. The vote
of the player and every vote for the player are erased, and the liar id is zeroed when
the player was the liar. -/
def GameState.removePlayer (s : GameState) (id : Nat) : Bool × GameState :=
  if (UMap.find s.players id).isNone then (false, s)
  else
    let votes := UMap.erase s.votes id
    let votes := votes.filter (fun vote => decide (vote.2 ≠ id))
    let players := UMap.erase s.players id
    let currentLiarId := if s.currentLiarId = id then 0 else s.currentLiarId
    (true, { s with votes := votes, players := players, currentLiarId := currentLiarId })

/-- The method `getPlayerState`: the player, or `PlayerState()` for an unknown id. -/
def GameState.getPlayerState (s : GameState) (id : Nat) : PlayerState :=
  match UMap.find s.players id with
  | some p => p
  | none => PlayerState.default

/-- The method `hasPlayer`. -/
def GameState.hasPlayer (s : GameState) (id : Nat) : Bool :=
  (UMap.find s.players id).isSome

/-- The method `clearAllPlayers`: `players_.clear()` then `clearRound()`. -/
def GameState.clearAllPlayers (s : GameState) : GameState :=
  GameState.clearRound { s with players := [] }

/-- The method `clearVotes`. -/
def GameState.clearVotes (s : GameState) : GameState := { s with votes := [] }

/-- The states a `GameState` object can be in: the constructed one, and the result of any
public mutating method called with any arguments on such a state. -/
inductive GameState.Reachable : GameState → Prop
  | new : GameState.Reachable GameState.new
  | addPlayer (s : GameState) (id : Nat) (username : List Byte) :
      GameState.Reachable s → GameState.Reachable (s.addPlayer id username).2
  | removePlayer (s : GameState) (id : Nat) :
      GameState.Reachable s → GameState.Reachable (s.removePlayer id).2
  | clearAllPlayers (s : GameState) :
      GameState.Reachable s → GameState.Reachable s.clearAllPlayers
  | startNewRound (s : GameState) (topicIndex wordIndex liarIndex : Nat) :
      GameState.Reachable s →
      GameState.Reachable (s.startNewRound topicIndex wordIndex liarIndex)
  | clearRound (s : GameState) :
      GameState.Reachable s → GameState.Reachable s.clearRound
  | submitVote (s : GameState) (voterId targetId : Nat) :
      GameState.Reachable s → GameState.Reachable (s.submitVote voterId targetId).2
  | clearVotes (s : GameState) :
      GameState.Reachable s → GameState.Reachable s.clearVotes
  | calculateAndApplyScores (s : GameState) (liarCaught : Bool) (votedOutId : Nat)
      (hasMajority : Bool) :
      GameState.Reachable s →
      GameState.Reachable (s.calculateAndApplyScores liarCaught votedOutId hasMajority)

/-! ## PLAYER_LEAVE in the packet callback (`game_server.cpp`) -/

/-- The constant `MessageType::PLAYER_LEAVE`. -/
def MessageType.PLAYER_LEAVE : Nat := 13

/-- The function `createPlayerStatePacket`. -/
def createPlayerStatePacket (type : Nat) (state : PlayerState) : Packet :=
  Packet.new type (serializePlayerState state)

/-- A call the packet callback makes on the server to send a packet. -/
inductive Outgoing where
  | sendPacket (clientId : Nat) (packet : Packet)
  | broadcast (packet : Packet)
  | broadcastExcept (excludeId : Nat) (packet : Packet)
  deriving DecidableEq, Repr

/-- The `case MessageType::PLAYER_LEAVE` of the packet callback for the connection
`clientId`: the game state after it and the calls made on the server, in order. The
draws are those of the round it may start. -/
def handlePlayerLeave (gameState : GameState) (clientId : Nat)
    (topicIndex wordIndex liarIndex : Nat) : GameState × List Outgoing :=
  let leavingPlayer := gameState.getPlayerState clientId
  if !gameState.hasPlayer clientId then (gameState, [])
  else
    let roundWasActive := gameState.isRoundActive
    let removed := gameState.removePlayer clientId
    let gameState := removed.2
    if !removed.1 then (gameState, [])
    else
      let gameState := if roundWasActive then gameState.clearRound else gameState
      let leavePacket := createPlayerStatePacket MessageType.PLAYER_LEAVE leavingPlayer
      let out := [Outgoing.broadcastExcept clientId leavePacket]
      let allPlayers := gameState.getAllPlayerStates
      let statePacket := createGameStateUpdatePacket allPlayers
      let out := out ++ [Outgoing.broadcast statePacket]
      if gameState.getPlayerCount < 3 then (gameState, out)
      else
        let started := startNewRoundIfPossible gameState topicIndex wordIndex liarIndex
        (started.1, out ++ started.2.map (fun m => Outgoing.sendPacket m.1 m.2))

/-! ## Connection registry (`connection_manager.cpp`) -/

/-- The enum `ConnectionStatus`. -/
inductive ConnectionStatus where
  | CONNECTING
  | ACTIVE
  | IDLE
  | DISCONNECTING
  deriving DecidableEq, Repr

/-- The struct `ConnectionInfo`; the socket handle and the peer address are numbers, the
two time points are clock readings. -/
structure ConnectionInfo where
  id : Nat
  socket : Nat
  address : Nat
  username : List Byte
  status : ConnectionStatus
  lastHeartbeat : Nat
  connectedAt : Nat
  deriving DecidableEq, Repr

/-- The constructor `ConnectionInfo(id, sock, addr)`: status CONNECTING, empty username;
the two readings of the clock, taken one after the other, are the one value `now`. -/
def ConnectionInfo.new (id socket address now : Nat) : ConnectionInfo :=
  { id := id, socket := socket, address := address, username := [],
    status := ConnectionStatus.CONNECTING, lastHeartbeat := now, connectedAt := now }

/-- The class `ConnectionManager`: the map `connections_` (the mutex apart); an entry is
the `ConnectionInfo` its shared pointer designates. -/
structure ConnectionManager where
  connections : UMap ConnectionInfo
  deriving DecidableEq, Repr

namespace ConnectionManager

/-- The method `addConnection`: the returned flag and the registry after the call; `now`
is the reading of the clock. -/
def addConnection (m : ConnectionManager) (id socket address now : Nat) :
    Bool × ConnectionManager :=
  if (UMap.find m.connections id).isSome then (false, m)
  else
    let info := ConnectionInfo.new id socket address now
    (true, { m with connections := UMap.assign m.connections id info })

/-- The method `getConnection`: the entry, `none` for `nullptr`. -/
def getConnection (m : ConnectionManager) (id : Nat) : Option ConnectionInfo :=
  UMap.find m.connections id

/-- The method `getActiveConnections`: the loop pushes the id of every ACTIVE entry. -/
def getActiveConnections (m : ConnectionManager) : List Nat :=
  m.connections.foldl
    (fun ids entry => if entry.2.status = ConnectionStatus.ACTIVE then ids ++ [entry.1] else ids)
    []

/-- The method `getActiveConnectionCount`: the loop counts the ACTIVE entries. -/
def getActiveConnectionCount (m : ConnectionManager) : Nat :=
  m.connections.foldl
    (fun count entry => if entry.2.status = ConnectionStatus.ACTIVE then count + 1 else count)
    0

/-- The loop of `cleanupInactiveConnections`, from the iterator position on: an entry
whose status is DISCONNECTING is erased, any other is stepped over. -/
def cleanupLoop : UMap ConnectionInfo → UMap ConnectionInfo
  | [] => []
  | entry :: rest =>
    if entry.2.status = ConnectionStatus.DISCONNECTING then cleanupLoop rest
    else entry :: cleanupLoop rest

/-- The method `cleanupInactiveConnections`. -/
def cleanupInactiveConnections (m : ConnectionManager) : ConnectionManager :=
  { m with connections := cleanupLoop m.connections }

end ConnectionManager

/-! ## More sample states -/

/-- An active round of four players: the sample round joined by player 4. -/
def sampleRoundOfFour (votes : UMap Nat) : GameState :=
  { sampleRound votes with
    players := (sampleRound votes).players ++
      [(4, { id := 4, username := bytesOf "dee", role := PlayerRole.GUESSER, score := 0 })] }

/-- A registry with the connections 1 (ACTIVE), 2 (DISCONNECTING), 3 (ACTIVE) and
4 (CONNECTING). -/
def sampleRegistry : ConnectionManager :=
  { connections :=
      [(1, { ConnectionInfo.new 1 101 7 0 with status := ConnectionStatus.ACTIVE }),
       (2, { ConnectionInfo.new 2 102 7 1 with status := ConnectionStatus.DISCONNECTING }),
       (3, { ConnectionInfo.new 3 103 7 2 with
              status := ConnectionStatus.ACTIVE, username := bytesOf "cy" }),
       (4, ConnectionInfo.new 4 104 7 3)] }

/-- The condition on a state with no active round: no topic, no word, no liar, no vote,
and every role NONE (specification side). -/
def GameState.idleClean (s : GameState) : Prop :=
  s.roundActive = false →
    s.currentTopic = [] ∧ s.currentWord = [] ∧ s.currentLiarId = 0 ∧ s.votes = [] ∧
    ∀ pair ∈ s.players, pair.2.role = PlayerRole.NONE

/-- The condition that the players and the votes are maps and that every recorded vote
is by a current player for a current player (specification side). -/
def GameState.votesKnown (s : GameState) : Prop :=
  (UMap.keys s.players).Nodup ∧ (UMap.keys s.votes).Nodup ∧
  ∀ vote ∈ s.votes, vote.1 ∈ UMap.keys s.players ∧ vote.2 ∈ UMap.keys s.players

/-- The state after the joins of players 1, 2 and 3 on a fresh GameState. -/
def sampleJoined : GameState :=
  (((GameState.new.addPlayer 1 (bytesOf "ann")).2.addPlayer 2 (bytesOf "bob")).2.addPlayer 3
    (bytesOf "cy")).2

/-- The state after a round start on `sampleJoined` with the draws 0, 0, 1 and the votes
of players 1 and 3 for player 2. -/
def sampleVoted : GameState :=
  (((sampleJoined.startNewRound 0 0 1).submitVote 1 2).2.submitVote 3 2).2

/-! ## Message queue (`message_queue.cpp`) -/

/-- The class `MessageQueue`: the `std::queue<Packet>`, front first (the mutex and the
condition variable apart). -/
structure MessageQueue where
  queue : List Packet
  deriving DecidableEq, Repr

namespace MessageQueue

/-- The constructor `MessageQueue()`: an empty queue. -/
def new : MessageQueue := { queue := [] }

/-- The method `push`: the packet goes to the back. -/
def push (q : MessageQueue) (packet : Packet) : MessageQueue :=
  { queue := q.queue ++ [packet] }

/-- The method `tryPop(packet)`: the returned flag, the queue after the call and the
caller's packet after the call. -/
def tryPop (q : MessageQueue) (packet : Packet) : Bool × MessageQueue × Packet :=
  match q.queue with
  | [] => (false, q, packet)
  | front :: rest => (true, { queue := rest }, front)

/-- The method `pop` once the wait is over: the front packet and the queue without it;
`none` while the queue is empty and the caller still waits. -/
def pop (q : MessageQueue) : Option (Packet × MessageQueue) :=
  match q.queue with
  | [] => none
  | front :: rest => some (front, { queue := rest })

/-- The method `empty`. -/
def empty (q : MessageQueue) : Bool := q.queue.isEmpty

/-- The method `size`. -/
def size (q : MessageQueue) : Nat := q.queue.length

/-- The method `clear`. -/
def clear (_q : MessageQueue) : MessageQueue := { queue := [] }

end MessageQueue

/-- One call on a message queue, in a sequence of calls (specification side). -/
inductive QueueOp where
  | push (packet : Packet)
  | tryPop
  deriving DecidableEq, Repr

/-- A sequence of `push` and `tryPop` calls run on a queue: the queue after it, the
packets pushed, in order, and the packets the successful `tryPop` calls returned, in
order (specification side). -/
def MessageQueue.run : List QueueOp → MessageQueue → MessageQueue × List Packet × List Packet
  | [], q => (q, [], [])
  | QueueOp.push packet :: later, q =>
    let r := MessageQueue.run later (q.push packet)
    (r.1, packet :: r.2.1, r.2.2)
  | QueueOp.tryPop :: later, q =>
    let t := q.tryPop Packet.default
    let r := MessageQueue.run later t.2.1
    (r.1, r.2.1, if t.1 then t.2.2 :: r.2.2 else r.2.2)

/-! ## Sending and broadcasting (`server.cpp`) -/

/-- What the call of `send` on a connection's socket comes to in `Server::sendPacket`:
every byte sent, fewer bytes sent, `SOCKET_ERROR` with `WSAECONNRESET` or `WSAENOTCONN`,
or `SOCKET_ERROR` with another code. -/
inductive SendOutcome where
  | complete
  | partialWrite
  | connectionLost
  | failed
  deriving DecidableEq, Repr

/-- The method `ConnectionManager::setStatus`: the returned flag and the registry after
the call. -/
def ConnectionManager.setStatus (m : ConnectionManager) (id : Nat)
    (status : ConnectionStatus) : Bool × ConnectionManager :=
  match UMap.find m.connections id with
  | some info =>
    (true, { m with connections := UMap.assign m.connections id { info with status := status } })
  | none => (false, m)

namespace Server

/-- The method `disconnectClient`, on the registry: the returned flag and the registry
after the call (the socket and the thread list are left out). -/
def disconnectClient (m : ConnectionManager) (clientId : Nat) : Bool × ConnectionManager :=
  match m.getConnection clientId with
  | none => (false, m)
  | some _ => (true, (m.setStatus clientId ConnectionStatus.DISCONNECTING).2)

/-- The method `sendPacket`; `osSend clientId` is what `send` on that connection's socket
comes to. It returns the flag and the registry after the call. -/
def sendPacket (m : ConnectionManager) (osSend : Nat → SendOutcome) (clientId : Nat)
    (_packet : Packet) : Bool × ConnectionManager :=
  match m.getConnection clientId with
  | none => (false, m)
  | some connInfo =>
    if connInfo.status ≠ ConnectionStatus.ACTIVE then (false, m)
    else
      match osSend clientId with
      | SendOutcome.complete => (true, m)
      | SendOutcome.partialWrite => (false, m)
      | SendOutcome.connectionLost => (false, (disconnectClient m clientId).2)
      | SendOutcome.failed => (false, m)

/-- The loop of `broadcast` over the snapshot `activeConnections`: the registry after it
and the calls of `sendPacket` it made, each with the id and the returned flag. -/
def broadcastLoop (osSend : Nat → SendOutcome) (packet : Packet) :
    List Nat → ConnectionManager → ConnectionManager × List (Nat × Bool)
  | [], m => (m, [])
  | connId :: rest, m =>
    let sent := sendPacket m osSend connId packet
    let r := broadcastLoop osSend packet rest sent.2
    (r.1, (connId, sent.1) :: r.2)

/-- The method `broadcast`. -/
def broadcast (m : ConnectionManager) (osSend : Nat → SendOutcome) (packet : Packet) :
    ConnectionManager × List (Nat × Bool) :=
  let activeConnections := m.getActiveConnections
  broadcastLoop osSend packet activeConnections m

/-- The loop of `broadcastExcept` over the snapshot `activeConnections`. -/
def broadcastExceptLoop (osSend : Nat → SendOutcome) (excludeClientId : Nat)
    (packet : Packet) : List Nat → ConnectionManager → ConnectionManager × List (Nat × Bool)
  | [], m => (m, [])
  | connId :: rest, m =>
    if connId ≠ excludeClientId then
      let sent := sendPacket m osSend connId packet
      let r := broadcastExceptLoop osSend excludeClientId packet rest sent.2
      (r.1, (connId, sent.1) :: r.2)
    else broadcastExceptLoop osSend excludeClientId packet rest m

/-- The method `broadcastExcept`. -/
def broadcastExcept (m : ConnectionManager) (osSend : Nat → SendOutcome)
    (excludeClientId : Nat) (packet : Packet) : ConnectionManager × List (Nat × Bool) :=
  let activeConnections := m.getActiveConnections
  broadcastExceptLoop osSend excludeClientId packet activeConnections m

end Server

/-! ## PLAYER_JOIN in the packet callback (`game_server.cpp`) -/

/-- The constant `MessageType::PLAYER_JOINED`. -/
def MessageType.PLAYER_JOINED : Nat := 15

/-- The string `"Player " + std::to_string(clientId)`. -/
def defaultUsername (clientId : Nat) : List Byte := bytesOf ("Player " ++ toString clientId)

/-- The `case MessageType::PLAYER_JOIN` of the packet callback for the connection
`clientId`: the game state after it and the calls made on the server, in order. The
draws are those of the round it may start. -/
def handlePlayerJoin (gameState : GameState) (clientId : Nat) (packet : Packet)
    (topicIndex wordIndex liarIndex : Nat) : GameState × List Outgoing :=
  let username := defaultUsername clientId
  let username := if packet.getData.length > 0 then packet.getData else username
  let added := gameState.addPlayer clientId username
  let gameState := added.2
  if !added.1 then (gameState, [])
  else
    let allPlayers := gameState.getAllPlayerStates
    let statePacket := createGameStateUpdatePacket allPlayers
    let out := [Outgoing.sendPacket clientId statePacket]
    let newPlayer := gameState.getPlayerState clientId
    let joinPacket := createPlayerStatePacket MessageType.PLAYER_JOINED newPlayer
    let out := out ++ [Outgoing.broadcastExcept clientId joinPacket]
    let started := startNewRoundIfPossible gameState topicIndex wordIndex liarIndex
    (started.1, out ++ started.2.map (fun m => Outgoing.sendPacket m.1 m.2))

/-! ## CHAT_MESSAGE in the packet callback (`game_server.cpp`) -/

/-- The constant `MessageType::CHAT_MESSAGE`. -/
def MessageType.CHAT_MESSAGE : Nat := 16

/-- The function `createChatMessagePacket`. -/
def createChatMessagePacket (message : ChatMessage) : Packet :=
  Packet.new MessageType.CHAT_BROADCAST (serializeChatMessage message)

/-- The test of the two trimming loops: a space, `'\n'` or `'\r'`. -/
def isTrailingBlank (c : Byte) : Bool := c = 32 || c = 10 || c = 13

/-- The packet of a call made on the server. -/
def Outgoing.packet : Outgoing → Packet
  | Outgoing.sendPacket _ packet => packet
  | Outgoing.broadcast packet => packet
  | Outgoing.broadcastExcept _ packet => packet

/-- The vote resolution of the CHAT_MESSAGE case, entered after an accepted vote: when
every player has voted, the result is broadcast, the scores are applied, the round is
cleared, the roster is broadcast and a new round is started if possible. It returns the
game state after it and the calls made on the server, in order. -/
def resolveIfAllVoted (gameState : GameState) (topicIndex wordIndex liarIndex : Nat) :
    GameState × List Outgoing :=
  let totalPlayers := gameState.getPlayerCount
  let allPlayersForVoteCount := gameState.getAllPlayerStates
  let votesCount :=
    allPlayersForVoteCount.foldl
      (fun votesCount p => if gameState.hasPlayerVoted p.id then votesCount + 1 else votesCount)
      0
  if votesCount ≥ totalPlayers then
    let tally := gameState.getVoteTally
    let liarId := gameState.getCurrentLiarId
    let resolved := resolveVotes tally liarId totalPlayers
    let result := resolved.1
    let hasMajority := resolved.2
    let resultPacket := createVoteResultPacket result
    let out := [Outgoing.broadcast resultPacket]
    let gameState :=
      gameState.calculateAndApplyScores result.liarCaught result.winnerId hasMajority
    let gameState := gameState.clearRound
    let allPlayersUpdate := gameState.getAllPlayerStates
    let statePacket := createGameStateUpdatePacket allPlayersUpdate
    let out := out ++ [Outgoing.broadcast statePacket]
    let started := startNewRoundIfPossible gameState topicIndex wordIndex liarIndex
    (started.1, out ++ started.2.map (fun m => Outgoing.sendPacket m.1 m.2))
  else (gameState, [])

/-- The `case MessageType::CHAT_MESSAGE` of the packet callback for the connection
`clientId`, whose registry entry is `connInfo` (`none` for an unknown client): the game
state after it and the calls made on the server, in order. -/
def handleChatMessage (gameState : GameState) (connInfo : Option ConnectionInfo)
    (clientId : Nat) (packet : Packet) (topicIndex wordIndex liarIndex : Nat) :
    GameState × List Outgoing :=
  match connInfo with
  | none => (gameState, [])
  | some connInfo =>
    let message := packet.getData
    let message := message.rdropWhile isTrailingBlank
    if message.length > 6 ∧ message.take 6 = bytesOf "/vote " then
      if !gameState.isRoundActive then (gameState, [])
      else
        let targetName := message.drop 6
        let targetName := targetName.dropWhile (fun c => c = 32)
        let targetName := targetName.rdropWhile isTrailingBlank
        let allPlayers := gameState.getAllPlayerStates
        let targetId :=
          match allPlayers.find? (fun p => p.username = targetName) with
          | some p => p.id
          | none => 0
        if targetId = 0 then (gameState, [])
        else
          let voted := gameState.submitVote clientId targetId
          if !voted.1 then (voted.2, [])
          else resolveIfAllVoted voted.2 topicIndex wordIndex liarIndex
    else
      let player := gameState.getPlayerState clientId
      let username :=
        if player.id ≠ 0 then player.username
        else if connInfo.username.isEmpty then defaultUsername clientId
        else connInfo.username
      let chatMessage : ChatMessage :=
        { senderId := clientId, senderUsername := username, senderMessage := message }
      let chatPacket := createChatMessagePacket chatMessage
      (gameState, [Outgoing.broadcast chatPacket])

/-! ## Decoders with every read checked against the buffer

Each decoder of `serialization.cpp` once more, statement by statement, with every
`memcpy` and every `std::string::assign` replaced by a read that is defined only when the
bytes it touches lie at offsets below the buffer's size, and with the completed
iterations of its loop counted. A decoder that would touch a byte outside its buffer has
no value here. -/

/-- A `memcpy` of four bytes from `data + offset` followed by `ntohl`, defined when the
four bytes lie inside the buffer. -/
def readU32Checked (data : List Byte) (offset : Nat) : Option Nat :=
  if offset + 4 ≤ data.length then some (readU32 (data.drop offset)) else none

/-- The bytes `data + offset .. data + offset + len` (the argument of an `assign`, or the
buffer handed to a nested decoder), defined when they lie inside the buffer. -/
def sliceChecked (data : List Byte) (offset len : Nat) : Option (List Byte) :=
  if offset + len ≤ data.length then some ((data.drop offset).take len) else none

/-- The function `deserializePlayerState(data, size)` with checked reads. -/
def deserializePlayerStateChecked (data : List Byte) : Option PlayerState :=
  let state := PlayerState.default
  if data.length < 4 * 4 then some state
  else do
    let offset := 0
    let id ← readU32Checked data offset
    let state := { state with id := id }
    let offset := offset + 4
    let role ← readU32Checked data offset
    let state := { state with role := ⟨toI32 role⟩ }
    let offset := offset + 4
    let score ← readU32Checked data offset
    let state := { state with score := toI32 score }
    let offset := offset + 4
    if data.length < offset + 4 then some state
    else do
      let usernameLen ← readU32Checked data offset
      let offset := offset + 4
      if data.length ≥ offset + usernameLen ∧ usernameLen > 0 then do
        let username ← sliceChecked data offset usernameLen
        some { state with username := username }
      else some state

/-- The `for` loop of `extractGameStateUpdate` with checked reads; the last argument and
the second component of the value count the completed iterations. -/
def extractGameStateUpdateLoopChecked (data : List Byte) :
    Nat → Nat → List PlayerState → Nat → Option (List PlayerState × Nat)
  | 0, _, states, done => some (states, done)
  | n + 1, offset, states, done =>
    if data.length < offset + 4 * 4 then some (states, done)
    else do
      let usernameLen ← readU32Checked data (offset + 4 * 3)
      let playerSize := 4 * 4 + usernameLen
      if data.length < offset + playerSize then some (states, done)
      else do
        let buffer ← sliceChecked data offset playerSize
        let state ← deserializePlayerStateChecked buffer
        extractGameStateUpdateLoopChecked data n (offset + playerSize) (states ++ [state])
          (done + 1)

/-- The function `extractGameStateUpdate` with checked reads: the states and the number
of completed loop iterations. -/
def extractGameStateUpdateChecked (packet : Packet) : Option (List PlayerState × Nat) :=
  let states : List PlayerState := []
  let data := packet.getData
  if data.length < 4 then some (states, 0)
  else do
    let count ← readU32Checked data 0
    extractGameStateUpdateLoopChecked data count 4 states 0

/-- The function `deserializeChatMessage(data, size)` with checked reads. -/
def deserializeChatMessageChecked (data : List Byte) : Option ChatMessage :=
  let message := ChatMessage.default
  if data.length < 4 * 3 then some message
  else do
    let offset := 0
    let senderId ← readU32Checked data offset
    let message := { message with senderId := senderId }
    let offset := offset + 4
    let usernameLen ← readU32Checked data offset
    let offset := offset + 4
    let fits := decide (usernameLen > 0 ∧ offset + usernameLen ≤ data.length)
    let message ←
      if fits then do
        let username ← sliceChecked data offset usernameLen
        some { message with senderUsername := username }
      else some message
    let offset := if fits then offset + usernameLen else offset
    if offset + 4 > data.length then some message
    else do
      let messageLen ← readU32Checked data offset
      let offset := offset + 4
      if messageLen > 0 ∧ offset + messageLen ≤ data.length then do
        let text ← sliceChecked data offset messageLen
        some { message with senderMessage := text }
      else some message

/-- The function `deserializeRoleAssignment(data, size)` with checked reads. -/
def deserializeRoleAssignmentChecked (data : List Byte) : Option RoleAssignment :=
  let assignment := RoleAssignment.default
  if data.length < 4 * 3 then some assignment
  else do
    let offset := 0
    let playerId ← readU32Checked data offset
    let assignment := { assignment with playerId := playerId }
    let offset := offset + 4
    let role ← readU32Checked data offset
    let assignment := { assignment with role := ⟨toI32 role⟩ }
    let offset := offset + 4
    if data.length < offset + 4 then some assignment
    else do
      let topicLen ← readU32Checked data offset
      let offset := offset + 4
      let fits := decide (topicLen > 0 ∧ offset + topicLen ≤ data.length)
      let assignment ←
        if fits then do
          let topic ← sliceChecked data offset topicLen
          some { assignment with topic := topic }
        else some assignment
      let offset := if fits then offset + topicLen else offset
      if offset + 4 > data.length then some assignment
      else do
        let wordLen ← readU32Checked data offset
        let offset := offset + 4
        if wordLen > 0 ∧ offset + wordLen ≤ data.length then do
          let word ← sliceChecked data offset wordLen
          some { assignment with secretWord := word }
        else some assignment

/-- The function `deserializeVoteCommand(data, size)` with checked reads. -/
def deserializeVoteCommandChecked (data : List Byte) : Option VoteCommand :=
  let vote := VoteCommand.default
  if data.length < 4 * 2 then some vote
  else do
    let voterId ← readU32Checked data 0
    let vote := { vote with voterId := voterId }
    let targetId ← readU32Checked data 4
    let vote := { vote with targetId := targetId }
    some vote

/-- The `for` loop of `deserializeVoteResult` with checked reads; the last argument and
the last component of the value count the completed iterations. -/
def deserializeVoteResultLoopChecked (data : List Byte) :
    Nat → Nat → UMap Nat → Nat → Option (Nat × UMap Nat × Nat)
  | 0, offset, tally, done => some (offset, tally, done)
  | n + 1, offset, tally, done =>
    if data.length < offset + 4 * 2 then some (offset, tally, done)
    else do
      let targetId ← readU32Checked data offset
      let offset := offset + 4
      let voteCount ← readU32Checked data offset
      let offset := offset + 4
      deserializeVoteResultLoopChecked data n offset (UMap.assign tally targetId voteCount)
        (done + 1)

/-- The function `deserializeVoteResult(data, size)` with checked reads: the result and
the number of completed loop iterations. -/
def deserializeVoteResultChecked (data : List Byte) : Option (VoteResult × Nat) :=
  let result := VoteResult.default
  if data.length < 4 * 3 then some (result, 0)
  else do
    let offset := 0
    let count ← readU32Checked data offset
    let offset := offset + 4
    let r ← deserializeVoteResultLoopChecked data count offset result.tally 0
    let offset := r.1
    let result := { result with tally := r.2.1 }
    if data.length < offset + 4 * 2 then some (result, r.2.2)
    else do
      let winnerId ← readU32Checked data offset
      let result := { result with winnerId := winnerId }
      let offset := offset + 4
      let caught ← readU32Checked data offset
      some ({ result with liarCaught := decide (caught ≠ 0) }, r.2.2)

/-! ## Big-endian fields -/

theorem be32_length (n : Nat) : (be32 n).length = 4 := rfl

theorem be16_length (n : Nat) : (be16 n).length = 2 := rfl

theorem readU32_be32_append (n : Nat) (rest : List Byte) :
    readU32 (be32 n ++ rest) = n % 2 ^ 32 := by
  simp only [be32, readU32, List.cons_append, List.nil_append, Fin.ofNat, Fin.val_mk]
  omega

theorem readU16_be16_append (n : Nat) (rest : List Byte) :
    readU16 (be16 n ++ rest) = n % 2 ^ 16 := by
  simp only [be16, readU16, List.cons_append, List.nil_append, Fin.ofNat, Fin.val_mk]
  omega

theorem readU32_lt (buf : List Byte) : readU32 buf < 2 ^ 32 := by
  unfold readU32
  split
  · rename_i b0 b1 b2 b3 _
    have h0 := b0.isLt
    have h1 := b1.isLt
    have h2 := b2.isLt
    have h3 := b3.isLt
    omega
  · decide

theorem readU32_append (a b : List Byte) (h : 4 ≤ a.length) :
    readU32 (a ++ b) = readU32 a := by
  match a, h with
  | b0 :: b1 :: b2 :: b3 :: _, _ => rfl

theorem readU16_append (a b : List Byte) (h : 2 ≤ a.length) :
    readU16 (a ++ b) = readU16 a := by
  match a, h with
  | b0 :: b1 :: _, _ => rfl


theorem drop_be32_append (n : Nat) (rest : List Byte) : (be32 n ++ rest).drop 4 = rest := rfl

theorem drop_be16_append (n : Nat) (rest : List Byte) : (be16 n ++ rest).drop 2 = rest := rfl

theorem drop_header_append (n t : Nat) (rest : List Byte) :
    (be32 n ++ (be16 t ++ rest)).drop 6 = rest := rfl

theorem header_append_length (n t : Nat) (rest : List Byte) :
    (be32 n ++ (be16 t ++ rest)).length = 6 + rest.length := by
  simp [be32, be16]; omega

/-- Decoding a well-formed frame followed by arbitrary bytes. -/
theorem Packet.deserialize_frame (n t : Nat) (d rest : List Byte)
    (hn : n = 6 + d.length) (hn32 : n < 2 ^ 32) (ht : t < 2 ^ 16) :
    Packet.deserialize (be32 n ++ (be16 t ++ (d ++ rest))) =
      { length := n, type := t, data := d } := by
  have hlen := header_append_length n t (d ++ rest)
  have hr32 : readU32 (be32 n ++ (be16 t ++ (d ++ rest))) = n := by
    rw [readU32_be32_append, Nat.mod_eq_of_lt hn32]
  have hr16 : readU16 ((be32 n ++ (be16 t ++ (d ++ rest))).drop 4) = t := by
    rw [drop_be32_append, readU16_be16_append, Nat.mod_eq_of_lt ht]
  unfold Packet.deserialize
  simp only [Packet.default, PacketHeader.SIZE, Nat.reduceAdd, hlen, hr32, hr16,
    drop_header_append, List.length_append]
  rw [if_neg (by omega), if_neg (by omega)]
  have : n - 6 = d.length := by omega
  simp [this]

theorem Packet.serialize_new (t : Nat) (d : List Byte) (hd : d.length < 2 ^ 32 - 6) :
    (Packet.new t d).serialize = be32 (6 + d.length) ++ (be16 t ++ d) := by
  have : (6 + d.length) % 4294967296 = 6 + d.length := Nat.mod_eq_of_lt (by omega)
  simp [Packet.new, Packet.updateHeader, Packet.serialize, PacketHeader.SIZE, this]

theorem Packet.new_eq (t : Nat) (d : List Byte) (hd : d.length < 2 ^ 32 - 6) :
    Packet.new t d = { length := 6 + d.length, type := t, data := d } := by
  have : (6 + d.length) % 4294967296 = 6 + d.length := Nat.mod_eq_of_lt (by omega)
  simp [Packet.new, Packet.updateHeader, PacketHeader.SIZE, this]

/-- C1: for every 16-bit type `t`, every payload `d` shorter than `2^32 - 6` bytes and
every trailing byte sequence (the empty one included), `Packet::deserialize` applied to
`Packet(t, d).serialize()` followed by the trailing bytes returns `Packet(t, d)` again:
the same type, the same payload (and the same header length), the trailing bytes being
ignored. -/
theorem Packet.deserialize_serialize_append (t : Nat) (d trailing : List Byte)
    (ht : t < 2 ^ 16) (hd : d.length < 2 ^ 32 - 6) :
    Packet.deserialize ((Packet.new t d).serialize ++ trailing) = Packet.new t d ∧
    (Packet.deserialize ((Packet.new t d).serialize ++ trailing)).getType = t ∧
    (Packet.deserialize ((Packet.new t d).serialize ++ trailing)).getData = d := by
  have h : Packet.deserialize ((Packet.new t d).serialize ++ trailing) = Packet.new t d := by
    rw [Packet.serialize_new t d hd, Packet.new_eq t d hd, List.append_assoc,
      List.append_assoc]
    exact Packet.deserialize_frame (6 + d.length) t d trailing rfl (by omega) ht
  refine ⟨h, ?_, ?_⟩
  · rw [h]; rfl
  · rw [h]; rfl

/-- The round trip of C1 on the CHAT packet with payload `1, 2, 3` followed by two stray bytes. -/
theorem Packet.deserialize_serialize_append_witness :
    (2 : Nat) < 2 ^ 16 ∧ ([1, 2, 3] : List Byte).length < 2 ^ 32 - 6 ∧
    (Packet.deserialize ((Packet.new 2 [1, 2, 3]).serialize ++ [9, 9]) = Packet.new 2 [1, 2, 3] ∧
     (Packet.deserialize ((Packet.new 2 [1, 2, 3]).serialize ++ [9, 9])).getType = 2 ∧
     (Packet.deserialize ((Packet.new 2 [1, 2, 3]).serialize ++ [9, 9])).getData = [1, 2, 3]) :=
  ⟨by decide, by decide,
    Packet.deserialize_serialize_append 2 [1, 2, 3] [9, 9] (by decide) (by decide)⟩

theorem readU32_eq_beValue (b : List Byte) (h : 4 ≤ b.length) :
    readU32 b = beValue (b.take 4) := by
  match b, h with
  | b0 :: b1 :: b2 :: b3 :: _, _ =>
    simp only [readU32, beValue, List.take_succ_cons, List.take_zero, List.foldl_cons,
      List.foldl_nil]
    omega

theorem readU16_eq_beValue (b : List Byte) (h : 2 ≤ b.length) :
    readU16 b = beValue (b.take 2) := by
  match b, h with
  | b0 :: b1 :: _, _ =>
    simp only [readU16, beValue, List.take_succ_cons, List.take_zero, List.foldl_cons,
      List.foldl_nil]
    omega

theorem Packet.isCompletePacket_iff (b : List Byte) :
    Packet.isCompletePacket b = true ↔ 6 ≤ b.length ∧ readU32 b ≤ b.length := by
  unfold Packet.isCompletePacket
  simp only [PacketHeader.SIZE, Nat.reduceAdd]
  split
  · constructor
    · intro h; cases h
    · intro h; omega
  · simp only [decide_eq_true_eq]
    constructor
    · intro h; exact ⟨by omega, h⟩
    · intro h; exact h.2

theorem Packet.isCompletePacket_append (b e : List Byte)
    (h : Packet.isCompletePacket b = true) : Packet.isCompletePacket (b ++ e) = true := by
  rw [Packet.isCompletePacket_iff] at h ⊢
  rw [readU32_append b e (by omega), List.length_append]
  omega

/-- C2: for every 16-bit type `t` and payload `d` with `|d| < 2^32 - 6`,
`Packet(t, d).serialize()` is the 4-byte big-endian encoding of `6 + |d|`, then the 2-byte
big-endian encoding of `t`, then `d` unchanged; the output has exactly `6 + |d|` bytes,
which is `getTotalSize()`, equals the length field it carries, and is at least 6. -/
theorem Packet.serialize_layout (t : Nat) (d : List Byte)
    (ht : t < 2 ^ 16) (hd : d.length < 2 ^ 32 - 6) :
    (Packet.new t d).serialize = be32 (6 + d.length) ++ be16 t ++ d ∧
    beValue ((Packet.new t d).serialize.take 4) = 6 + d.length ∧
    beValue (((Packet.new t d).serialize.drop 4).take 2) = t ∧
    (Packet.new t d).serialize.drop 6 = d ∧
    (Packet.new t d).serialize.length = 6 + d.length ∧
    (Packet.new t d).serialize.length = (Packet.new t d).getTotalSize ∧
    (Packet.new t d).serialize.length = readU32 (Packet.new t d).serialize ∧
    6 ≤ (Packet.new t d).serialize.length := by
  have hs := Packet.serialize_new t d hd
  have hlen : (Packet.new t d).serialize.length = 6 + d.length := by
    rw [hs, header_append_length]
  have hr : readU32 (Packet.new t d).serialize = 6 + d.length := by
    rw [hs, readU32_be32_append, Nat.mod_eq_of_lt (by omega)]
  refine ⟨by rw [hs, List.append_assoc], ?_, ?_, ?_, hlen, ?_, ?_, ?_⟩
  · rw [← readU32_eq_beValue _ (by omega), hr]
  · rw [← readU16_eq_beValue _ (by rw [List.length_drop]; omega), hs, drop_be32_append,
      readU16_be16_append, Nat.mod_eq_of_lt ht]
  · rw [hs, drop_header_append]
  · rw [hlen, Packet.new_eq t d hd]; simp [Packet.getTotalSize, PacketHeader.SIZE]
  · rw [hlen, hr]
  · omega

/-- The layout of C2 on the ECHO packet with payload `7, 8`. -/
theorem Packet.serialize_layout_witness :
    (1 : Nat) < 2 ^ 16 ∧ ([7, 8] : List Byte).length < 2 ^ 32 - 6 ∧
    (Packet.new 1 [7, 8]).serialize = [0, 0, 0, 8, 0, 1, 7, 8] ∧
    (Packet.new 1 [7, 8]).serialize.length = readU32 (Packet.new 1 [7, 8]).serialize :=
  ⟨by decide, by decide, by decide,
    (Packet.serialize_layout 1 [7, 8] (by decide) (by decide)).2.2.2.2.2.2.1⟩

/-- C3: for every byte buffer `b`, `Packet::isCompletePacket(b)` is true exactly when `b`
has at least 6 bytes and the big-endian 32-bit value of its first 4 bytes is at most the
number of bytes in `b`. -/
theorem Packet.isCompletePacket_spec (b : List Byte) :
    Packet.isCompletePacket b = true ↔ 6 ≤ b.length ∧ beValue (b.take 4) ≤ b.length := by
  rw [Packet.isCompletePacket_iff]
  constructor
  · intro h; exact ⟨h.1, by rw [← readU32_eq_beValue b (by omega)]; exact h.2⟩
  · intro h; exact ⟨h.1, by rw [readU32_eq_beValue b (by omega)]; exact h.2⟩

/-- C6: `isCompletePacket` is monotone under extension: a buffer that holds a complete
packet still does after any bytes are appended to it. -/
theorem Packet.isCompletePacket_mono (b e : List Byte)
    (h : Packet.isCompletePacket b = true) : Packet.isCompletePacket (b ++ e) = true :=
  Packet.isCompletePacket_append b e h

/-- Monotonicity (C6) on the complete 7-byte frame `0 0 0 7 0 1 5` extended by two bytes. -/
theorem Packet.isCompletePacket_mono_witness :
    Packet.isCompletePacket [0, 0, 0, 7, 0, 1, 5] = true ∧
    Packet.isCompletePacket ([0, 0, 0, 7, 0, 1, 5] ++ [0, 0]) = true :=
  ⟨by decide, Packet.isCompletePacket_mono [0, 0, 0, 7, 0, 1, 5] [0, 0] (by decide)⟩

/-- What `deserialize` returns on each of its failure paths: nothing at all for a buffer
below 6 bytes; otherwise the two header fields as read, with no data. -/
theorem Packet.deserialize_failure (b : List Byte) :
    (b.length < 6 → Packet.deserialize b = Packet.default) ∧
    (6 ≤ b.length → (readU32 b < 6 ∨ b.length < readU32 b) →
      Packet.deserialize b = { length := readU32 b, type := readU16 (b.drop 4), data := [] }) := by
  constructor
  · intro h
    simp [Packet.deserialize, PacketHeader.SIZE, h]
  · intro h h2
    unfold Packet.deserialize
    simp only [PacketHeader.SIZE, Nat.reduceAdd, Packet.default]
    rw [if_neg (by omega), if_pos (by simpa using h2)]

/-- C7 (the code departs from it): on the 6-byte buffer `0 0 0 0 0 5`, whose declared
length 0 is below 6, `Packet::deserialize` returns a packet with an empty payload but with
type 5, the type field of the malformed header, not the zero-value packet of type 0. -/
theorem Packet.deserialize_malformed_keeps_type :
    Packet.deserialize [0, 0, 0, 0, 0, 5] = { length := 0, type := 5, data := [] } ∧
    readU32 [0, 0, 0, 0, 0, 5] < 6 ∧
    (Packet.deserialize [0, 0, 0, 0, 0, 5]).getType ≠ 0 ∧
    Packet.deserialize [0, 0, 0, 0, 0, 5] ≠ Packet.default := by
  decide

/-! ## Frame extraction -/

theorem extractFrames_eq_framesOf (buf : List Byte) (fuel offset : Nat) :
    (extractFrames buf fuel offset).1 = (framesOf fuel (buf.drop offset)).1 ∧
    buf.drop (extractFrames buf fuel offset).2 = (framesOf fuel (buf.drop offset)).2 := by
  induction fuel generalizing offset with
  | zero => simp [extractFrames, framesOf]
  | succ fuel ih =>
    have hlt : offset < buf.length ↔ 0 < (buf.drop offset).length := by
      rw [List.length_drop]; omega
    unfold extractFrames framesOf
    by_cases h : offset < buf.length
    · rw [if_pos h, if_pos (hlt.mp h)]
      by_cases hc : Packet.isCompletePacket (buf.drop offset) = true
      · have ih' := ih (offset + (Packet.deserialize (buf.drop offset)).getTotalSize)
        rw [← List.drop_drop] at ih'
        simp only [hc, Bool.not_true, Bool.false_eq_true, if_false]
        constructor
        · split
          · rw [ih'.1]
          · exact ih'.1
        · exact ih'.2
      · simp [hc]
    · rw [if_neg h, if_neg (fun h' => h (hlt.mpr h'))]
      simp

theorem receiveChunk_eq_framesOf (packetBuffer chunk : List Byte) :
    receiveChunk packetBuffer chunk =
      framesOf (packetBuffer ++ chunk).length (packetBuffer ++ chunk) := by
  have h := extractFrames_eq_framesOf (packetBuffer ++ chunk) (packetBuffer ++ chunk).length 0
  rw [List.drop_zero] at h
  unfold receiveChunk
  apply Prod.ext
  · exact h.1
  · simp only
    rw [← h.2]
    split
    · rfl
    · rename_i h0
      have : (extractFrames (packetBuffer ++ chunk) (packetBuffer ++ chunk).length 0).2 = 0 := by
        omega
      rw [this, List.drop_zero]

/-- A complete front frame is consumed as at least 6 bytes and at most the whole buffer. -/
theorem Packet.getTotalSize_deserialize_bounds (buf : List Byte)
    (h : Packet.isCompletePacket buf = true) :
    6 ≤ (Packet.deserialize buf).getTotalSize ∧
    (Packet.deserialize buf).getTotalSize ≤ buf.length := by
  rw [Packet.isCompletePacket_iff] at h
  unfold Packet.deserialize Packet.getTotalSize
  simp only [PacketHeader.SIZE, Nat.reduceAdd, Packet.default]
  rw [if_neg (by omega)]
  split
  · simp only [List.length_nil]; omega
  · simp only [List.length_take, List.length_drop]; omega

/-- The two outcomes of `deserialize` on a buffer whose front frame is complete. -/
theorem Packet.deserialize_of_complete (a : List Byte)
    (h : Packet.isCompletePacket a = true) :
    Packet.deserialize a =
      if readU32 a < 6 then { length := readU32 a, type := readU16 (a.drop 4), data := [] }
      else { length := readU32 a, type := readU16 (a.drop 4),
             data := (a.drop 6).take (readU32 a - 6) } := by
  rw [Packet.isCompletePacket_iff] at h
  unfold Packet.deserialize
  simp only [PacketHeader.SIZE, Nat.reduceAdd, Packet.default]
  rw [if_neg (by omega)]
  by_cases h6 : readU32 a < 6
  · rw [if_pos (Or.inl h6), if_pos h6]
  · rw [if_neg (by omega), if_neg h6]

/-- A complete front frame decodes the same whatever follows it in the buffer. -/
theorem Packet.deserialize_append (a b : List Byte)
    (h : Packet.isCompletePacket a = true) :
    Packet.deserialize (a ++ b) = Packet.deserialize a := by
  rw [Packet.deserialize_of_complete a h,
    Packet.deserialize_of_complete (a ++ b) (Packet.isCompletePacket_append a b h)]
  rw [Packet.isCompletePacket_iff] at h
  have h32 : readU32 (a ++ b) = readU32 a := readU32_append a b (by omega)
  have h16 : readU16 ((a ++ b).drop 4) = readU16 (a.drop 4) := by
    rw [List.drop_append_of_le_length (by omega)]
    exact readU16_append _ _ (by rw [List.length_drop]; omega)
  rw [h32, h16]
  by_cases h6 : readU32 a < 6
  · rw [if_pos h6, if_pos h6]
  · rw [if_neg h6, if_neg h6, List.drop_append_of_le_length (by omega),
      List.take_append_of_le_length (by rw [List.length_drop]; omega)]

theorem framesOf_fuel (f1 : Nat) : ∀ (f2 : Nat) (buf : List Byte),
    buf.length ≤ f1 → buf.length ≤ f2 → framesOf f1 buf = framesOf f2 buf := by
  induction f1 with
  | zero =>
    intro f2 buf h1 _
    have hnil : buf = [] := List.length_eq_zero.mp (by omega)
    subst hnil
    cases f2 <;> simp [framesOf]
  | succ f1 ih =>
    intro f2 buf h1 h2
    cases f2 with
    | zero =>
      have hnil : buf = [] := List.length_eq_zero.mp (by omega)
      subst hnil
      simp [framesOf]
    | succ f2 =>
      unfold framesOf
      by_cases h0 : 0 < buf.length
      · by_cases hc : Packet.isCompletePacket buf = true
        · have hb := Packet.getTotalSize_deserialize_bounds buf hc
          have hrec := ih f2 (buf.drop (Packet.deserialize buf).getTotalSize)
            (by rw [List.length_drop]; omega) (by rw [List.length_drop]; omega)
          simp only [h0, hc, if_true, Bool.not_true, Bool.false_eq_true, if_false, hrec]
        · simp [hc]
      · simp [h0]

theorem framesOf_append (fa : Nat) : ∀ (a b : List Byte) (f f2 : Nat),
    a.length ≤ fa → (a ++ b).length ≤ f → ((framesOf fa a).2 ++ b).length ≤ f2 →
    framesOf f (a ++ b) =
      ((framesOf fa a).1 ++ (framesOf f2 ((framesOf fa a).2 ++ b)).1,
       (framesOf f2 ((framesOf fa a).2 ++ b)).2) := by
  induction fa with
  | zero =>
    intro a b f f2 ha hf hf2
    have hnil : a = [] := List.length_eq_zero.mp (by omega)
    subst hnil
    simp only [framesOf, List.nil_append] at hf hf2 ⊢
    rw [framesOf_fuel f f2 b hf hf2]
  | succ fa ih =>
    intro a b f f2 ha hf hf2
    by_cases hc : Packet.isCompletePacket a = true
    · have hb := Packet.getTotalSize_deserialize_bounds a hc
      have hcab := Packet.isCompletePacket_append a b hc
      have hdab := Packet.deserialize_append a b hc
      have ha0 : 0 < a.length := by omega
      have hab0 : 0 < (a ++ b).length := by rw [List.length_append]; omega
      obtain ⟨f0, rfl⟩ : ∃ f0, f = f0 + 1 := ⟨f - 1, by omega⟩
      have hstep : framesOf (fa + 1) a =
          (if (Packet.deserialize a).getType ≠ 0 then
              Packet.deserialize a :: (framesOf fa (a.drop (Packet.deserialize a).getTotalSize)).1
            else (framesOf fa (a.drop (Packet.deserialize a).getTotalSize)).1,
           (framesOf fa (a.drop (Packet.deserialize a).getTotalSize)).2) := by
        rw [framesOf]
        simp only [ha0, hc, if_true, Bool.not_true, Bool.false_eq_true, if_false]
      have hstep2 : framesOf (f0 + 1) (a ++ b) =
          (if (Packet.deserialize a).getType ≠ 0 then
              Packet.deserialize a ::
                (framesOf f0 (a.drop (Packet.deserialize a).getTotalSize ++ b)).1
            else (framesOf f0 (a.drop (Packet.deserialize a).getTotalSize ++ b)).1,
           (framesOf f0 (a.drop (Packet.deserialize a).getTotalSize ++ b)).2) := by
        rw [framesOf]
        simp only [hab0, hcab, hdab, if_true, Bool.not_true, Bool.false_eq_true, if_false]
        rw [List.drop_append_of_le_length hb.2]
      rw [hstep] at hf2 ⊢
      rw [hstep2]
      have hrec := ih (a.drop (Packet.deserialize a).getTotalSize) b f0 f2
        (by rw [List.length_drop]; omega)
        (by rw [List.length_append, List.length_drop]
            rw [List.length_append] at hf; omega)
        hf2
      rw [hrec]
      split <;> simp
    · have hstep : framesOf (fa + 1) a = ([], a) := by
        rw [framesOf]
        by_cases h0 : 0 < a.length
        · simp [h0, hc]
        · simp [h0]
      rw [hstep] at hf2 ⊢
      simp only [List.nil_append]
      rw [framesOf_fuel f f2 (a ++ b) hf hf2]

/-- The tail left by frame extraction holds no complete front frame: extracting again
dispatches nothing and leaves it as it is. -/
theorem framesOf_tail_settled (f : Nat) (a : List Byte) (f2 : Nat)
    (ha : a.length ≤ f) (h2 : (framesOf f a).2.length ≤ f2) :
    framesOf f2 (framesOf f a).2 = ([], (framesOf f a).2) := by
  have h := framesOf_append f a [] f f2 ha (by simpa using ha) (by simpa using h2)
  simp only [List.append_nil] at h
  have h1 := congrArg Prod.fst h
  have h2 := congrArg Prod.snd h
  simp only at h1 h2
  apply Prod.ext
  · exact (List.self_eq_append_right.mp h1)
  · exact h2.symm

theorem receiveLoop_eq_framesOf (chunks : List (List Byte)) :
    ∀ (packetBuffer : List Byte) (f : Nat),
      (∀ c ∈ chunks, c ≠ []) →
      framesOf packetBuffer.length packetBuffer = ([], packetBuffer) →
      (packetBuffer ++ chunks.flatten).length ≤ f →
      receiveLoop packetBuffer chunks = framesOf f (packetBuffer ++ chunks.flatten) := by
  induction chunks with
  | nil =>
    intro packetBuffer f _ hs hf
    simp only [List.flatten_nil, List.append_nil] at hf ⊢
    rw [receiveLoop, framesOf_fuel f packetBuffer.length packetBuffer hf (Nat.le_refl _), hs]
  | cons c cs ih =>
    intro packetBuffer f hne hs hf
    have hc : c.length > 0 := List.length_pos.mpr (hne c (List.mem_cons_self _ _))
    have hcs : ∀ c ∈ cs, c ≠ [] := fun x hx => hne x (List.mem_cons_of_mem _ hx)
    rw [receiveLoop, if_pos hc, receiveChunk_eq_framesOf]
    simp only [List.flatten_cons] at hf ⊢
    rw [← List.append_assoc] at hf ⊢
    have hsettled := framesOf_tail_settled (packetBuffer ++ c).length (packetBuffer ++ c)
      (framesOf (packetBuffer ++ c).length (packetBuffer ++ c)).2.length
      (Nat.le_refl _) (Nat.le_refl _)
    have hrec := ih (framesOf (packetBuffer ++ c).length (packetBuffer ++ c)).2
      ((framesOf (packetBuffer ++ c).length (packetBuffer ++ c)).2 ++ cs.flatten).length
      hcs hsettled (Nat.le_refl _)
    rw [hrec]
    exact (framesOf_append (packetBuffer ++ c).length (packetBuffer ++ c) cs.flatten f _
      (Nat.le_refl _) hf (Nat.le_refl _)).symm

/-- C4: for every byte stream and every way of splitting it into consecutive non-empty
chunks, the receive loop run chunk by chunk from an empty buffer (append the chunk to the
unconsumed tail, extract while the front is complete, drop the consumed bytes) dispatches
the same sequence of packets and ends with the same unconsumed tail as the loop run once
on the whole stream. -/
theorem receiveLoop_chunking (chunks : List (List Byte)) (h : ∀ c ∈ chunks, c ≠ []) :
    receiveLoop [] chunks = receiveLoop [] [chunks.flatten] := by
  have hl := receiveLoop_eq_framesOf chunks [] chunks.flatten.length h
    (by simp [framesOf]) (by simp)
  rw [hl, List.nil_append]
  by_cases hj : chunks.flatten = []
  · rw [hj]; simp [receiveLoop, framesOf]
  · have hr := receiveLoop_eq_framesOf [chunks.flatten] [] chunks.flatten.length
      (by intro c hc; simp only [List.mem_singleton] at hc; rw [hc]; exact hj)
      (by simp [framesOf]) (by simp)
    rw [hr]; simp

/-- Chunking invariance (C4) on two frames, `0 0 0 7 0 1 5` and `0 0 0 6 0 2`, followed by
one stray byte, delivered in three chunks that cut through both headers. -/
theorem receiveLoop_chunking_witness :
    (∀ c ∈ ([[0, 0, 0], [7, 0, 1, 5, 0, 0], [0, 6, 0, 2, 9]] : List (List Byte)), c ≠ []) ∧
    receiveLoop [] [[0, 0, 0], [7, 0, 1, 5, 0, 0], [0, 6, 0, 2, 9]] =
      receiveLoop [] [[[0, 0, 0], [7, 0, 1, 5, 0, 0], [0, 6, 0, 2, 9]].flatten] ∧
    receiveLoop [] [[0, 0, 0], [7, 0, 1, 5, 0, 0], [0, 6, 0, 2, 9]] =
      ([Packet.new 1 [5], Packet.new 2 []], [9]) :=
  ⟨by decide, receiveLoop_chunking [[0, 0, 0], [7, 0, 1, 5, 0, 0], [0, 6, 0, 2, 9]] (by decide),
    by decide⟩

/-- Frame extraction on one serialized packet followed by more bytes: the packet is
decoded, dispatched when its type is non-zero, and extraction goes on after it. -/
theorem framesOf_serialize_append (t : Nat) (d rest : List Byte) (f f2 : Nat)
    (ht : t < 2 ^ 16) (hd : d.length < 2 ^ 32 - 6)
    (hf : ((Packet.new t d).serialize ++ rest).length ≤ f) (hf2 : rest.length ≤ f2) :
    framesOf f ((Packet.new t d).serialize ++ rest) =
      (if t ≠ 0 then Packet.new t d :: (framesOf f2 rest).1 else (framesOf f2 rest).1,
       (framesOf f2 rest).2) := by
  have hs := Packet.serialize_new t d hd
  have hlen : ((Packet.new t d).serialize ++ rest).length = 6 + d.length + rest.length := by
    rw [List.length_append, hs, header_append_length]
  have hdes : Packet.deserialize ((Packet.new t d).serialize ++ rest) = Packet.new t d := by
    rw [hs, Packet.new_eq t d hd, List.append_assoc, List.append_assoc]
    exact Packet.deserialize_frame (6 + d.length) t d rest rfl (by omega) ht
  have hcomp : Packet.isCompletePacket ((Packet.new t d).serialize ++ rest) = true := by
    rw [Packet.isCompletePacket_iff, hlen, hs, List.append_assoc, readU32_be32_append,
      Nat.mod_eq_of_lt (by omega)]
    omega
  have htot : (Packet.new t d).getTotalSize = 6 + d.length := by
    rw [Packet.new_eq t d hd]; simp [Packet.getTotalSize, PacketHeader.SIZE]
  have hdrop : ((Packet.new t d).serialize ++ rest).drop (6 + d.length) = rest := by
    apply List.drop_left'
    rw [hs, header_append_length]
  have htype : (Packet.new t d).getType = t := rfl
  obtain ⟨f0, rfl⟩ : ∃ f0, f = f0 + 1 := ⟨f - 1, by omega⟩
  rw [framesOf]
  simp only [hlen, hcomp, hdes, htot, hdrop, htype, Bool.not_true, Bool.false_eq_true,
    if_false]
  rw [if_pos (by omega), framesOf_fuel f0 f2 rest (by omega) hf2]

theorem framesOf_serialized_stream (ps : List Packet) :
    ∀ (f : Nat),
      (∀ p ∈ ps, p = Packet.new p.type p.data ∧ p.type < 2 ^ 16 ∧
        p.data.length < 2 ^ 32 - 6) →
      (ps.map Packet.serialize).flatten.length ≤ f →
      framesOf f (ps.map Packet.serialize).flatten =
        (ps.filter (fun p => decide (p.getType ≠ 0)), []) := by
  induction ps with
  | nil =>
    intro f _ _
    cases f <;> simp [framesOf]
  | cons p ps ih =>
    intro f hp hf
    obtain ⟨hnew, ht, hd⟩ := hp p (List.mem_cons_self _ _)
    have hps : ∀ q ∈ ps, q = Packet.new q.type q.data ∧ q.type < 2 ^ 16 ∧
        q.data.length < 2 ^ 32 - 6 := fun q hq => hp q (List.mem_cons_of_mem _ hq)
    simp only [List.map_cons, List.flatten_cons] at hf ⊢
    have hrec := ih (ps.map Packet.serialize).flatten.length hps (Nat.le_refl _)
    have hstep := framesOf_serialize_append p.type p.data (ps.map Packet.serialize).flatten f
      (ps.map Packet.serialize).flatten.length ht hd (by rw [← hnew]; exact hf)
      (Nat.le_refl _)
    rw [← hnew] at hstep
    rw [hstep, hrec]
    by_cases h0 : p.type = 0
    · simp [List.filter_cons, Packet.getType, h0]
    · simp [List.filter_cons, Packet.getType, h0]

/-- C5: for every list of packets built by `Packet(type, data)` (16-bit types, payloads
shorter than `2^32 - 6` bytes), the receive step fed the concatenation of their
serializations from an empty buffer enqueues and dispatches exactly the packets whose type
is non-zero, in their original order and unchanged, never dispatches a type-0 packet, and
leaves the buffer empty. -/
theorem receiveChunk_serialized_stream (ps : List Packet)
    (h : ∀ p ∈ ps, p = Packet.new p.type p.data ∧ p.type < 2 ^ 16 ∧
      p.data.length < 2 ^ 32 - 6) :
    receiveChunk [] (ps.map Packet.serialize).flatten =
      (ps.filter (fun p => decide (p.getType ≠ 0)), []) ∧
    (∀ q ∈ (receiveChunk [] (ps.map Packet.serialize).flatten).1, q.getType ≠ 0) ∧
    (receiveChunk [] (ps.map Packet.serialize).flatten).2 = [] := by
  have hmain : receiveChunk [] (ps.map Packet.serialize).flatten =
      (ps.filter (fun p => decide (p.getType ≠ 0)), []) := by
    rw [receiveChunk_eq_framesOf, List.nil_append]
    exact framesOf_serialized_stream ps _ h (Nat.le_refl _)
  refine ⟨hmain, ?_, ?_⟩
  · intro q hq
    rw [hmain] at hq
    simpa using (List.mem_filter.mp hq).2
  · rw [hmain]

/-- The dispatch of C5 on an ECHO packet, a type-0 packet and a CHAT packet sent back to
back: the two typed packets are dispatched in order and the buffer ends empty. -/
theorem receiveChunk_serialized_stream_witness :
    (∀ p ∈ [Packet.new 1 [5], Packet.new 0 [6, 7], Packet.new 2 []],
      p = Packet.new p.type p.data ∧ p.type < 2 ^ 16 ∧ p.data.length < 2 ^ 32 - 6) ∧
    receiveChunk []
        ([Packet.new 1 [5], Packet.new 0 [6, 7], Packet.new 2 []].map Packet.serialize).flatten =
      ([Packet.new 1 [5], Packet.new 2 []], []) :=
  ⟨by decide,
    (receiveChunk_serialized_stream [Packet.new 1 [5], Packet.new 0 [6, 7], Packet.new 2 []]
      (by decide)).1⟩

/-! ## Message codecs -/

theorem toU32_lt (i : Int) : toU32 i < 2 ^ 32 := by
  unfold toU32; omega

theorem toI32_toU32 (i : Int) (h1 : -2147483648 ≤ i) (h2 : i < 2147483648) :
    toI32 (toU32 i) = i := by
  unfold toI32 toU32
  split <;> omega

theorem serializePlayerState_eq (s : PlayerState) (hu : s.username.length < 2 ^ 32) :
    serializePlayerState s =
      be32 s.id ++ (be32 (toU32 s.role.val) ++ (be32 (toU32 s.score) ++
        (be32 s.username.length ++ s.username))) := by
  have hmod : s.username.length % 4294967296 = s.username.length :=
    Nat.mod_eq_of_lt (by omega)
  unfold serializePlayerState
  by_cases h0 : s.username.length > 0
  · simp [h0, hmod]
  · have hnil : s.username = [] := List.length_eq_zero.mp (by omega)
    simp [hnil]

theorem serializePlayerState_length (s : PlayerState) (hu : s.username.length < 2 ^ 32) :
    (serializePlayerState s).length = 16 + s.username.length := by
  rw [serializePlayerState_eq s hu]
  simp [be32]; omega

/-- Decoding the four fixed fields and the name of one encoded player state. -/
theorem deserializePlayerState_layout (a b c : Nat) (u : List Byte)
    (ha : a < 2 ^ 32) (hb : b < 2 ^ 32) (hc : c < 2 ^ 32) (hu : u.length < 2 ^ 32) :
    deserializePlayerState (be32 a ++ (be32 b ++ (be32 c ++ (be32 u.length ++ u)))) =
      { id := a, username := u, role := ⟨toI32 b⟩, score := toI32 c } := by
  have hlen : (be32 a ++ (be32 b ++ (be32 c ++ (be32 u.length ++ u)))).length
      = 16 + u.length := by
    simp [be32]; omega
  unfold deserializePlayerState
  simp only [hlen, List.drop_zero, Nat.zero_add, Nat.reduceMul, Nat.reduceAdd]
  rw [if_neg (by omega), if_neg (by omega)]
  have d4 : (be32 a ++ (be32 b ++ (be32 c ++ (be32 u.length ++ u)))).drop 4
      = be32 b ++ (be32 c ++ (be32 u.length ++ u)) := rfl
  have d8 : (be32 a ++ (be32 b ++ (be32 c ++ (be32 u.length ++ u)))).drop 8
      = be32 c ++ (be32 u.length ++ u) := rfl
  have d12 : (be32 a ++ (be32 b ++ (be32 c ++ (be32 u.length ++ u)))).drop 12
      = be32 u.length ++ u := rfl
  have d16 : (be32 a ++ (be32 b ++ (be32 c ++ (be32 u.length ++ u)))).drop 16 = u := rfl
  rw [d4, d8, d12, d16]
  simp only [readU32_be32_append, Nat.mod_eq_of_lt ha, Nat.mod_eq_of_lt hb,
    Nat.mod_eq_of_lt hc, Nat.mod_eq_of_lt hu, PlayerState.default, List.take_length]
  by_cases h0 : u.length > 0
  · rw [if_pos ⟨by omega, h0⟩]
  · have hnil : u = [] := List.length_eq_zero.mp (by omega)
    subst hnil
    simp

theorem deserialize_serializePlayerState (s : PlayerState)
    (hid : s.id < 2 ^ 32)
    (hrole : -2147483648 ≤ s.role.val ∧ s.role.val < 2147483648)
    (hscore : -2147483648 ≤ s.score ∧ s.score < 2147483648)
    (hu : s.username.length < 2 ^ 32) :
    deserializePlayerState (serializePlayerState s) = s := by
  rw [serializePlayerState_eq s hu,
    deserializePlayerState_layout s.id (toU32 s.role.val) (toU32 s.score) s.username hid
      (toU32_lt _) (toU32_lt _) hu,
    toI32_toU32 _ hrole.1 hrole.2, toI32_toU32 _ hscore.1 hscore.2]

/-- C8: for every PlayerState `s` with a 32-bit id, a role among NONE, LIAR and GUESSER, a
32-bit signed score (negative ones included) and a username shorter than `2^32` bytes
(possibly empty), `deserializePlayerState(serializePlayerState(s))` is `s` in all four
fields, and the encoding is `BE32(id) ++ BE32(role) ++ BE32(score) ++ BE32(|username|) ++
username`, the score in two's complement. -/
theorem playerState_roundtrip (s : PlayerState)
    (hid : s.id < 2 ^ 32)
    (hrole : s.role = PlayerRole.NONE ∨ s.role = PlayerRole.LIAR ∨ s.role = PlayerRole.GUESSER)
    (hscore : -2 ^ 31 ≤ s.score ∧ s.score < 2 ^ 31)
    (hu : s.username.length < 2 ^ 32) :
    deserializePlayerState (serializePlayerState s) = s ∧
    serializePlayerState s =
      be32 s.id ++ be32 (toU32 s.role.val) ++ be32 (toU32 s.score) ++
        be32 s.username.length ++ s.username ∧
    toU32 s.role.val = s.role.val.toNat ∧
    (0 ≤ s.score → toU32 s.score = s.score.toNat) ∧
    (s.score < 0 → (toU32 s.score : Int) = s.score + 2 ^ 32) := by
  have hr : -2147483648 ≤ s.role.val ∧ s.role.val < 2147483648 := by
    rcases hrole with h | h | h <;> rw [h] <;>
      simp [PlayerRole.NONE, PlayerRole.LIAR, PlayerRole.GUESSER]
  have hr0 : 0 ≤ s.role.val := by
    rcases hrole with h | h | h <;> rw [h] <;>
      simp [PlayerRole.NONE, PlayerRole.LIAR, PlayerRole.GUESSER]
  have hs : -2147483648 ≤ s.score ∧ s.score < 2147483648 := by
    constructor <;> omega
  refine ⟨deserialize_serializePlayerState s hid hr hs hu, ?_, ?_, ?_, ?_⟩
  · rw [serializePlayerState_eq s hu]; simp only [List.append_assoc]
  · have := hr.2
    unfold toU32; omega
  · intro h; unfold toU32; omega
  · intro h; unfold toU32; omega

/-- The round trip of C8 on a LIAR with id 7, score -3 and the two-byte name `104, 105`. -/
theorem playerState_roundtrip_witness :
    ((7 : Nat) < 2 ^ 32 ∧ (-2 ^ 31 ≤ (-3 : Int) ∧ (-3 : Int) < 2 ^ 31) ∧
      ([104, 105] : List Byte).length < 2 ^ 32) ∧
    deserializePlayerState (serializePlayerState
      { id := 7, username := [104, 105], role := PlayerRole.LIAR, score := -3 }) =
      { id := 7, username := [104, 105], role := PlayerRole.LIAR, score := -3 } ∧
    serializePlayerState
      { id := 7, username := [104, 105], role := PlayerRole.LIAR, score := -3 } =
      [0, 0, 0, 7, 0, 0, 0, 1, 255, 255, 255, 253, 0, 0, 0, 2, 104, 105] :=
  ⟨⟨by decide, by decide, by decide⟩,
    (playerState_roundtrip
      { id := 7, username := [104, 105], role := PlayerRole.LIAR, score := -3 }
      (by decide) (Or.inr (Or.inl rfl)) (by decide) (by decide)).1,
    by decide⟩

theorem serializeChatMessage_eq (m : ChatMessage)
    (hu : m.senderUsername.length < 2 ^ 32) (hm : m.senderMessage.length < 2 ^ 32) :
    serializeChatMessage m =
      be32 m.senderId ++ (be32 m.senderUsername.length ++ (m.senderUsername ++
        (be32 m.senderMessage.length ++ m.senderMessage))) := by
  have hmodu : m.senderUsername.length % 4294967296 = m.senderUsername.length :=
    Nat.mod_eq_of_lt (by omega)
  have hmodm : m.senderMessage.length % 4294967296 = m.senderMessage.length :=
    Nat.mod_eq_of_lt (by omega)
  unfold serializeChatMessage
  by_cases hu0 : m.senderUsername.length > 0 <;> by_cases hm0 : m.senderMessage.length > 0
  · simp [hu0, hm0, hmodu, hmodm]
  · have hnil : m.senderMessage = [] := List.length_eq_zero.mp (by omega)
    simp [hu0, hmodu, hnil]
  · have hnil : m.senderUsername = [] := List.length_eq_zero.mp (by omega)
    simp [hm0, hmodm, hnil]
  · have hnil : m.senderMessage = [] := List.length_eq_zero.mp (by omega)
    have hnil2 : m.senderUsername = [] := List.length_eq_zero.mp (by omega)
    simp [hnil, hnil2]

/-- Decoding the sender id and the two length-prefixed strings of one encoded chat message. -/
theorem deserializeChatMessage_layout (a : Nat) (u t : List Byte)
    (ha : a < 2 ^ 32) (hu : u.length < 2 ^ 32) (ht : t.length < 2 ^ 32) :
    deserializeChatMessage (be32 a ++ (be32 u.length ++ (u ++ (be32 t.length ++ t)))) =
      { senderId := a, senderUsername := u, senderMessage := t } := by
  have hlen : (be32 a ++ (be32 u.length ++ (u ++ (be32 t.length ++ t)))).length
      = 12 + u.length + t.length := by
    simp [be32]; omega
  have d4 : (be32 a ++ (be32 u.length ++ (u ++ (be32 t.length ++ t)))).drop 4
      = be32 u.length ++ (u ++ (be32 t.length ++ t)) := rfl
  have d8 : (be32 a ++ (be32 u.length ++ (u ++ (be32 t.length ++ t)))).drop 8
      = u ++ (be32 t.length ++ t) := rfl
  have d8u : (be32 a ++ (be32 u.length ++ (u ++ (be32 t.length ++ t)))).drop (8 + u.length)
      = be32 t.length ++ t := by
    rw [← List.drop_drop, d8, List.drop_left]
  have d12u : (be32 a ++ (be32 u.length ++ (u ++ (be32 t.length ++ t)))).drop
      (8 + u.length + 4) = t := by
    rw [← List.drop_drop, d8u]; rfl
  have d12 : (be32 a ++ (be32 u.length ++ (u ++ (be32 t.length ++ t)))).drop 12
      = (u ++ (be32 t.length ++ t)).drop 4 := by
    rw [show 12 = 8 + 4 from rfl, ← List.drop_drop, d8]
  unfold deserializeChatMessage
  simp only [hlen, List.drop_zero, Nat.zero_add, Nat.reduceMul, Nat.reduceAdd, d4, d8,
    readU32_be32_append, Nat.mod_eq_of_lt ha, Nat.mod_eq_of_lt hu, ChatMessage.default]
  rw [if_neg (by omega)]
  by_cases hu0 : u.length > 0
  · have hfits : decide (u.length > 0 ∧ 8 + u.length ≤ 12 + u.length + t.length) = true := by
      simp only [decide_eq_true_eq]; omega
    simp only [hfits, if_true, d8u, d12u, readU32_be32_append, Nat.mod_eq_of_lt ht,
      List.take_left, List.take_length]
    rw [if_neg (by omega)]
    by_cases ht0 : t.length > 0
    · rw [if_pos ⟨ht0, by omega⟩]
    · have hnil : t = [] := List.length_eq_zero.mp (by omega)
      subst hnil
      simp
  · have hnil : u = [] := List.length_eq_zero.mp (by omega)
    have hfits : decide (u.length > 0 ∧ 8 + u.length ≤ 12 + u.length + t.length) = false := by
      simp only [decide_eq_false_iff_not]; omega
    have d4t : (be32 t.length ++ t).drop 4 = t := rfl
    simp only [hfits, Bool.false_eq_true, if_false, Nat.reduceAdd, d8, d12]
    subst hnil
    simp only [List.nil_append, readU32_be32_append, Nat.mod_eq_of_lt ht, d4t,
      List.take_length, List.length_nil, Nat.add_zero]
    rw [if_neg (by omega)]
    by_cases ht0 : t.length > 0
    · rw [if_pos ⟨ht0, by omega⟩]
    · have hnil : t = [] := List.length_eq_zero.mp (by omega)
      subst hnil
      simp

/-- C10: for every ChatMessage `m` with a 32-bit sender id and a username and a message
text each shorter than `2^32` bytes (either possibly empty),
`deserializeChatMessage(serializeChatMessage(m))` equals `m` in senderId, senderUsername
and senderMessage. -/
theorem chatMessage_roundtrip (m : ChatMessage)
    (hid : m.senderId < 2 ^ 32)
    (hu : m.senderUsername.length < 2 ^ 32) (hm : m.senderMessage.length < 2 ^ 32) :
    deserializeChatMessage (serializeChatMessage m) = m := by
  rw [serializeChatMessage_eq m hu hm]
  exact deserializeChatMessage_layout m.senderId m.senderUsername m.senderMessage hid hu hm

/-- The round trip of C10 on a message of sender 9 with an empty username and the text
`111, 107`. -/
theorem chatMessage_roundtrip_witness :
    ((9 : Nat) < 2 ^ 32 ∧ ([] : List Byte).length < 2 ^ 32 ∧
      ([111, 107] : List Byte).length < 2 ^ 32) ∧
    deserializeChatMessage (serializeChatMessage
      { senderId := 9, senderUsername := [], senderMessage := [111, 107] }) =
      { senderId := 9, senderUsername := [], senderMessage := [111, 107] } :=
  ⟨⟨by decide, by decide, by decide⟩,
    chatMessage_roundtrip { senderId := 9, senderUsername := [], senderMessage := [111, 107] }
      (by decide) (by decide) (by decide)⟩

theorem foldl_serialize_eq (states : List PlayerState) (init : List Byte) :
    states.foldl (fun data state => data ++ serializePlayerState state) init =
      init ++ (states.map serializePlayerState).flatten := by
  induction states generalizing init with
  | nil => simp
  | cons s rest ih => simp [ih]

theorem extractGameStateUpdateLoop_spec (data : List Byte) (rest : List PlayerState) :
    ∀ (offset : Nat) (acc : List PlayerState),
      (∀ s ∈ rest, s.id < 2 ^ 32 ∧
        (-2147483648 ≤ s.role.val ∧ s.role.val < 2147483648) ∧
        (-2147483648 ≤ s.score ∧ s.score < 2147483648) ∧ s.username.length < 2 ^ 32) →
      data.drop offset = (rest.map serializePlayerState).flatten →
      extractGameStateUpdateLoop data rest.length offset acc = acc ++ rest := by
  induction rest with
  | nil =>
    intro offset acc _ _
    simp [extractGameStateUpdateLoop]
  | cons s rest ih =>
    intro offset acc hv hdrop
    obtain ⟨hid, hrole, hscore, hu⟩ := hv s (List.mem_cons_self _ _)
    have hvrest := fun x hx => hv x (List.mem_cons_of_mem s hx)
    simp only [List.map_cons, List.flatten_cons] at hdrop
    have hslen := serializePlayerState_length s hu
    have hlen : data.length - offset =
        16 + s.username.length + (rest.map serializePlayerState).flatten.length := by
      rw [← List.length_drop, hdrop, List.length_append, hslen]
    have hname : readU32 (data.drop (offset + 12)) = s.username.length := by
      rw [← List.drop_drop, hdrop, serializePlayerState_eq s hu]
      have d12 : (be32 s.id ++ (be32 (toU32 s.role.val) ++ (be32 (toU32 s.score) ++
          (be32 s.username.length ++ s.username))) ++
            (rest.map serializePlayerState).flatten).drop 12 =
          be32 s.username.length ++ (s.username ++ (rest.map serializePlayerState).flatten) := by
        simp [be32]
      rw [d12, readU32_be32_append, Nat.mod_eq_of_lt hu]
    have htake : (data.drop offset).take (16 + s.username.length) = serializePlayerState s := by
      rw [hdrop]
      exact List.take_left' hslen
    have hnext : data.drop (offset + (16 + s.username.length)) =
        (rest.map serializePlayerState).flatten := by
      rw [← List.drop_drop, hdrop]
      exact List.drop_left' hslen
    rw [List.length_cons, extractGameStateUpdateLoop]
    simp only [Nat.reduceMul, hname, htake]
    rw [if_neg (by omega), if_neg (by omega),
      deserialize_serializePlayerState s hid hrole hscore hu,
      ih (offset + (16 + s.username.length)) (acc ++ [s]) hvrest hnext]
    simp

/-- C9: for every list of PlayerState values of length below `2^32` (32-bit ids, roles
among NONE, LIAR and GUESSER, 32-bit signed scores, usernames shorter than `2^32` bytes, of
differing lengths and possibly empty),
`extractGameStateUpdate(createGameStateUpdatePacket(states))` returns the same list: same
length, same order, every element equal in id, role, score and username. -/
theorem gameStateUpdate_roundtrip (states : List PlayerState)
    (hcount : states.length < 2 ^ 32)
    (hv : ∀ s ∈ states, s.id < 2 ^ 32 ∧
      (s.role = PlayerRole.NONE ∨ s.role = PlayerRole.LIAR ∨ s.role = PlayerRole.GUESSER) ∧
      (-2 ^ 31 ≤ s.score ∧ s.score < 2 ^ 31) ∧ s.username.length < 2 ^ 32) :
    extractGameStateUpdate (createGameStateUpdatePacket states) = states := by
  have hv2 : ∀ s ∈ states, s.id < 2 ^ 32 ∧
      (-2147483648 ≤ s.role.val ∧ s.role.val < 2147483648) ∧
      (-2147483648 ≤ s.score ∧ s.score < 2147483648) ∧ s.username.length < 2 ^ 32 := by
    intro s hs
    obtain ⟨hid, hrole, hscore, hu⟩ := hv s hs
    refine ⟨hid, ?_, ?_, hu⟩
    · rcases hrole with h | h | h <;> rw [h] <;>
        simp [PlayerRole.NONE, PlayerRole.LIAR, PlayerRole.GUESSER]
    · constructor <;> omega
  have hdata : (createGameStateUpdatePacket states).getData =
      be32 states.length ++ (states.map serializePlayerState).flatten := by
    unfold createGameStateUpdatePacket
    simp only [foldl_serialize_eq, Nat.mod_eq_of_lt hcount]
    rfl
  unfold extractGameStateUpdate
  simp only [hdata]
  have hlen : (be32 states.length ++ (states.map serializePlayerState).flatten).length =
      4 + (states.map serializePlayerState).flatten.length := by
    rw [List.length_append, be32_length]
  rw [if_neg (by omega), readU32_be32_append, Nat.mod_eq_of_lt hcount]
  have h := extractGameStateUpdateLoop_spec
    (be32 states.length ++ (states.map serializePlayerState).flatten) states 4 [] hv2 rfl
  simpa using h

/-- The round trip of C9 on a roster of three players whose names have 2, 0 and 1 bytes. -/
theorem gameStateUpdate_roundtrip_witness :
    extractGameStateUpdate (createGameStateUpdatePacket
      [{ id := 1, username := [97, 98], role := PlayerRole.GUESSER, score := 4 },
       { id := 2, username := [], role := PlayerRole.LIAR, score := -1 },
       { id := 3, username := [99], role := PlayerRole.NONE, score := 0 }]) =
      [{ id := 1, username := [97, 98], role := PlayerRole.GUESSER, score := 4 },
       { id := 2, username := [], role := PlayerRole.LIAR, score := -1 },
       { id := 3, username := [99], role := PlayerRole.NONE, score := 0 }] :=
  gameStateUpdate_roundtrip
    [{ id := 1, username := [97, 98], role := PlayerRole.GUESSER, score := 4 },
     { id := 2, username := [], role := PlayerRole.LIAR, score := -1 },
     { id := 3, username := [99], role := PlayerRole.NONE, score := 0 }]
    (by decide) (by decide)

/-! ## Message codecs: role assignment and votes -/

theorem serializeRoleAssignment_eq (a : RoleAssignment)
    (ht : a.topic.length < 2 ^ 32) (hw : a.secretWord.length < 2 ^ 32) :
    serializeRoleAssignment a =
      be32 a.playerId ++ (be32 (toU32 a.role.val) ++ (be32 a.topic.length ++ (a.topic ++
        (be32 a.secretWord.length ++ a.secretWord)))) := by
  have hmodt : a.topic.length % 4294967296 = a.topic.length := Nat.mod_eq_of_lt (by omega)
  have hmodw : a.secretWord.length % 4294967296 = a.secretWord.length :=
    Nat.mod_eq_of_lt (by omega)
  unfold serializeRoleAssignment
  by_cases ht0 : a.topic.length > 0 <;> by_cases hw0 : a.secretWord.length > 0
  · simp [ht0, hw0, hmodt, hmodw]
  · have hnil : a.secretWord = [] := List.length_eq_zero.mp (by omega)
    simp [ht0, hmodt, hnil]
  · have hnil : a.topic = [] := List.length_eq_zero.mp (by omega)
    simp [hw0, hmodw, hnil]
  · have hnil : a.secretWord = [] := List.length_eq_zero.mp (by omega)
    have hnil2 : a.topic = [] := List.length_eq_zero.mp (by omega)
    simp [hnil, hnil2]

/-- Decoding the two fixed fields and the two length-prefixed strings of one encoded
role assignment. -/
theorem deserializeRoleAssignment_layout (a b : Nat) (u t : List Byte)
    (ha : a < 2 ^ 32) (hb : b < 2 ^ 32) (hu : u.length < 2 ^ 32) (ht : t.length < 2 ^ 32) :
    deserializeRoleAssignment
        (be32 a ++ (be32 b ++ (be32 u.length ++ (u ++ (be32 t.length ++ t))))) =
      { playerId := a, role := ⟨toI32 b⟩, topic := u, secretWord := t } := by
  have hlen : (be32 a ++ (be32 b ++ (be32 u.length ++ (u ++ (be32 t.length ++ t))))).length
      = 16 + u.length + t.length := by
    simp [be32]; omega
  have d4 : (be32 a ++ (be32 b ++ (be32 u.length ++ (u ++ (be32 t.length ++ t))))).drop 4
      = be32 b ++ (be32 u.length ++ (u ++ (be32 t.length ++ t))) := rfl
  have d8 : (be32 a ++ (be32 b ++ (be32 u.length ++ (u ++ (be32 t.length ++ t))))).drop 8
      = be32 u.length ++ (u ++ (be32 t.length ++ t)) := rfl
  have d12 : (be32 a ++ (be32 b ++ (be32 u.length ++ (u ++ (be32 t.length ++ t))))).drop 12
      = u ++ (be32 t.length ++ t) := rfl
  have d12u : (be32 a ++ (be32 b ++ (be32 u.length ++ (u ++ (be32 t.length ++ t))))).drop
      (12 + u.length) = be32 t.length ++ t := by
    rw [← List.drop_drop, d12, List.drop_left]
  have d16u : (be32 a ++ (be32 b ++ (be32 u.length ++ (u ++ (be32 t.length ++ t))))).drop
      (12 + u.length + 4) = t := by
    rw [← List.drop_drop, d12u]; rfl
  have d16 : (be32 a ++ (be32 b ++ (be32 u.length ++ (u ++ (be32 t.length ++ t))))).drop 16
      = (u ++ (be32 t.length ++ t)).drop 4 := by
    rw [show 16 = 12 + 4 from rfl, ← List.drop_drop, d12]
  unfold deserializeRoleAssignment
  simp only [hlen, List.drop_zero, Nat.zero_add, Nat.reduceMul, Nat.reduceAdd, d4, d8, d12,
    readU32_be32_append, Nat.mod_eq_of_lt ha, Nat.mod_eq_of_lt hb, Nat.mod_eq_of_lt hu,
    RoleAssignment.default]
  rw [if_neg (by omega), if_neg (by omega)]
  by_cases hu0 : u.length > 0
  · have hfits : decide (u.length > 0 ∧ 12 + u.length ≤ 16 + u.length + t.length) = true := by
      simp only [decide_eq_true_eq]; omega
    simp only [hfits, if_true, d12u, d16u, readU32_be32_append, Nat.mod_eq_of_lt ht,
      List.take_left, List.take_length]
    rw [if_neg (by omega)]
    by_cases ht0 : t.length > 0
    · rw [if_pos ⟨ht0, by omega⟩]
    · have hnil : t = [] := List.length_eq_zero.mp (by omega)
      subst hnil
      simp
  · have hnil : u = [] := List.length_eq_zero.mp (by omega)
    have hfits : decide (u.length > 0 ∧ 12 + u.length ≤ 16 + u.length + t.length) = false := by
      simp only [decide_eq_false_iff_not]; omega
    have d4t : (be32 t.length ++ t).drop 4 = t := rfl
    simp only [hfits, Bool.false_eq_true, if_false, Nat.reduceAdd, d12, d16]
    subst hnil
    simp only [List.nil_append, readU32_be32_append, Nat.mod_eq_of_lt ht, d4t,
      List.take_length, List.length_nil, Nat.add_zero]
    rw [if_neg (by omega)]
    by_cases ht0 : t.length > 0
    · rw [if_pos ⟨ht0, by omega⟩]
    · have hnil : t = [] := List.length_eq_zero.mp (by omega)
      subst hnil
      simp

/-- C11: for every RoleAssignment `a` with a 32-bit player id, a role among NONE, LIAR and
GUESSER, and a topic and a secret word each shorter than `2^32` bytes (either possibly
empty), `deserializeRoleAssignment(serializeRoleAssignment(a))` equals `a` in playerId,
role, topic and secretWord. -/
theorem roleAssignment_roundtrip (a : RoleAssignment)
    (hid : a.playerId < 2 ^ 32)
    (hrole : a.role = PlayerRole.NONE ∨ a.role = PlayerRole.LIAR ∨ a.role = PlayerRole.GUESSER)
    (ht : a.topic.length < 2 ^ 32) (hw : a.secretWord.length < 2 ^ 32) :
    deserializeRoleAssignment (serializeRoleAssignment a) = a := by
  have hr : -2147483648 ≤ a.role.val ∧ a.role.val < 2147483648 := by
    rcases hrole with h | h | h <;> rw [h] <;>
      simp [PlayerRole.NONE, PlayerRole.LIAR, PlayerRole.GUESSER]
  rw [serializeRoleAssignment_eq a ht hw,
    deserializeRoleAssignment_layout a.playerId (toU32 a.role.val) a.topic a.secretWord hid
      (toU32_lt _) ht hw, toI32_toU32 _ hr.1 hr.2]

/-- The round trip of C11 on the assignment a liar receives: player 2, role LIAR, the
topic `70, 114` and an empty secret word. -/
theorem roleAssignment_roundtrip_witness :
    ((2 : Nat) < 2 ^ 32 ∧ ([70, 114] : List Byte).length < 2 ^ 32 ∧
      ([] : List Byte).length < 2 ^ 32) ∧
    deserializeRoleAssignment (serializeRoleAssignment
      { playerId := 2, role := PlayerRole.LIAR, topic := [70, 114], secretWord := [] }) =
      { playerId := 2, role := PlayerRole.LIAR, topic := [70, 114], secretWord := [] } :=
  ⟨⟨by decide, by decide, by decide⟩,
    roleAssignment_roundtrip
      { playerId := 2, role := PlayerRole.LIAR, topic := [70, 114], secretWord := [] }
      (by decide) (Or.inr (Or.inl rfl)) (by decide) (by decide)⟩

/-- C13: for every VoteCommand `v` with 32-bit ids, `serializeVoteCommand(v)` is exactly 8
bytes, `BE32(voterId) ++ BE32(targetId)`, and `deserializeVoteCommand` of those bytes
returns `v`. -/
theorem voteCommand_roundtrip (v : VoteCommand)
    (hv : v.voterId < 2 ^ 32) (ht : v.targetId < 2 ^ 32) :
    serializeVoteCommand v = be32 v.voterId ++ be32 v.targetId ∧
    (serializeVoteCommand v).length = 8 ∧
    beValue ((serializeVoteCommand v).take 4) = v.voterId ∧
    beValue ((serializeVoteCommand v).drop 4) = v.targetId ∧
    deserializeVoteCommand (serializeVoteCommand v) = v := by
  have hs : serializeVoteCommand v = be32 v.voterId ++ (be32 v.targetId ++ []) := by
    simp [serializeVoteCommand]
  have hlen : (serializeVoteCommand v).length = 8 := by
    rw [hs]; simp [be32]
  have h1 : readU32 (serializeVoteCommand v) = v.voterId := by
    rw [hs, readU32_be32_append, Nat.mod_eq_of_lt hv]
  have h2 : readU32 ((serializeVoteCommand v).drop 4) = v.targetId := by
    rw [hs, drop_be32_append, readU32_be32_append, Nat.mod_eq_of_lt ht]
  refine ⟨by rw [hs, List.append_nil], hlen, ?_, ?_, ?_⟩
  · rw [← readU32_eq_beValue _ (by omega), h1]
  · rw [← h2, readU32_eq_beValue _ (by rw [List.length_drop]; omega),
      List.take_of_length_le (by rw [List.length_drop]; omega)]
  · unfold deserializeVoteCommand
    simp only [hlen, Nat.reduceMul, Nat.lt_irrefl, if_false, h1, h2, VoteCommand.default]

/-- The layout and round trip of C13 on the vote of player 1 for player 258. -/
theorem voteCommand_roundtrip_witness :
    ((1 : Nat) < 2 ^ 32 ∧ (258 : Nat) < 2 ^ 32) ∧
    serializeVoteCommand { voterId := 1, targetId := 258 } = [0, 0, 0, 1, 0, 0, 1, 2] ∧
    deserializeVoteCommand (serializeVoteCommand { voterId := 1, targetId := 258 }) =
      { voterId := 1, targetId := 258 } :=
  ⟨⟨by decide, by decide⟩, by decide,
    (voteCommand_roundtrip { voterId := 1, targetId := 258 } (by decide)
      (by decide)).2.2.2.2⟩

/-! ## Unordered maps -/

theorem UMap.find_eq_none_iff {V : Type} (m : UMap V) (k : Nat) :
    UMap.find m k = none ↔ k ∉ UMap.keys m := by
  induction m with
  | nil => simp [UMap.find, UMap.keys]
  | cons e rest ih =>
    obtain ⟨k', v⟩ := e
    by_cases h : k' = k
    · simp [UMap.find, UMap.keys, h]
    · have h2 : ¬ k = k' := fun h3 => h h3.symm
      simp only [UMap.keys] at ih
      simp [UMap.find, UMap.keys, h, h2, ih]

theorem UMap.find_eq_some_iff {V : Type} (m : UMap V) (hn : (UMap.keys m).Nodup)
    (k : Nat) (v : V) : UMap.find m k = some v ↔ (k, v) ∈ m := by
  induction m with
  | nil => simp [UMap.find]
  | cons e rest ih =>
    obtain ⟨k', v'⟩ := e
    simp only [UMap.keys, List.map_cons, List.nodup_cons] at hn
    have ih2 := ih hn.2
    by_cases h : k' = k
    · subst h
      have hnot : (k', v) ∉ rest := fun hm => hn.1 (List.mem_map_of_mem Prod.fst hm)
      simp only [UMap.find, if_true, Option.some.injEq, List.mem_cons, Prod.mk.injEq,
        true_and]
      constructor
      · intro h; exact Or.inl h.symm
      · intro h
        rcases h with h | h
        · exact h.symm
        · exact absurd h hnot
    · have h2 : ¬ k = k' := fun h3 => h h3.symm
      simp [UMap.find, h, h2, ih2]

theorem UMap.find_perm {V : Type} (m1 m2 : UMap V) (hn : (UMap.keys m1).Nodup)
    (hp : m2.Perm m1) (k : Nat) : UMap.find m2 k = UMap.find m1 k := by
  have hn2 : (UMap.keys m2).Nodup := (List.Perm.map Prod.fst hp).nodup_iff.mpr hn
  cases h1 : UMap.find m1 k with
  | none =>
    rw [UMap.find_eq_none_iff] at h1 ⊢
    intro hk
    exact h1 ((List.Perm.map Prod.fst hp).mem_iff.mp hk)
  | some v =>
    rw [UMap.find_eq_some_iff m1 hn] at h1
    rw [UMap.find_eq_some_iff m2 hn2]
    exact hp.mem_iff.mpr h1

theorem UMap.assign_of_not_mem {V : Type} (m : UMap V) (k : Nat) (v : V)
    (h : k ∉ UMap.keys m) : UMap.assign m k v = m ++ [(k, v)] := by
  induction m with
  | nil => rfl
  | cons e rest ih =>
    obtain ⟨k', v'⟩ := e
    simp only [UMap.keys, List.map_cons, List.mem_cons, not_or] at h
    have h2 : ¬ k' = k := fun h3 => h.1 h3.symm
    simp only [UMap.assign, h2, if_false, List.cons_append]
    rw [ih h.2]

theorem foldl_tally_eq (tally : UMap Nat) (init : List Byte) :
    tally.foldl (fun data entry => data ++ be32 entry.1 ++ be32 entry.2) init =
      init ++ (tally.map (fun entry => be32 entry.1 ++ be32 entry.2)).flatten := by
  induction tally generalizing init with
  | nil => simp
  | cons e rest ih =>
    rw [List.foldl_cons, ih]
    simp only [List.map_cons, List.flatten_cons, List.append_assoc]

theorem serializeVoteResult_eq (r : VoteResult) (hc : r.tally.length < 2 ^ 32) :
    serializeVoteResult r =
      be32 r.tally.length ++
        ((r.tally.map (fun entry => be32 entry.1 ++ be32 entry.2)).flatten ++
          (be32 r.winnerId ++ be32 (if r.liarCaught then 1 else 0))) := by
  have hmod : r.tally.length % 2 ^ 32 = r.tally.length := Nat.mod_eq_of_lt hc
  unfold serializeVoteResult
  dsimp only
  rw [foldl_tally_eq, hmod]
  simp only [List.append_assoc]

theorem tally_flatten_length (tally : UMap Nat) :
    (tally.map (fun entry => be32 entry.1 ++ be32 entry.2)).flatten.length =
      8 * tally.length := by
  induction tally with
  | nil => rfl
  | cons e rest ih =>
    simp only [List.map_cons, List.flatten_cons, List.length_append, be32_length, ih,
      List.length_cons]
    omega

theorem deserializeVoteResultLoop_spec (data : List Byte) (rest : UMap Nat) :
    ∀ (offset : Nat) (acc : UMap Nat) (tail : List Byte),
      (∀ e ∈ rest, e.1 < 2 ^ 32 ∧ e.2 < 2 ^ 32) →
      (UMap.keys (acc ++ rest)).Nodup →
      data.drop offset =
        (rest.map (fun entry => be32 entry.1 ++ be32 entry.2)).flatten ++ tail →
      deserializeVoteResultLoop data rest.length offset acc =
        (offset + 8 * rest.length, acc ++ rest) := by
  induction rest with
  | nil =>
    intro offset acc tail _ _ _
    simp [deserializeVoteResultLoop]
  | cons e rest ih =>
    intro offset acc tail hv hn hdrop
    obtain ⟨k, c⟩ := e
    obtain ⟨hk, hc⟩ := hv (k, c) (List.mem_cons_self _ _)
    have hvrest := fun x hx => hv x (List.mem_cons_of_mem (k, c) hx)
    simp only [List.map_cons, List.flatten_cons, List.append_assoc] at hdrop
    have hlen : data.length - offset = 4 + (4 + ((rest.map
        (fun entry => be32 entry.1 ++ be32 entry.2)).flatten ++ tail).length) := by
      rw [← List.length_drop, hdrop, List.length_append, List.length_append, be32_length,
        be32_length]
    have h1 : readU32 (data.drop offset) = k := by
      rw [hdrop, readU32_be32_append, Nat.mod_eq_of_lt hk]
    have h2 : readU32 (data.drop (offset + 4)) = c := by
      rw [← List.drop_drop, hdrop, drop_be32_append, readU32_be32_append,
        Nat.mod_eq_of_lt hc]
    have hnext : data.drop (offset + 4 + 4) =
        (rest.map (fun entry => be32 entry.1 ++ be32 entry.2)).flatten ++ tail := by
      rw [← List.drop_drop, ← List.drop_drop, hdrop, drop_be32_append, drop_be32_append]
    have hknew : k ∉ UMap.keys acc := by
      intro hmem
      simp only [UMap.keys, List.map_append, List.map_cons] at hn
      have := (List.nodup_append.mp hn).2.2
      exact this hmem (List.mem_cons_self _ _)
    have hn2 : (UMap.keys ((acc ++ [(k, c)]) ++ rest)).Nodup := by
      simpa [List.append_assoc] using hn
    rw [List.length_cons, deserializeVoteResultLoop]
    simp only [Nat.reduceMul, h1, h2]
    rw [if_neg (by omega), UMap.assign_of_not_mem acc k c hknew,
      ih (offset + 4 + 4) (acc ++ [(k, c)]) tail hvrest hn2 hnext]
    simp only [List.append_assoc, List.singleton_append, Prod.mk.injEq, and_true]
    omega

theorem deserialize_serializeVoteResult (r : VoteResult)
    (hc : r.tally.length < 2 ^ 32)
    (hn : (UMap.keys r.tally).Nodup)
    (hv : ∀ e ∈ r.tally, e.1 < 2 ^ 32 ∧ e.2 < 2 ^ 32)
    (hw : r.winnerId < 2 ^ 32) :
    deserializeVoteResult (serializeVoteResult r) = r := by
  have hs := serializeVoteResult_eq r hc
  have hflen := tally_flatten_length r.tally
  have hlen : (serializeVoteResult r).length = 4 + 8 * r.tally.length + 8 := by
    rw [hs]
    simp only [List.length_append, be32_length, hflen]
    omega
  have h0 : readU32 (serializeVoteResult r) = r.tally.length := by
    rw [hs, readU32_be32_append, Nat.mod_eq_of_lt hc]
  have hloop := deserializeVoteResultLoop_spec (serializeVoteResult r) r.tally 4 []
    (be32 r.winnerId ++ be32 (if r.liarCaught then 1 else 0)) hv (by simpa using hn)
    (by rw [hs, drop_be32_append])
  have hd1 : (serializeVoteResult r).drop (4 + 8 * r.tally.length) =
      be32 r.winnerId ++ be32 (if r.liarCaught then 1 else 0) := by
    rw [hs, ← List.drop_drop, drop_be32_append]
    exact List.drop_left' hflen
  have hd2 : (serializeVoteResult r).drop (4 + 8 * r.tally.length + 4) =
      be32 (if r.liarCaught then 1 else 0) ++ [] := by
    rw [← List.drop_drop, hd1, drop_be32_append, List.append_nil]
  unfold deserializeVoteResult
  simp only [hlen, List.drop_zero, Nat.zero_add, Nat.reduceMul, h0, VoteResult.default,
    hloop, List.nil_append, hd1, hd2, readU32_be32_append, Nat.mod_eq_of_lt hw]
  rw [if_neg (by omega), if_neg (by omega)]
  have hflag2 : decide ((if r.liarCaught = true then 1 else 0) % 2 ^ 32 ≠ 0)
      = r.liarCaught := by
    cases r.liarCaught <;> simp
  rw [hflag2]

/-- C12: for every VoteResult `r` whose tally is a map of fewer than `2^32` entries (the
empty map included) with 32-bit target ids and counts, any 32-bit winner id and either
value of liarCaught, `deserializeVoteResult(serializeVoteResult(r))` is `r`; and in
whatever order `written` the entries of the tally are iterated when they are encoded, the
decoded result has the same tally as a map (the same count for every target id, and no
other target), the same winnerId and the same liarCaught. -/
theorem voteResult_roundtrip (r : VoteResult)
    (hc : r.tally.length < 2 ^ 32)
    (hn : (UMap.keys r.tally).Nodup)
    (hv : ∀ e ∈ r.tally, e.1 < 2 ^ 32 ∧ e.2 < 2 ^ 32)
    (hw : r.winnerId < 2 ^ 32) :
    deserializeVoteResult (serializeVoteResult r) = r ∧
    ∀ written : UMap Nat, written.Perm r.tally →
      (∀ k, UMap.find
          (deserializeVoteResult (serializeVoteResult { r with tally := written })).tally k =
        UMap.find r.tally k) ∧
      (deserializeVoteResult (serializeVoteResult { r with tally := written })).winnerId =
        r.winnerId ∧
      (deserializeVoteResult (serializeVoteResult { r with tally := written })).liarCaught =
        r.liarCaught := by
  refine ⟨deserialize_serializeVoteResult r hc hn hv hw, ?_⟩
  intro written hp
  have hn2 : (UMap.keys written).Nodup := (List.Perm.map Prod.fst hp).nodup_iff.mpr hn
  have h := deserialize_serializeVoteResult { r with tally := written }
    (by simpa [hp.length_eq] using hc) hn2
    (fun e he => hv e (hp.mem_iff.mp he)) hw
  rw [h]
  exact ⟨fun k => UMap.find_perm r.tally written hn hp k, rfl, rfl⟩

/-- The round trip of C12 on the result of the sample round: tally `2 ↦ 2, 1 ↦ 1`, winner
2, liar caught; the entries written in the other order decode to the same counts. -/
theorem voteResult_roundtrip_witness :
    deserializeVoteResult (serializeVoteResult
        { tally := [(2, 2), (1, 1)], winnerId := 2, liarCaught := true }) =
      { tally := [(2, 2), (1, 1)], winnerId := 2, liarCaught := true } ∧
    serializeVoteResult { tally := [(2, 2), (1, 1)], winnerId := 2, liarCaught := true } =
      [0, 0, 0, 2, 0, 0, 0, 2, 0, 0, 0, 2, 0, 0, 0, 1, 0, 0, 0, 1, 0, 0, 0, 2, 0, 0, 0, 1] ∧
    UMap.find (deserializeVoteResult (serializeVoteResult
        { tally := [(1, 1), (2, 2)], winnerId := 2, liarCaught := true })).tally 2 = some 2 :=
  ⟨(voteResult_roundtrip { tally := [(2, 2), (1, 1)], winnerId := 2, liarCaught := true }
      (by decide) (by decide) (by decide) (by decide)).1,
    by decide, by decide⟩

/-! ## Round state machine -/

/-- C14: for every game state whose player count is below 3 or above 6 and every outcome
of the random draws, `GameState::startNewRound` leaves the whole state unchanged (players,
roles, scores, active flag, topic, word, liar id, votes), so an empty topic stays empty
and a liar id 0 stays 0; and `GameState::canStartRound` is true exactly when the player
count is between 3 and 6. -/
theorem GameState.startNewRound_bad_count (s : GameState)
    (topicIndex wordIndex liarIndex : Nat) :
    (s.canStartRound = true ↔ 3 ≤ s.getPlayerCount ∧ s.getPlayerCount ≤ 6) ∧
    (s.getPlayerCount < 3 ∨ s.getPlayerCount > 6 →
      s.startNewRound topicIndex wordIndex liarIndex = s ∧
      (s.currentTopic = [] →
        (s.startNewRound topicIndex wordIndex liarIndex).getCurrentTopic = []) ∧
      (s.currentLiarId = 0 →
        (s.startNewRound topicIndex wordIndex liarIndex).getCurrentLiarId = 0)) := by
  constructor
  · simp [GameState.canStartRound, GameState.getPlayerCount]
  · intro h
    simp only [GameState.getPlayerCount] at h
    have hs : s.startNewRound topicIndex wordIndex liarIndex = s := by
      unfold GameState.startNewRound
      rw [if_pos h]
    rw [hs]
    exact ⟨rfl, fun h => h, fun h => h⟩

/-- The refusal of C14 on the idle lobby of two players, for the draws 1, 2, 0. -/
theorem GameState.startNewRound_bad_count_witness :
    sampleLobby.getPlayerCount < 3 ∧ sampleLobby.canStartRound = false ∧
    sampleLobby.startNewRound 1 2 0 = sampleLobby ∧
    (sampleLobby.startNewRound 1 2 0).getCurrentTopic = [] ∧
    (sampleLobby.startNewRound 1 2 0).getCurrentLiarId = 0 :=
  ⟨by decide, by decide,
    ((GameState.startNewRound_bad_count sampleLobby 1 2 0).2 (Or.inl (by decide))).1,
    by decide, by decide⟩

/-- C15 as stated fails: in the active sample round (three players, topic Fruit, word
Apple, liar 2) with the vote of 1 for 2 recorded, `GameState::startNewRound` with the
draws 1, 0, 0 is not a no-op: it drops the recorded vote and sets the topic City, the word
Paris, the liar 1 and the roles to match. -/
theorem GameState.startNewRound_active_not_noop :
    (sampleRound [(1, 2)]).roundActive = true ∧
    (sampleRound [(1, 2)]).startNewRound 1 0 0 ≠ sampleRound [(1, 2)] ∧
    ((sampleRound [(1, 2)]).startNewRound 1 0 0).votes = [] ∧
    ((sampleRound [(1, 2)]).startNewRound 1 0 0).currentTopic = bytesOf "City" ∧
    ((sampleRound [(1, 2)]).startNewRound 1 0 0).currentWord = bytesOf "Paris" ∧
    ((sampleRound [(1, 2)]).startNewRound 1 0 0).currentLiarId = 1 ∧
    ((sampleRound [(1, 2)]).startNewRound 1 0 0).getAllPlayerStates.map (fun p => p.role) =
      [PlayerRole.LIAR, PlayerRole.GUESSER, PlayerRole.GUESSER] := by
  decide

/-- C15 (amended): for every game state in which a round is already active and every
outcome of the random draws, the server's start transition `startNewRoundIfPossible`,
which tests `isRoundActive()` before it calls `GameState::startNewRound`, is a no-op: the
whole state (topic, secret word, liar id, every role, the recorded votes) is unchanged
and no role packet is sent. `GameState::startNewRound` itself has no such test: with 3 to
6 players it clears the previous round first, so its result has no recorded vote and is
the result of starting from the cleared state. -/
theorem startNewRoundIfPossible_active_noop (s : GameState)
    (topicIndex wordIndex liarIndex : Nat) (hactive : s.roundActive = true) :
    startNewRoundIfPossible s topicIndex wordIndex liarIndex = (s, []) ∧
    (3 ≤ s.getPlayerCount ∧ s.getPlayerCount ≤ 6 →
      (s.startNewRound topicIndex wordIndex liarIndex).votes = [] ∧
      s.startNewRound topicIndex wordIndex liarIndex =
        s.clearRound.startNewRound topicIndex wordIndex liarIndex) := by
  constructor
  · unfold startNewRoundIfPossible
    by_cases hc : s.canStartRound = true
    · simp [hc, GameState.isRoundActive, hactive]
    · simp [hc]
  · intro hcount
    simp only [GameState.getPlayerCount] at hcount
    have hlen : s.clearRound.players.length = s.players.length := by
      simp [GameState.clearRound]
    have hidem : s.clearRound.clearRound = s.clearRound := by
      simp [GameState.clearRound, Function.comp_def]
    constructor
    · unfold GameState.startNewRound
      rw [if_neg (by omega)]
      rfl
    · unfold GameState.startNewRound
      rw [if_neg (by omega), hlen, if_neg (by omega), hidem]

/-- The no-op of C15 (amended) on the active sample round with one vote recorded. -/
theorem startNewRoundIfPossible_active_noop_witness :
    (sampleRound [(1, 2)]).roundActive = true ∧
    startNewRoundIfPossible (sampleRound [(1, 2)]) 1 0 0 = (sampleRound [(1, 2)], []) :=
  ⟨rfl, (startNewRoundIfPossible_active_noop (sampleRound [(1, 2)]) 1 0 0 rfl).1⟩

theorem GameState.pickRandomTopicAndWord_mem (topicIndex wordIndex : Nat)
    (ht : topicIndex < GameState.TOPIC_WORDS.length)
    (hw : wordIndex < (GameState.TOPIC_WORDS.getD topicIndex ([], [])).2.length) :
    ∃ entry ∈ GameState.TOPIC_WORDS,
      (GameState.pickRandomTopicAndWord topicIndex wordIndex).1 = entry.1 ∧
      (GameState.pickRandomTopicAndWord topicIndex wordIndex).2 ∈ entry.2 := by
  refine ⟨GameState.TOPIC_WORDS.getD topicIndex ([], []), ?_, ?_⟩
  · rw [List.getD_eq_getElem _ _ ht]
    exact List.getElem_mem _
  · have hne : GameState.TOPIC_WORDS.isEmpty = false := rfl
    have hwne : (GameState.TOPIC_WORDS.getD topicIndex ([], [])).2.isEmpty = false := by
      cases h : (GameState.TOPIC_WORDS.getD topicIndex ([], [])).2 with
      | nil => rw [h] at hw; simp at hw
      | cons a l => rfl
    unfold GameState.pickRandomTopicAndWord
    simp only [hne, hwne, Bool.false_eq_true, if_false, true_and]
    rw [List.getD_eq_getElem _ _ hw]
    exact List.getElem_mem _

/-- The state `startNewRound` builds when the player count is accepted. -/
theorem GameState.startNewRound_eq (s : GameState) (topicIndex wordIndex liarIndex : Nat)
    (hcount : 3 ≤ s.players.length ∧ s.players.length ≤ 6) :
    s.startNewRound topicIndex wordIndex liarIndex =
      { players := s.players.map (fun pair =>
          (pair.1, { pair.2 with
            role := if pair.1 = (UMap.keys s.players).getD liarIndex 0 then PlayerRole.LIAR
                    else PlayerRole.GUESSER })),
        roundActive := true,
        currentTopic := (GameState.pickRandomTopicAndWord topicIndex wordIndex).1,
        currentWord := (GameState.pickRandomTopicAndWord topicIndex wordIndex).2,
        currentLiarId := (UMap.keys s.players).getD liarIndex 0,
        votes := [] } := by
  have hkeys : s.clearRound.players.map (fun pair => pair.1) = UMap.keys s.players := by
    simp only [GameState.clearRound, UMap.keys, List.map_map]
    rfl
  unfold GameState.startNewRound
  rw [if_neg (by omega)]
  dsimp only
  rw [hkeys]
  simp only [GameState.clearRound, List.map_map, GameState.mk.injEq, and_true, true_and]
  apply List.map_congr_left
  intro pair _
  simp only [Function.comp_apply]
  split <;> rfl

theorem UMap.countP_key_eq_one {V : Type} (m : UMap V) (k : Nat)
    (hn : (UMap.keys m).Nodup) (hk : k ∈ UMap.keys m) :
    (m.filter (fun pair => decide (pair.1 = k))).length = 1 := by
  have h1 : (m.filter (fun pair => decide (pair.1 = k))).length =
      (UMap.keys m).count k := by
    unfold UMap.keys
    rw [List.count, List.countP_map, List.countP_eq_length_filter]
    congr 1
  rw [h1]
  exact List.count_eq_one_of_mem hn hk

/-- C16: for every game state with between 3 and 6 players and every outcome of the
random draws, after `GameState::startNewRound` the round is active, the players are the
same, the liar id is the id of a current player, the player with that id has role LIAR
and every other player has role GUESSER, exactly one player has role LIAR, the vote map
is empty, and the topic is one of the table's topics with the secret word taken from that
topic's word list. -/
theorem GameState.startNewRound_assigns (s : GameState) (topicIndex wordIndex liarIndex : Nat)
    (hcount : 3 ≤ s.getPlayerCount ∧ s.getPlayerCount ≤ 6)
    (hkeys : (UMap.keys s.players).Nodup)
    (ht : topicIndex < GameState.TOPIC_WORDS.length)
    (hw : wordIndex < (GameState.TOPIC_WORDS.getD topicIndex ([], [])).2.length)
    (hl : liarIndex < s.getPlayerCount) :
    (s.startNewRound topicIndex wordIndex liarIndex).roundActive = true ∧
    UMap.keys (s.startNewRound topicIndex wordIndex liarIndex).players = UMap.keys s.players ∧
    (s.startNewRound topicIndex wordIndex liarIndex).currentLiarId ∈
      UMap.keys (s.startNewRound topicIndex wordIndex liarIndex).players ∧
    (∀ pair ∈ (s.startNewRound topicIndex wordIndex liarIndex).players,
      (pair.1 = (s.startNewRound topicIndex wordIndex liarIndex).currentLiarId →
        pair.2.role = PlayerRole.LIAR) ∧
      (pair.1 ≠ (s.startNewRound topicIndex wordIndex liarIndex).currentLiarId →
        pair.2.role = PlayerRole.GUESSER)) ∧
    ((s.startNewRound topicIndex wordIndex liarIndex).players.filter
      (fun pair => decide (pair.2.role = PlayerRole.LIAR))).length = 1 ∧
    (s.startNewRound topicIndex wordIndex liarIndex).votes = [] ∧
    ∃ entry ∈ GameState.TOPIC_WORDS,
      (s.startNewRound topicIndex wordIndex liarIndex).currentTopic = entry.1 ∧
      (s.startNewRound topicIndex wordIndex liarIndex).currentWord ∈ entry.2 := by
  simp only [GameState.getPlayerCount] at hcount hl
  rw [GameState.startNewRound_eq s topicIndex wordIndex liarIndex hcount]
  have hklen : (UMap.keys s.players).length = s.players.length := by
    simp [UMap.keys]
  have hmem : (UMap.keys s.players).getD liarIndex 0 ∈ UMap.keys s.players := by
    rw [List.getD_eq_getElem _ _ (by omega)]
    exact List.getElem_mem _
  have hk2 : UMap.keys (s.players.map (fun pair =>
      (pair.1, { pair.2 with
        role := if pair.1 = (UMap.keys s.players).getD liarIndex 0 then PlayerRole.LIAR
                else PlayerRole.GUESSER }))) = UMap.keys s.players := by
    simp only [UMap.keys, List.map_map]
    rfl
  refine ⟨rfl, hk2, ?_, ?_, ?_, rfl,
    GameState.pickRandomTopicAndWord_mem topicIndex wordIndex ht hw⟩
  · simp only [hk2]
    exact hmem
  · intro pair hp
    simp only [List.mem_map] at hp
    obtain ⟨q, _, rfl⟩ := hp
    constructor
    · intro h
      simp only at h ⊢
      rw [if_pos h]
    · intro h
      simp only [ne_eq] at h ⊢
      rw [if_neg h]
  · simp only [List.filter_map, List.length_map]
    have := UMap.countP_key_eq_one s.players ((UMap.keys s.players).getD liarIndex 0)
      hkeys hmem
    rw [← this]
    congr 1
    apply List.filter_congr
    intro x _
    simp only [Function.comp_apply]
    by_cases hx : x.1 = (UMap.keys s.players).getD liarIndex 0
    · simp [hx]
    · simp [hx, PlayerRole.LIAR, PlayerRole.GUESSER]

/-- The round start of C16 on the idle sample of three players with the draws 0, 0, 1:
topic Fruit, word Apple, liar 2, the other two players guessers. -/
theorem GameState.startNewRound_assigns_witness :
    (sampleIdle.startNewRound 0 0 1).roundActive = true ∧
    (sampleIdle.startNewRound 0 0 1).currentLiarId = 2 ∧
    (sampleIdle.startNewRound 0 0 1).getAllPlayerStates.map (fun p => p.role) =
      [PlayerRole.GUESSER, PlayerRole.LIAR, PlayerRole.GUESSER] ∧
    (sampleIdle.startNewRound 0 0 1).currentTopic = bytesOf "Fruit" ∧
    (sampleIdle.startNewRound 0 0 1).currentWord = bytesOf "Apple" ∧
    ((sampleIdle.startNewRound 0 0 1).players.filter
      (fun pair => decide (pair.2.role = PlayerRole.LIAR))).length = 1 :=
  ⟨by decide, by decide, by decide, by decide, by decide,
    (GameState.startNewRound_assigns sampleIdle 0 0 1 (by decide) (by decide) (by decide)
      (by decide) (by decide)).2.2.2.2.1⟩

theorem UMap.find_assign {V : Type} (m : UMap V) (k : Nat) (v : V) (k2 : Nat) :
    UMap.find (UMap.assign m k v) k2 = if k2 = k then some v else UMap.find m k2 := by
  induction m with
  | nil =>
    by_cases h : k2 = k
    · simp [UMap.assign, UMap.find, h]
    · have h2 : ¬ k = k2 := fun h3 => h h3.symm
      simp [UMap.assign, UMap.find, h, h2]
  | cons e rest ih =>
    obtain ⟨k', v'⟩ := e
    by_cases h1 : k' = k
    · subst h1
      by_cases h2 : k2 = k'
      · simp [UMap.assign, UMap.find, h2]
      · have h3 : ¬ k' = k2 := fun h4 => h2 h4.symm
        simp [UMap.assign, UMap.find, h2, h3]
    · by_cases h2 : k2 = k
      · subst h2
        simp [UMap.assign, UMap.find, h1, ih]
      · by_cases h3 : k' = k2
        · simp [UMap.assign, UMap.find, h1, h2, h3]
        · simp [UMap.assign, UMap.find, h1, h2, h3, ih]

/-- C17: for every game state and every voterId and targetId, `GameState::submitVote`
returns false exactly when no round is active, or voterId already has a recorded vote, or
voterId is not a known player, or targetId is not a known player, and then it changes
nothing; otherwise it returns true, records `voterId -> targetId`, and changes nothing
else: every other voter's vote, the players, roles, scores and round data are untouched.
After a vote is recorded, a second vote by the same voter is refused and does not replace
it. -/
theorem GameState.submitVote_spec (s : GameState) (voterId targetId : Nat) :
    ((s.submitVote voterId targetId).1 = false ↔
      (s.roundActive = false ∨ (UMap.find s.votes voterId).isSome = true ∨
        UMap.find s.players voterId = none ∨ UMap.find s.players targetId = none)) ∧
    ((s.submitVote voterId targetId).1 = false → (s.submitVote voterId targetId).2 = s) ∧
    ((s.submitVote voterId targetId).1 = true →
      UMap.find (s.submitVote voterId targetId).2.votes voterId = some targetId ∧
      (∀ other, other ≠ voterId →
        UMap.find (s.submitVote voterId targetId).2.votes other = UMap.find s.votes other) ∧
      (s.submitVote voterId targetId).2 =
        { s with votes := (s.submitVote voterId targetId).2.votes } ∧
      (∀ target2, (s.submitVote voterId targetId).2.submitVote voterId target2 =
        (false, (s.submitVote voterId targetId).2))) := by
  unfold GameState.submitVote
  by_cases ha : s.roundActive = true
  · by_cases hv : (UMap.find s.votes voterId).isSome = true
    · simp [ha, hv]
    · by_cases hp : UMap.find s.players voterId = none ∨ UMap.find s.players targetId = none
      · have hp2 : (UMap.find s.players voterId).isNone = true ∨
            (UMap.find s.players targetId).isNone = true := by
          rcases hp with h | h
          · exact Or.inl (by rw [h]; rfl)
          · exact Or.inr (by rw [h]; rfl)
        simp [ha, hv, hp, hp2]
      · have hp2 : ¬ ((UMap.find s.players voterId).isNone = true ∨
            (UMap.find s.players targetId).isNone = true) := by
          intro h
          apply hp
          rcases h with h | h
          · exact Or.inl (Option.isNone_iff_eq_none.mp h)
          · exact Or.inr (Option.isNone_iff_eq_none.mp h)
        simp only [ha, hv, hp2, Bool.not_true, Bool.false_eq_true, if_false]
        refine ⟨?_, ?_, ?_⟩
        · constructor
          · intro h; cases h
          · intro h
            rcases h with h | h | h
            · cases h
            · exact h.elim
            · exact absurd h hp
        · intro h; cases h
        · intro _
          refine ⟨?_, ?_, trivial, ?_⟩
          · rw [UMap.find_assign]; simp
          · intro other ho
            rw [UMap.find_assign, if_neg ho]
          · intro target2
            simp [UMap.find_assign]
  · simp [ha]

/-- The vote of C17 in the sample round: the first vote of player 1 for player 2 is
recorded; a second vote of player 1, for player 3, is refused and changes nothing. -/
theorem GameState.submitVote_spec_witness :
    (sampleRound []).submitVote 1 2 = (true, sampleRound [(1, 2)]) ∧
    (sampleRound [(1, 2)]).submitVote 1 3 = (false, sampleRound [(1, 2)]) ∧
    ((sampleRound [(1, 2)]).submitVote 1 3).2 = sampleRound [(1, 2)] :=
  ⟨by decide, by decide,
    (GameState.submitVote_spec (sampleRound [(1, 2)]) 1 3).2.1 (by decide)⟩

/-! ## Vote resolution and scoring -/

theorem tallyWinner_foldl_lt (l : UMap Nat) (c : Nat) :
    ∀ (best : Nat × Nat), (∀ e ∈ l, e.2 < c) → best.2 < c →
      (l.foldl (fun best entry => if entry.2 > best.2 then (entry.1, entry.2) else best)
        best).2 < c := by
  induction l with
  | nil => intro best _ hb; exact hb
  | cons e rest ih =>
    intro best hl hb
    rw [List.foldl_cons]
    apply ih _ (fun x hx => hl x (List.mem_cons_of_mem e hx))
    split
    · exact hl e (List.mem_cons_self _ _)
    · exact hb

theorem tallyWinner_foldl_keep (l : UMap Nat) (t c : Nat) (hl : ∀ e ∈ l, e.2 < c) :
    l.foldl (fun best entry => if entry.2 > best.2 then (entry.1, entry.2) else best) (t, c) =
      (t, c) := by
  induction l with
  | nil => rfl
  | cons e rest ih =>
    have he := hl e (List.mem_cons_self _ _)
    rw [List.foldl_cons, if_neg (by simp only [gt_iff_lt]; omega)]
    exact ih (fun x hx => hl x (List.mem_cons_of_mem e hx))

theorem tally_count_le_sum (l : UMap Nat) (e : Nat × Nat) (he : e ∈ l) :
    e.2 ≤ (l.map (fun x => x.2)).sum := by
  induction l with
  | nil => cases he
  | cons x rest ih =>
    simp only [List.map_cons, List.sum_cons]
    rcases List.mem_cons.mp he with h | h
    · rw [h]; omega
    · have := ih h; omega

/-- The winner loop on a tally in which one target holds more than half of the votes:
that target wins with its count, wherever it stands in the iteration. -/
theorem tallyWinner_majority (tally : UMap Nat) (totalPlayers t c : Nat)
    (hmem : (t, c) ∈ tally)
    (hsum : (tally.map (fun e => e.2)).sum ≤ totalPlayers)
    (hmaj : 2 * c > totalPlayers) :
    tallyWinner tally = (t, c) := by
  obtain ⟨l1, l2, rfl⟩ := List.append_of_mem hmem
  simp only [List.map_append, List.map_cons, List.sum_append, List.sum_cons] at hsum
  have h1 : ∀ e ∈ l1, e.2 < c := by
    intro e he
    have := tally_count_le_sum l1 e he
    omega
  have h2 : ∀ e ∈ l2, e.2 < c := by
    intro e he
    have := tally_count_le_sum l2 e he
    omega
  have hfirst := tallyWinner_foldl_lt l1 c (0, 0) h1 (by simp only; omega)
  unfold tallyWinner
  rw [List.foldl_append, List.foldl_cons, if_pos (by simp only [gt_iff_lt]; exact hfirst)]
  exact tallyWinner_foldl_keep l2 t c h2

theorem resolveVotes_of_majority (tally : UMap Nat) (liarId totalPlayers t c : Nat)
    (hmem : (t, c) ∈ tally)
    (hsum : (tally.map (fun e => e.2)).sum ≤ totalPlayers)
    (hmaj : 2 * c > totalPlayers) :
    resolveVotes tally liarId totalPlayers =
      ({ tally := tally, winnerId := t, liarCaught := decide (t = liarId) }, true) := by
  have hw := tallyWinner_majority tally totalPlayers t c hmem hsum hmaj
  have hgt : c > totalPlayers / 2 := by omega
  unfold resolveVotes
  simp only [hw, hgt, decide_True, Bool.true_and]

/-- C18 (the code departs from it): in the sample round of three players with liar 2 and
the votes 1 for 2, 2 for 3, 3 for 1, every player has voted and no target has more than
`3 / 2` votes; the server's resolution leaves `hasMajority` and `liarCaught` false, but
the winner id it puts in the broadcast VoteResult is 2, the first target of the tally
with the highest count, not 0; in each of the six orders in which the tally can be
iterated the winner id is non-zero. -/
theorem resolveVotes_tie_keeps_winner :
    (sampleRound [(1, 2), (2, 3), (3, 1)]).getVoteTally = [(2, 1), (3, 1), (1, 1)] ∧
    ((sampleRound [(1, 2), (2, 3), (3, 1)]).getVoteTally.all
      (fun entry => !decide (entry.2 > (sampleRound []).getPlayerCount / 2))) = true ∧
    resolveVotes (sampleRound [(1, 2), (2, 3), (3, 1)]).getVoteTally
        (sampleRound []).getCurrentLiarId (sampleRound []).getPlayerCount =
      ({ tally := [(2, 1), (3, 1), (1, 1)], winnerId := 2, liarCaught := false }, false) ∧
    ([[(2, 1), (3, 1), (1, 1)], [(2, 1), (1, 1), (3, 1)], [(3, 1), (2, 1), (1, 1)],
      [(3, 1), (1, 1), (2, 1)], [(1, 1), (2, 1), (3, 1)], [(1, 1), (3, 1), (2, 1)]].all
      (fun order => (resolveVotes order 2 3).1.winnerId != 0)) = true := by
  decide

/-- C19: when the server resolves a round with `totalPlayers` players and a tally whose
counts sum to at most `totalPlayers`, if some target `t` has a count `c` with
`2 * c > totalPlayers` (which is the code's test `c > totalPlayers / 2`), then
`hasMajority` is true, the winner id is `t`, and `liarCaught` is true exactly when `t` is
the liar id; the same holds in whatever order the tally map is iterated. -/
theorem resolveVotes_majority (tally : UMap Nat) (liarId totalPlayers t c : Nat)
    (hmem : (t, c) ∈ tally)
    (hsum : (tally.map (fun e => e.2)).sum ≤ totalPlayers)
    (hmaj : 2 * c > totalPlayers) :
    c > totalPlayers / 2 ∧
    (resolveVotes tally liarId totalPlayers).2 = true ∧
    (resolveVotes tally liarId totalPlayers).1.winnerId = t ∧
    ((resolveVotes tally liarId totalPlayers).1.liarCaught = true ↔ t = liarId) ∧
    ∀ order : UMap Nat, order.Perm tally →
      (resolveVotes order liarId totalPlayers).2 = true ∧
      (resolveVotes order liarId totalPlayers).1.winnerId = t ∧
      ((resolveVotes order liarId totalPlayers).1.liarCaught = true ↔ t = liarId) := by
  have h := resolveVotes_of_majority tally liarId totalPlayers t c hmem hsum hmaj
  refine ⟨by omega, by rw [h], by rw [h], by rw [h]; simp, ?_⟩
  intro order hp
  have hsum2 : (order.map (fun e => e.2)).sum ≤ totalPlayers := by
    rw [(List.Perm.map (fun e => e.2) hp).sum_eq]
    exact hsum
  have h2 := resolveVotes_of_majority order liarId totalPlayers t c (hp.mem_iff.mpr hmem)
    hsum2 hmaj
  exact ⟨by rw [h2], by rw [h2], by rw [h2]; simp⟩

/-- The scenario of C19: players 1, 2, 3, liar 2, votes 1 for 2, 3 for 2, 2 for 1 give the
tally `2 ↦ 2, 1 ↦ 1`, a majority, the winner 2 and the liar caught. -/
theorem resolveVotes_majority_witness :
    (sampleRound [(1, 2), (3, 2), (2, 1)]).getVoteTally = [(2, 2), (1, 1)] ∧
    (resolveVotes (sampleRound [(1, 2), (3, 2), (2, 1)]).getVoteTally 2 3).2 = true ∧
    (resolveVotes (sampleRound [(1, 2), (3, 2), (2, 1)]).getVoteTally 2 3).1.winnerId = 2 ∧
    (resolveVotes (sampleRound [(1, 2), (3, 2), (2, 1)]).getVoteTally 2 3).1.liarCaught
      = true :=
  ⟨by decide,
    (resolveVotes_majority (sampleRound [(1, 2), (3, 2), (2, 1)]).getVoteTally 2 3 2 2
      (by decide) (by decide) (by decide)).2.1,
    (resolveVotes_majority (sampleRound [(1, 2), (3, 2), (2, 1)]).getVoteTally 2 3 2 2
      (by decide) (by decide) (by decide)).2.2.1,
    by decide⟩

theorem UMap.find_map_values {V : Type} (m : UMap V) (f : Nat → V → V) (k : Nat) :
    UMap.find (m.map (fun pair => (pair.1, f pair.1 pair.2))) k =
      (UMap.find m k).map (f k) := by
  induction m with
  | nil => rfl
  | cons e rest ih =>
    obtain ⟨k', v⟩ := e
    by_cases h : k' = k
    · subst h
      simp [UMap.find]
    · simp [UMap.find, h, ih]

/-- The state built by `calculateAndApplyScores(true, liar, true)` in an active round. -/
theorem GameState.calculateAndApplyScores_eq_of_caught (s : GameState)
    (hactive : s.roundActive = true) (hliar : s.currentLiarId ≠ 0) :
    s.calculateAndApplyScores true s.currentLiarId true =
      { s with
        players := s.players.map (fun pair =>
          (pair.1, { pair.2 with
            score := pair.2.score +
              (if pair.2.role = PlayerRole.GUESSER ∧
                  UMap.find s.votes pair.1 = some s.currentLiarId then 1 else 0) })) } := by
  unfold GameState.calculateAndApplyScores
  rw [if_neg (by simp [hactive, hliar]), if_pos (by simp)]
  congr 1
  apply List.map_congr_left
  intro pair _
  obtain ⟨k, pid, pname, prole, pscore⟩ := pair
  by_cases hr : prole = PlayerRole.GUESSER
  · by_cases hv : UMap.find s.votes k = some s.currentLiarId
    · simp [hr, hv]
    · simp [hr, hv]
  · simp [hr]

/-- C20: for every active round with liar `L`, `L ≠ 0`,
`GameState::calculateAndApplyScores(liarCaught = true, votedOutId = L, hasMajority = true)`
increases by exactly 1 the score of every player whose role is GUESSER and whose recorded
vote is `L`, and leaves every other player's score unchanged, the liar's included; no
player is added or removed, ids, usernames and roles are kept, and nothing but the
players' scores changes in the state. -/
theorem GameState.calculateAndApplyScores_caught (s : GameState)
    (hactive : s.roundActive = true) (hliar : s.currentLiarId ≠ 0) :
    s.calculateAndApplyScores true s.currentLiarId true =
      { s with players := (s.calculateAndApplyScores true s.currentLiarId true).players } ∧
    UMap.keys (s.calculateAndApplyScores true s.currentLiarId true).players =
      UMap.keys s.players ∧
    (∀ id p, UMap.find s.players id = some p →
      (p.role = PlayerRole.GUESSER ∧ UMap.find s.votes id = some s.currentLiarId →
        UMap.find (s.calculateAndApplyScores true s.currentLiarId true).players id =
          some { p with score := p.score + 1 }) ∧
      (¬ (p.role = PlayerRole.GUESSER ∧ UMap.find s.votes id = some s.currentLiarId) →
        UMap.find (s.calculateAndApplyScores true s.currentLiarId true).players id =
          some p)) ∧
    (∀ id, UMap.find s.players id = none →
      UMap.find (s.calculateAndApplyScores true s.currentLiarId true).players id = none) := by
  rw [GameState.calculateAndApplyScores_eq_of_caught s hactive hliar]
  have hfind := fun id => UMap.find_map_values s.players
    (fun k (p : PlayerState) => { p with
      score := p.score + (if p.role = PlayerRole.GUESSER ∧
        UMap.find s.votes k = some s.currentLiarId then 1 else 0) }) id
  refine ⟨rfl, ?_, ?_, ?_⟩
  · simp only [UMap.keys, List.map_map]
    rfl
  · intro id p hp
    constructor
    · intro hc
      simp only
      rw [hfind id, hp]
      simp [hc]
    · intro hc
      simp only
      rw [hfind id, hp]
      simp [hc]
  · intro id hp
    simp only
    rw [hfind id, hp]
    rfl

/-- The scenario of C20: players 1, 2, 3, liar 2, votes 1 for 2, 3 for 2, 2 for 1; the
guessers 1 and 3 gain 1 point each, the liar 2 gains none, nothing else changes. -/
theorem GameState.calculateAndApplyScores_caught_witness :
    (GameState.getAllPlayerStates
      ((sampleRound [(1, 2), (3, 2), (2, 1)]).calculateAndApplyScores true 2 true)).map
        (fun p => (p.id, p.score)) = [(1, 1), (2, 0), (3, 1)] ∧
    (sampleRound [(1, 2), (3, 2), (2, 1)]).calculateAndApplyScores true 2 true =
      { sampleRound [(1, 2), (3, 2), (2, 1)] with
        players := ((sampleRound [(1, 2), (3, 2), (2, 1)]).calculateAndApplyScores
          true 2 true).players } :=
  ⟨by decide,
    (GameState.calculateAndApplyScores_caught (sampleRound [(1, 2), (3, 2), (2, 1)])
      rfl (by decide)).1⟩

theorem UMap.keys_assign_of_find {V : Type} (m : UMap V) (k : Nat) (v w : V)
    (h : UMap.find m k = some w) : UMap.keys (UMap.assign m k v) = UMap.keys m := by
  induction m with
  | nil => simp [UMap.find] at h
  | cons e rest ih =>
    obtain ⟨k', v'⟩ := e
    by_cases hk : k' = k
    · simp [UMap.assign, UMap.keys, hk]
    · simp only [UMap.find, hk, if_false] at h
      have := ih h
      simp only [UMap.keys] at this
      simp [UMap.assign, UMap.keys, hk, this]

/-- C21: for every active round with liar `L`, `L ≠ 0` and `L` still a player,
`GameState::calculateAndApplyScores(liarCaught = false, votedOutId = w, hasMajority = true)`
with `w ≠ L` increases the liar's score by exactly 2 and leaves every other player as it
was; no player is added or removed and nothing but the liar's score changes in the
state. -/
theorem GameState.calculateAndApplyScores_survived (s : GameState) (w : Nat)
    (liar : PlayerState)
    (hactive : s.roundActive = true) (hliar : s.currentLiarId ≠ 0)
    (hw : w ≠ s.currentLiarId)
    (hp : UMap.find s.players s.currentLiarId = some liar) :
    s.calculateAndApplyScores false w true =
      { s with players := (s.calculateAndApplyScores false w true).players } ∧
    UMap.keys (s.calculateAndApplyScores false w true).players = UMap.keys s.players ∧
    UMap.find (s.calculateAndApplyScores false w true).players s.currentLiarId =
      some { liar with score := liar.score + 2 } ∧
    (∀ id, id ≠ s.currentLiarId →
      UMap.find (s.calculateAndApplyScores false w true).players id =
        UMap.find s.players id) := by
  have h : s.calculateAndApplyScores false w true =
      { s with players :=
          UMap.assign s.players s.currentLiarId { liar with score := liar.score + 2 } } := by
    unfold GameState.calculateAndApplyScores
    rw [if_neg (by simp [hactive, hliar]), if_neg (by simp),
      if_pos (by simp [hw])]
    simp only [hp]
  rw [h]
  refine ⟨rfl, ?_, ?_, ?_⟩
  · exact UMap.keys_assign_of_find s.players s.currentLiarId _ liar hp
  · simp only
    rw [UMap.find_assign, if_pos rfl]
  · intro id hid
    simp only
    rw [UMap.find_assign, if_neg hid]

/-- The scenario of C21: players 1, 2, 3, liar 2, votes 1 for 3, 3 for 1, 2 for 1 give the
tally `3 ↦ 1, 1 ↦ 2`, the winner 1 with a majority and the liar not caught; player 2
gains 2 points, players 1 and 3 gain none. -/
theorem GameState.calculateAndApplyScores_survived_witness :
    resolveVotes (sampleRound [(1, 3), (3, 1), (2, 1)]).getVoteTally 2 3 =
      ({ tally := [(3, 1), (1, 2)], winnerId := 1, liarCaught := false }, true) ∧
    (GameState.getAllPlayerStates
      ((sampleRound [(1, 3), (3, 1), (2, 1)]).calculateAndApplyScores false 1 true)).map
        (fun p => (p.id, p.score)) = [(1, 0), (2, 2), (3, 0)] ∧
    UMap.find ((sampleRound [(1, 3), (3, 1), (2, 1)]).calculateAndApplyScores
        false 1 true).players 2 =
      some { id := 2, username := bytesOf "bob", role := PlayerRole.LIAR, score := 0 + 2 } :=
  ⟨by decide, by decide,
    (GameState.calculateAndApplyScores_survived (sampleRound [(1, 3), (3, 1), (2, 1)]) 1
      { id := 2, username := bytesOf "bob", role := PlayerRole.LIAR, score := 0 }
      rfl (by decide) (by decide) (by decide)).2.2.1⟩

/-- C22: for every game state and every value of liarCaught and votedOutId,
`GameState::calculateAndApplyScores` with `hasMajority = false` returns the state as it
was: no player's score changes, and nothing else does. -/
theorem GameState.calculateAndApplyScores_no_majority (s : GameState) (liarCaught : Bool)
    (votedOutId : Nat) :
    s.calculateAndApplyScores liarCaught votedOutId false = s := by
  unfold GameState.calculateAndApplyScores
  split
  · rfl
  · rw [if_neg (by simp), if_neg (by simp)]

/-- C23: for every game state, whether or not a round is active and whatever votes
exist, after `GameState::clearRound` the round is inactive, topic and secret word are
empty, the liar id is 0, the vote map is empty and every player's role is NONE. -/
theorem GameState.clearRound_spec (s : GameState) :
    s.clearRound.isRoundActive = false ∧
    s.clearRound.getCurrentTopic = [] ∧
    s.clearRound.getCurrentWord = [] ∧
    s.clearRound.getCurrentLiarId = 0 ∧
    s.clearRound.votes = [] ∧
    (∀ pair ∈ s.clearRound.players, pair.2.role = PlayerRole.NONE) ∧
    (∀ p ∈ s.clearRound.getAllPlayerStates, p.role = PlayerRole.NONE) := by
  refine ⟨rfl, rfl, rfl, rfl, rfl, ?_, ?_⟩
  · intro pair hp
    simp only [GameState.clearRound, List.mem_map] at hp
    obtain ⟨q, _, rfl⟩ := hp
    rfl
  · intro p hp
    simp only [GameState.clearRound, GameState.getAllPlayerStates, List.mem_map] at hp
    obtain ⟨q, ⟨q2, _, rfl⟩, rfl⟩ := hp
    rfl

/-- The clearing of C23 on the sample round with all three votes recorded. -/
theorem GameState.clearRound_spec_witness :
    (sampleRound [(1, 2), (3, 2), (2, 1)]).clearRound = sampleIdle ∧
    ∀ p ∈ (sampleRound [(1, 2), (3, 2), (2, 1)]).clearRound.getAllPlayerStates,
      p.role = PlayerRole.NONE :=
  ⟨by decide, (GameState.clearRound_spec (sampleRound [(1, 2), (3, 2), (2, 1)])).2.2.2.2.2.2⟩

/-- C24: scores survive round transitions: for every game state and every outcome of
the random draws, `GameState::clearRound` and `GameState::startNewRound` leave the
players' ids in place, in the same order, each with the username and the score it had. -/
theorem GameState.round_transitions_keep_scores (s : GameState)
    (topicIndex wordIndex liarIndex : Nat) :
    s.clearRound.players.map (fun pair => (pair.1, pair.2.id, pair.2.username, pair.2.score)) =
      s.players.map (fun pair => (pair.1, pair.2.id, pair.2.username, pair.2.score)) ∧
    (s.startNewRound topicIndex wordIndex liarIndex).players.map
        (fun pair => (pair.1, pair.2.id, pair.2.username, pair.2.score)) =
      s.players.map (fun pair => (pair.1, pair.2.id, pair.2.username, pair.2.score)) ∧
    UMap.keys s.clearRound.players = UMap.keys s.players ∧
    UMap.keys (s.startNewRound topicIndex wordIndex liarIndex).players =
      UMap.keys s.players := by
  have h1 : s.clearRound.players.map
      (fun pair => (pair.1, pair.2.id, pair.2.username, pair.2.score)) =
      s.players.map (fun pair => (pair.1, pair.2.id, pair.2.username, pair.2.score)) := by
    simp only [GameState.clearRound, List.map_map]
    rfl
  have h2 : (s.startNewRound topicIndex wordIndex liarIndex).players.map
      (fun pair => (pair.1, pair.2.id, pair.2.username, pair.2.score)) =
      s.players.map (fun pair => (pair.1, pair.2.id, pair.2.username, pair.2.score)) := by
    by_cases hc : 3 ≤ s.players.length ∧ s.players.length ≤ 6
    · rw [GameState.startNewRound_eq s topicIndex wordIndex liarIndex hc]
      simp only [List.map_map]
      rfl
    · unfold GameState.startNewRound
      rw [if_pos (by omega)]
  refine ⟨h1, h2, ?_, ?_⟩
  · have := congrArg (List.map (fun (q : Nat × Nat × List Byte × Int) => q.1)) h1
    simpa [UMap.keys, List.map_map, Function.comp_def] using this
  · have := congrArg (List.map (fun (q : Nat × Nat × List Byte × Int) => q.1)) h2
    simpa [UMap.keys, List.map_map, Function.comp_def] using this

/-! ## Players and the PLAYER_LEAVE path -/

theorem UMap.erase_cons {V : Type} (k' : Nat) (v : V) (rest : UMap V) (k : Nat) :
    UMap.erase ((k', v) :: rest) k =
      if k' = k then UMap.erase rest k else (k', v) :: UMap.erase rest k := by
  unfold UMap.erase
  by_cases h : k' = k <;> simp [List.filter_cons, h]

theorem UMap.find_erase {V : Type} (m : UMap V) (k k2 : Nat) :
    UMap.find (UMap.erase m k) k2 = if k2 = k then none else UMap.find m k2 := by
  induction m with
  | nil => simp [UMap.erase, UMap.find]
  | cons e rest ih =>
    obtain ⟨k', v⟩ := e
    rw [UMap.erase_cons]
    by_cases h1 : k' = k
    · subst h1
      rw [if_pos rfl, ih]
      by_cases h2 : k2 = k'
      · simp [h2]
      · have h3 : ¬ k' = k2 := fun h => h2 h.symm
        simp [UMap.find, h2, h3]
    · rw [if_neg h1]
      by_cases h3 : k' = k2
      · have h2 : ¬ k2 = k := fun h => h1 (h3.trans h)
        simp [UMap.find, h2, h3]
      · simp [UMap.find, h3, ih]

theorem UMap.find_map_snd {V W : Type} (m : UMap V) (f : Nat → V → W) (k : Nat) :
    UMap.find (m.map (fun pair => (pair.1, f pair.1 pair.2))) k =
      (UMap.find m k).map (f k) := by
  induction m with
  | nil => rfl
  | cons e rest ih =>
    obtain ⟨k', v⟩ := e
    by_cases h : k' = k
    · subst h
      simp [UMap.find]
    · simp [UMap.find, h, ih]

theorem UMap.mem_assign {V : Type} (m : UMap V) (k : Nat) (v : V) (e : Nat × V)
    (he : e ∈ UMap.assign m k v) : e ∈ m ∨ e.2 = v := by
  induction m with
  | nil =>
    simp only [UMap.assign, List.mem_singleton] at he
    exact Or.inr (by rw [he])
  | cons x rest ih =>
    obtain ⟨k', v'⟩ := x
    by_cases h : k' = k
    · simp only [UMap.assign, h, if_true, List.mem_cons] at he
      rcases he with he | he
      · exact Or.inr (by rw [he])
      · exact Or.inl (List.mem_cons_of_mem _ he)
    · simp only [UMap.assign, h, if_false, List.mem_cons] at he
      rcases he with he | he
      · exact Or.inl (by rw [he]; exact List.mem_cons_self _ _)
      · rcases ih he with h2 | h2
        · exact Or.inl (List.mem_cons_of_mem _ h2)
        · exact Or.inr h2

/-- The state `startNewRoundIfPossible` leaves: a new round when the player count allows
one and none is active, the state as it was otherwise. -/
theorem startNewRoundIfPossible_state (g : GameState) (topicIndex wordIndex liarIndex : Nat) :
    (startNewRoundIfPossible g topicIndex wordIndex liarIndex).1 =
      if g.canStartRound = true ∧ g.roundActive = false then
        g.startNewRound topicIndex wordIndex liarIndex
      else g := by
  unfold startNewRoundIfPossible
  by_cases hc : g.canStartRound = true
  · by_cases ha : g.roundActive = true
    · simp [hc, ha, GameState.isRoundActive]
    · have ha2 : g.roundActive = false := by simpa using ha
      simp only [hc, ha2, GameState.isRoundActive, Bool.not_true, Bool.false_eq_true,
        if_false, and_self, if_true]
      split <;> rfl
  · simp [hc]

theorem GameState.removePlayer_of_known (s : GameState) (p : Nat)
    (hknown : (UMap.find s.players p).isSome = true) :
    s.removePlayer p =
      (true, { s with
        votes := (UMap.erase s.votes p).filter (fun vote => decide (vote.2 ≠ p)),
        players := UMap.erase s.players p,
        currentLiarId := if s.currentLiarId = p then 0 else s.currentLiarId }) := by
  unfold GameState.removePlayer
  have : (UMap.find s.players p).isNone = false := by
    cases h : UMap.find s.players p with
    | none => rw [h] at hknown; cases hknown
    | some v => rfl
  simp [this]

theorem handlePlayerLeave_tail (g : GameState) (out : List Outgoing)
    (topicIndex wordIndex liarIndex : Nat) (hg : g.roundActive = false) :
    (if g.getPlayerCount < 3 then (g, out)
      else ((startNewRoundIfPossible g topicIndex wordIndex liarIndex).1,
        out ++ (startNewRoundIfPossible g topicIndex wordIndex liarIndex).2.map
          (fun m => Outgoing.sendPacket m.1 m.2))).1 =
      if 3 ≤ g.getPlayerCount ∧ g.getPlayerCount ≤ 6 then
        g.startNewRound topicIndex wordIndex liarIndex
      else g := by
  by_cases h3 : g.getPlayerCount < 3
  · rw [if_pos h3, if_neg (by omega)]
  · rw [if_neg h3]
    simp only [startNewRoundIfPossible_state]
    have hcan : g.canStartRound = true ↔ 3 ≤ g.getPlayerCount ∧ g.getPlayerCount ≤ 6 := by
      simp [GameState.canStartRound, GameState.getPlayerCount]
    by_cases h6 : g.getPlayerCount ≤ 6
    · rw [if_pos ⟨hcan.mpr ⟨by omega, h6⟩, hg⟩, if_pos ⟨by omega, h6⟩]
    · rw [if_neg (fun h => h6 (hcan.mp h.1).2), if_neg (fun h => h6 h.2)]

/-- The game state the PLAYER_LEAVE case leaves when the leaving player is known and a
round is active: the player removed and the round cleared, then a new round when between
3 and 6 players remain. -/
theorem handlePlayerLeave_state (s : GameState) (p : Nat)
    (topicIndex wordIndex liarIndex : Nat)
    (hactive : s.roundActive = true)
    (hknown : (UMap.find s.players p).isSome = true) :
    (handlePlayerLeave s p topicIndex wordIndex liarIndex).1 =
      if 3 ≤ (s.removePlayer p).2.clearRound.getPlayerCount ∧
          (s.removePlayer p).2.clearRound.getPlayerCount ≤ 6 then
        (s.removePlayer p).2.clearRound.startNewRound topicIndex wordIndex liarIndex
      else (s.removePlayer p).2.clearRound := by
  have hrem := GameState.removePlayer_of_known s p hknown
  have hfst : (s.removePlayer p).1 = true := by rw [hrem]
  unfold handlePlayerLeave
  simp only [GameState.hasPlayer, hknown, Bool.not_true, Bool.false_eq_true, if_false,
    GameState.isRoundActive, hactive, if_true, hfst]
  exact handlePlayerLeave_tail _ _ topicIndex wordIndex liarIndex rfl

theorem GameState.removePlayer_clearRound (s : GameState) (p : Nat)
    (hknown : (UMap.find s.players p).isSome = true) :
    (s.removePlayer p).2.clearRound =
      { players := (UMap.erase s.players p).map
          (fun pair => (pair.1, { pair.2 with role := PlayerRole.NONE })),
        roundActive := false, currentTopic := [], currentWord := [], currentLiarId := 0,
        votes := [] } := by
  rw [GameState.removePlayer_of_known s p hknown]
  rfl

/-- C25 as stated fails: in the active sample round of four players (topic Fruit, word
Apple, liar 2) with two votes recorded, processing PLAYER_LEAVE for player 4 with the draws
1, 2, 0 leaves three players, and the handler goes on to start a new round: afterwards
the round is active with the topic City, the word London and the liar 1, not an empty
topic, an empty word and liar id 0. -/
theorem handlePlayerLeave_starts_new_round :
    (sampleRoundOfFour [(1, 2), (4, 2)]).roundActive = true ∧
    (sampleRoundOfFour [(1, 2), (4, 2)]).hasPlayer 4 = true ∧
    (handlePlayerLeave (sampleRoundOfFour [(1, 2), (4, 2)]) 4 1 2 0).1.roundActive = true ∧
    (handlePlayerLeave (sampleRoundOfFour [(1, 2), (4, 2)]) 4 1 2 0).1.currentTopic =
      bytesOf "City" ∧
    (handlePlayerLeave (sampleRoundOfFour [(1, 2), (4, 2)]) 4 1 2 0).1.currentWord =
      bytesOf "London" ∧
    (handlePlayerLeave (sampleRoundOfFour [(1, 2), (4, 2)]) 4 1 2 0).1.currentLiarId = 1 ∧
    (handlePlayerLeave (sampleRoundOfFour [(1, 2), (4, 2)]) 4 1 2 0).1.currentTopic ≠ [] ∧
    (handlePlayerLeave (sampleRoundOfFour [(1, 2), (4, 2)]) 4 1 2 0).1.currentLiarId ≠ 0 := by
  decide

/-- C25 (amended): for every game state with an active round and every known player id
`p`, once the server has processed the PLAYER_LEAVE notification for `p`, the interrupted
round has been cleared, whatever votes had been recorded: no vote is recorded any more,
`p` is gone, and no score was awarded, every other player keeping its id, username and
score. When fewer than 3 or more than 6 players remain the state is idle: the topic and
the secret word are empty and the liar id is 0. When 3 to 6 players remain the handler
starts a new round at once, so the state is the one `GameState::startNewRound` builds
from the cleared state. -/
theorem handlePlayerLeave_clears_round (s : GameState) (p : Nat)
    (topicIndex wordIndex liarIndex : Nat)
    (hactive : s.roundActive = true)
    (hknown : (UMap.find s.players p).isSome = true) :
    (handlePlayerLeave s p topicIndex wordIndex liarIndex).1.votes = [] ∧
    UMap.find (handlePlayerLeave s p topicIndex wordIndex liarIndex).1.players p = none ∧
    (∀ id, id ≠ p →
      (UMap.find (handlePlayerLeave s p topicIndex wordIndex liarIndex).1.players id).map
          (fun q => (q.id, q.username, q.score)) =
        (UMap.find s.players id).map (fun q => (q.id, q.username, q.score))) ∧
    ((s.removePlayer p).2.getPlayerCount < 3 ∨ (s.removePlayer p).2.getPlayerCount > 6 →
      (handlePlayerLeave s p topicIndex wordIndex liarIndex).1 =
        (s.removePlayer p).2.clearRound ∧
      (handlePlayerLeave s p topicIndex wordIndex liarIndex).1.isRoundActive = false ∧
      (handlePlayerLeave s p topicIndex wordIndex liarIndex).1.getCurrentTopic = [] ∧
      (handlePlayerLeave s p topicIndex wordIndex liarIndex).1.getCurrentWord = [] ∧
      (handlePlayerLeave s p topicIndex wordIndex liarIndex).1.getCurrentLiarId = 0) ∧
    (3 ≤ (s.removePlayer p).2.getPlayerCount ∧ (s.removePlayer p).2.getPlayerCount ≤ 6 →
      (handlePlayerLeave s p topicIndex wordIndex liarIndex).1 =
        (s.removePlayer p).2.clearRound.startNewRound topicIndex wordIndex liarIndex ∧
      (handlePlayerLeave s p topicIndex wordIndex liarIndex).1.isRoundActive = true) := by
  have hstate := handlePlayerLeave_state s p topicIndex wordIndex liarIndex hactive hknown
  have hrest := GameState.removePlayer_clearRound s p hknown
  have hcount : (s.removePlayer p).2.clearRound.getPlayerCount =
      (s.removePlayer p).2.getPlayerCount := by
    simp [GameState.clearRound, GameState.getPlayerCount]
  have hfindrest : ∀ id, UMap.find (s.removePlayer p).2.clearRound.players id =
      if id = p then none
      else (UMap.find s.players id).map (fun q => { q with role := PlayerRole.NONE }) := by
    intro id
    rw [hrest]
    refine (UMap.find_map_snd (UMap.erase s.players p)
      (fun _ (q : PlayerState) => { q with role := PlayerRole.NONE }) id).trans ?_
    rw [UMap.find_erase]
    split <;> rfl
  rw [hcount] at hstate
  by_cases hc : 3 ≤ (s.removePlayer p).2.getPlayerCount ∧
      (s.removePlayer p).2.getPlayerCount ≤ 6
  · rw [if_pos hc] at hstate
    have hc2 : 3 ≤ (s.removePlayer p).2.clearRound.players.length ∧
        (s.removePlayer p).2.clearRound.players.length ≤ 6 := by
      simp only [GameState.getPlayerCount] at hcount hc
      omega
    have hstart := GameState.startNewRound_eq (s.removePlayer p).2.clearRound
      topicIndex wordIndex liarIndex hc2
    have hfind : ∀ id, UMap.find
        (handlePlayerLeave s p topicIndex wordIndex liarIndex).1.players id =
        (UMap.find (s.removePlayer p).2.clearRound.players id).map
          (fun q => { q with
            role := if id = (UMap.keys (s.removePlayer p).2.clearRound.players).getD
              liarIndex 0 then PlayerRole.LIAR else PlayerRole.GUESSER }) := by
      intro id
      rw [hstate, hstart]
      simp only
      exact UMap.find_map_snd (s.removePlayer p).2.clearRound.players
        (fun k (q : PlayerState) => { q with
          role := if k = (UMap.keys (s.removePlayer p).2.clearRound.players).getD
            liarIndex 0 then PlayerRole.LIAR else PlayerRole.GUESSER }) id
    refine ⟨by rw [hstate, hstart], ?_, ?_, ?_, ?_⟩
    · rw [hfind p, hfindrest p, if_pos rfl]; rfl
    · intro id hid
      rw [hfind id, hfindrest id, if_neg hid]
      cases UMap.find s.players id <;> rfl
    · intro h; omega
    · intro _
      exact ⟨hstate, by rw [hstate, hstart]; rfl⟩
  · rw [if_neg hc] at hstate
    refine ⟨by rw [hstate, hrest], ?_, ?_, ?_, ?_⟩
    · rw [hstate, hfindrest p, if_pos rfl]
    · intro id hid
      rw [hstate, hfindrest id, if_neg hid]
      cases UMap.find s.players id <;> rfl
    · intro _
      refine ⟨hstate, ?_, ?_, ?_, ?_⟩ <;> rw [hstate, hrest] <;> rfl
    · intro h; exact absurd h hc

/-- The disconnect of C25 (amended) on the sample round of three players with one vote
recorded: player 3 leaves, two players remain, and the state ends idle with no topic, no
word, no liar and no vote, the scores untouched. -/
theorem handlePlayerLeave_clears_round_witness :
    ((sampleRound [(1, 2)]).roundActive = true ∧
      (UMap.find (sampleRound [(1, 2)]).players 3).isSome = true) ∧
    (handlePlayerLeave (sampleRound [(1, 2)]) 3 0 0 0).1.votes = [] ∧
    (handlePlayerLeave (sampleRound [(1, 2)]) 3 0 0 0).1.isRoundActive = false ∧
    (handlePlayerLeave (sampleRound [(1, 2)]) 3 0 0 0).1.getCurrentTopic = [] ∧
    (handlePlayerLeave (sampleRound [(1, 2)]) 3 0 0 0).1.getCurrentLiarId = 0 ∧
    (GameState.getAllPlayerStates (handlePlayerLeave (sampleRound [(1, 2)]) 3 0 0 0).1).map
      (fun q => (q.id, q.score)) = [(1, 0), (2, 0)] :=
  ⟨⟨rfl, by decide⟩,
    (handlePlayerLeave_clears_round (sampleRound [(1, 2)]) 3 0 0 0 rfl (by decide)).1,
    by decide, by decide, by decide, by decide⟩

/-! ## Reachable states of the round state machine -/

theorem GameState.calculateAndApplyScores_roundActive (s : GameState) (liarCaught : Bool)
    (votedOutId : Nat) (hasMajority : Bool) (hactive : s.roundActive = true) :
    (s.calculateAndApplyScores liarCaught votedOutId hasMajority).roundActive = true := by
  unfold GameState.calculateAndApplyScores
  split
  · exact hactive
  · split
    · exact hactive
    · split
      · split
        · exact hactive
        · exact hactive
      · exact hactive

theorem GameState.calculateAndApplyScores_of_idle (s : GameState) (liarCaught : Bool)
    (votedOutId : Nat) (hasMajority : Bool) (hidle : s.roundActive = false) :
    s.calculateAndApplyScores liarCaught votedOutId hasMajority = s := by
  unfold GameState.calculateAndApplyScores
  rw [if_pos (by simp [hidle])]

theorem GameState.idleClean_of_reachable (s : GameState) (h : GameState.Reachable s) :
    s.idleClean := by
  induction h with
  | new =>
    intro _
    exact ⟨rfl, rfl, rfl, rfl, fun pair hp => by cases hp⟩
  | addPlayer s id username _ ih =>
    unfold GameState.addPlayer
    split
    · exact ih
    · intro hidle
      obtain ⟨h1, h2, h3, h4, h5⟩ := ih hidle
      refine ⟨h1, h2, h3, h4, ?_⟩
      intro pair hp
      rcases UMap.mem_assign s.players id _ pair hp with hm | hm
      · exact h5 pair hm
      · rw [hm]
  | removePlayer s id _ ih =>
    unfold GameState.removePlayer
    split
    · exact ih
    · intro hidle
      obtain ⟨h1, h2, h3, h4, h5⟩ := ih hidle
      refine ⟨h1, h2, ?_, ?_, ?_⟩
      · simp only [h3]
        split <;> rfl
      · simp only [h4, UMap.erase, List.filter_nil]
      · intro pair hp
        simp only [UMap.erase] at hp
        exact h5 pair (List.mem_of_mem_filter hp)
  | clearAllPlayers s _ _ =>
    intro _
    exact ⟨rfl, rfl, rfl, rfl, fun pair hp => by cases hp⟩
  | startNewRound s topicIndex wordIndex liarIndex _ ih =>
    by_cases hc : 3 ≤ s.players.length ∧ s.players.length ≤ 6
    · rw [GameState.startNewRound_eq s topicIndex wordIndex liarIndex hc]
      intro hidle
      cases hidle
    · unfold GameState.startNewRound
      rw [if_pos (by omega)]
      exact ih
  | clearRound s _ _ =>
    intro _
    refine ⟨rfl, rfl, rfl, rfl, ?_⟩
    intro pair hp
    simp only [GameState.clearRound, List.mem_map] at hp
    obtain ⟨q, _, rfl⟩ := hp
    rfl
  | submitVote s voterId targetId _ ih =>
    unfold GameState.submitVote
    split
    · exact ih
    · split
      · exact ih
      · split
        · exact ih
        · rename_i hactive _ _
          intro hidle
          simp only at hidle
          rw [hidle] at hactive
          simp at hactive
  | clearVotes s _ ih =>
    intro hidle
    obtain ⟨h1, h2, h3, _, h5⟩ := ih hidle
    exact ⟨h1, h2, h3, rfl, h5⟩
  | calculateAndApplyScores s liarCaught votedOutId hasMajority _ ih =>
    by_cases hactive : s.roundActive = true
    · intro hidle
      rw [GameState.calculateAndApplyScores_roundActive s liarCaught votedOutId hasMajority
        hactive] at hidle
      cases hidle
    · rw [GameState.calculateAndApplyScores_of_idle s liarCaught votedOutId hasMajority
        (by simpa using hactive)]
      exact ih

/-- C26: in every state reachable from a fresh GameState by any sequence of its public
operations (addPlayer, removePlayer, clearAllPlayers, startNewRound, clearRound,
submitVote, clearVotes, calculateAndApplyScores, each with any arguments and any random
draws), if no round is active then the topic and the secret word are empty, the liar id
is 0, the vote map is empty and every player's role is NONE. -/
theorem GameState.reachable_idle_is_clean (s : GameState) (h : GameState.Reachable s)
    (hidle : s.isRoundActive = false) :
    s.getCurrentTopic = [] ∧ s.getCurrentWord = [] ∧ s.getCurrentLiarId = 0 ∧
    s.votes = [] ∧ (∀ pair ∈ s.players, pair.2.role = PlayerRole.NONE) ∧
    (∀ p ∈ s.getAllPlayerStates, p.role = PlayerRole.NONE) := by
  obtain ⟨h1, h2, h3, h4, h5⟩ := GameState.idleClean_of_reachable s h hidle
  refine ⟨h1, h2, h3, h4, h5, ?_⟩
  intro p hp
  simp only [GameState.getAllPlayerStates, List.mem_map] at hp
  obtain ⟨pair, hpair, rfl⟩ := hp
  exact h5 pair hpair

/-- The invariant of C26 on the state reached by three joins, a round start with the
draws 0, 0, 1, a vote, the removal of the liar and a final `clearRound`: the state is
idle and every role is NONE. -/
theorem GameState.reachable_idle_is_clean_witness :
    GameState.isRoundActive
      ((((((GameState.new.addPlayer 1 (bytesOf "ann")).2.addPlayer 2 (bytesOf "bob")).2.addPlayer
        3 (bytesOf "cy")).2.startNewRound 0 0 1).submitVote 1 2).2.removePlayer 2).2.clearRound
      = false ∧
    ∀ p ∈ GameState.getAllPlayerStates
      ((((((GameState.new.addPlayer 1 (bytesOf "ann")).2.addPlayer 2 (bytesOf "bob")).2.addPlayer
        3 (bytesOf "cy")).2.startNewRound 0 0 1).submitVote 1 2).2.removePlayer 2).2.clearRound,
      p.role = PlayerRole.NONE :=
  ⟨rfl,
    (GameState.reachable_idle_is_clean _
      (GameState.Reachable.clearRound _
        (GameState.Reachable.removePlayer _ 2
          (GameState.Reachable.submitVote _ 1 2
            (GameState.Reachable.startNewRound _ 0 0 1
              (GameState.Reachable.addPlayer _ 3 (bytesOf "cy")
                (GameState.Reachable.addPlayer _ 2 (bytesOf "bob")
                  (GameState.Reachable.addPlayer _ 1 (bytesOf "ann")
                    GameState.Reachable.new)))))))
      rfl).2.2.2.2.2⟩

/-- C27: for every game state, id and username, `GameState::addPlayer` returns false and
leaves the state unchanged (the existing player keeps its username, role and score) when
the id is already present; otherwise it returns true and adds exactly one player, with
that id and username, role NONE and score 0, leaving every other player and all the round
data unchanged. -/
theorem GameState.addPlayer_spec (s : GameState) (id : Nat) (username : List Byte) :
    ((UMap.find s.players id).isSome = true → s.addPlayer id username = (false, s)) ∧
    (UMap.find s.players id = none →
      (s.addPlayer id username).1 = true ∧
      UMap.find (s.addPlayer id username).2.players id =
        some { id := id, username := username, role := PlayerRole.NONE, score := 0 } ∧
      (∀ other, other ≠ id →
        UMap.find (s.addPlayer id username).2.players other = UMap.find s.players other) ∧
      (s.addPlayer id username).2.players =
        s.players ++
          [(id, { id := id, username := username, role := PlayerRole.NONE, score := 0 })] ∧
      (s.addPlayer id username).2.getPlayerCount = s.getPlayerCount + 1 ∧
      (s.addPlayer id username).2 =
        { s with players := (s.addPlayer id username).2.players }) := by
  constructor
  · intro h
    unfold GameState.addPlayer
    rw [if_pos h]
  · intro h
    have hnot : id ∉ UMap.keys s.players := (UMap.find_eq_none_iff s.players id).mp h
    have hadd : s.addPlayer id username =
        (true, { s with
          players := s.players ++
            [(id, { id := id, username := username, role := PlayerRole.NONE,
                    score := 0 })] }) := by
      unfold GameState.addPlayer
      rw [if_neg (by rw [h]; simp), UMap.assign_of_not_mem s.players id _ hnot]
    have hfind : ∀ k, UMap.find (s.players ++
        [(id, ({ id := id, username := username, role := PlayerRole.NONE,
                 score := 0 } : PlayerState))]) k =
        if k = id then some { id := id, username := username, role := PlayerRole.NONE,
                              score := 0 }
        else UMap.find s.players k := by
      intro k
      rw [← UMap.assign_of_not_mem s.players id _ hnot, UMap.find_assign]
    rw [hadd]
    refine ⟨rfl, ?_, ?_, rfl, ?_, rfl⟩
    · simp only
      rw [hfind id, if_pos rfl]
    · intro other ho
      simp only
      rw [hfind other, if_neg ho]
    · simp [GameState.getPlayerCount]

/-- The two cases of C27 on the idle sample of three players: a join under the id 2 is
refused and changes nothing; a join under the id 4 adds one player with role NONE and
score 0. -/
theorem GameState.addPlayer_spec_witness :
    sampleIdle.addPlayer 2 (bytesOf "eve") = (false, sampleIdle) ∧
    (sampleIdle.addPlayer 4 (bytesOf "dee")).1 = true ∧
    UMap.find (sampleIdle.addPlayer 4 (bytesOf "dee")).2.players 4 =
      some { id := 4, username := bytesOf "dee", role := PlayerRole.NONE, score := 0 } ∧
    (sampleIdle.addPlayer 4 (bytesOf "dee")).2.getPlayerCount = 4 :=
  ⟨(GameState.addPlayer_spec sampleIdle 2 (bytesOf "eve")).1 (by decide),
    ((GameState.addPlayer_spec sampleIdle 4 (bytesOf "dee")).2 (by decide)).1,
    by decide, by decide⟩

/-! ## Role packets of a round start -/

theorem GameState.pickRandomTopicAndWord_topic (topicIndex wordIndex : Nat) :
    (GameState.pickRandomTopicAndWord topicIndex wordIndex).1 =
      (GameState.TOPIC_WORDS.getD topicIndex ([], [])).1 := by
  have hne : GameState.TOPIC_WORDS.isEmpty = false := rfl
  unfold GameState.pickRandomTopicAndWord
  simp only [hne, Bool.false_eq_true, if_false]
  split <;> rfl

theorem GameState.TOPIC_WORDS_topic_bounds :
    ∀ entry ∈ GameState.TOPIC_WORDS, entry.1 ≠ [] ∧ entry.1.length < 2 ^ 32 := by
  decide

/-- What `startNewRoundIfPossible` returns when it starts a round: the state built by
`startNewRound` and one role packet for every player of that state. -/
theorem startNewRoundIfPossible_started (s : GameState) (topicIndex wordIndex liarIndex : Nat)
    (hcan : s.canStartRound = true) (hidle : s.roundActive = false)
    (ht : topicIndex < GameState.TOPIC_WORDS.length)
    (hl : liarIndex < s.getPlayerCount)
    (h0 : 0 ∉ UMap.keys s.players) :
    startNewRoundIfPossible s topicIndex wordIndex liarIndex =
      (s.startNewRound topicIndex wordIndex liarIndex,
       (s.startNewRound topicIndex wordIndex liarIndex).getAllPlayerStates.flatMap
        (fun player =>
          if player.role = PlayerRole.LIAR then
            [(player.id, createRoleAssignmentPacket
              { playerId := player.id, role := PlayerRole.LIAR,
                topic := (GameState.TOPIC_WORDS.getD topicIndex ([], [])).1,
                secretWord := [] })]
          else if player.role = PlayerRole.GUESSER then
            [(player.id, createRoleAssignmentPacket
              { playerId := player.id, role := PlayerRole.GUESSER,
                topic := (GameState.TOPIC_WORDS.getD topicIndex ([], [])).1,
                secretWord := (s.startNewRound topicIndex wordIndex liarIndex).currentWord })]
          else [])) := by
  have hcount : 3 ≤ s.players.length ∧ s.players.length ≤ 6 := by
    simpa [GameState.canStartRound] using hcan
  have hstart := GameState.startNewRound_eq s topicIndex wordIndex liarIndex hcount
  have htopic : (s.startNewRound topicIndex wordIndex liarIndex).getCurrentTopic =
      (GameState.TOPIC_WORDS.getD topicIndex ([], [])).1 := by
    rw [hstart]
    exact GameState.pickRandomTopicAndWord_topic topicIndex wordIndex
  have hliar : (s.startNewRound topicIndex wordIndex liarIndex).getCurrentLiarId ≠ 0 := by
    rw [hstart]
    simp only [GameState.getCurrentLiarId]
    have hmem : (UMap.keys s.players).getD liarIndex 0 ∈ UMap.keys s.players := by
      rw [List.getD_eq_getElem _ _ (by simpa [UMap.keys, GameState.getPlayerCount] using hl)]
      exact List.getElem_mem _
    intro h
    rw [h] at hmem
    exact h0 hmem
  have hne : (GameState.TOPIC_WORDS.getD topicIndex ([], [])).1.isEmpty = false := by
    have hmem : GameState.TOPIC_WORDS.getD topicIndex ([], []) ∈ GameState.TOPIC_WORDS := by
      rw [List.getD_eq_getElem _ _ ht]
      exact List.getElem_mem _
    have := (GameState.TOPIC_WORDS_topic_bounds _ hmem).1
    cases h : (GameState.TOPIC_WORDS.getD topicIndex ([], [])).1 with
    | nil => exact absurd h this
    | cons a l => rfl
  unfold startNewRoundIfPossible
  simp only [hcan, GameState.isRoundActive, hidle, Bool.not_true, Bool.false_eq_true,
    if_false, htopic, hne, or_false]
  rw [if_neg hliar]
  rfl

theorem roleAssignment_liar_roundtrip (id : Nat) (topic : List Byte)
    (hid : id < 2 ^ 32) (ht : topic.length < 2 ^ 32) :
    deserializeRoleAssignment (createRoleAssignmentPacket
      { playerId := id, role := PlayerRole.LIAR, topic := topic, secretWord := [] }).getData =
      { playerId := id, role := PlayerRole.LIAR, topic := topic, secretWord := [] } := by
  have hdata : (createRoleAssignmentPacket
      { playerId := id, role := PlayerRole.LIAR, topic := topic, secretWord := [] }).getData =
      serializeRoleAssignment
        { playerId := id, role := PlayerRole.LIAR, topic := topic, secretWord := [] } := rfl
  rw [hdata, serializeRoleAssignment_eq
    { playerId := id, role := PlayerRole.LIAR, topic := topic, secretWord := [] } ht
    (Nat.two_pow_pos 32)]
  have h := deserializeRoleAssignment_layout id (toU32 PlayerRole.LIAR.val) topic [] hid
    (toU32_lt _) ht (by decide)
  rw [toI32_toU32 _ (by decide) (by decide)] at h
  exact h

theorem GameState.startNewRound_players_word_free (s : GameState)
    (topicIndex wordIndex wordIndex2 liarIndex : Nat) :
    (s.startNewRound topicIndex wordIndex liarIndex).players =
      (s.startNewRound topicIndex wordIndex2 liarIndex).players := by
  by_cases hc : 3 ≤ s.players.length ∧ s.players.length ≤ 6
  · rw [GameState.startNewRound_eq s topicIndex wordIndex liarIndex hc,
      GameState.startNewRound_eq s topicIndex wordIndex2 liarIndex hc]
  · unfold GameState.startNewRound
    rw [if_pos (by omega), if_pos (by omega)]

/-- C28: when the server starts a round (`startNewRoundIfPossible` on an idle state of 3
to 6 players with non-zero ids), every role packet it sends goes to a player of the new
round and is built for that player's role: for the LIAR from the topic and an empty
secret word, for a GUESSER from the topic and the secret word. Every LIAR is sent its
packet, and the very same packet is sent for every other draw of the secret word; it
decodes to the topic and an empty word. Every GUESSER is sent the packet that carries
both the topic and the word. -/
theorem startNewRoundIfPossible_role_packets (s : GameState)
    (topicIndex wordIndex liarIndex : Nat)
    (hcan : s.canStartRound = true) (hidle : s.roundActive = false)
    (ht : topicIndex < GameState.TOPIC_WORDS.length)
    (hl : liarIndex < s.getPlayerCount)
    (h0 : 0 ∉ UMap.keys s.players) :
    (∀ m ∈ (startNewRoundIfPossible s topicIndex wordIndex liarIndex).2,
      ∃ player ∈ (startNewRoundIfPossible s topicIndex wordIndex liarIndex).1.getAllPlayerStates,
        m.1 = player.id ∧
        ((player.role = PlayerRole.LIAR ∧
          m.2 = createRoleAssignmentPacket
            { playerId := player.id, role := PlayerRole.LIAR,
              topic := (startNewRoundIfPossible s topicIndex wordIndex
                liarIndex).1.getCurrentTopic,
              secretWord := [] }) ∨
         (player.role = PlayerRole.GUESSER ∧
          m.2 = createRoleAssignmentPacket
            { playerId := player.id, role := PlayerRole.GUESSER,
              topic := (startNewRoundIfPossible s topicIndex wordIndex
                liarIndex).1.getCurrentTopic,
              secretWord := (startNewRoundIfPossible s topicIndex wordIndex
                liarIndex).1.getCurrentWord }))) ∧
    (∀ player ∈ (startNewRoundIfPossible s topicIndex wordIndex liarIndex).1.getAllPlayerStates,
      (player.role = PlayerRole.LIAR →
        (∀ wordIndex2,
          (player.id, createRoleAssignmentPacket
            { playerId := player.id, role := PlayerRole.LIAR,
              topic := (startNewRoundIfPossible s topicIndex wordIndex
                liarIndex).1.getCurrentTopic,
              secretWord := [] }) ∈
            (startNewRoundIfPossible s topicIndex wordIndex2 liarIndex).2) ∧
        (player.id < 2 ^ 32 →
          deserializeRoleAssignment (createRoleAssignmentPacket
            { playerId := player.id, role := PlayerRole.LIAR,
              topic := (startNewRoundIfPossible s topicIndex wordIndex
                liarIndex).1.getCurrentTopic,
              secretWord := [] }).getData =
            { playerId := player.id, role := PlayerRole.LIAR,
              topic := (startNewRoundIfPossible s topicIndex wordIndex
                liarIndex).1.getCurrentTopic,
              secretWord := [] })) ∧
      (player.role = PlayerRole.GUESSER →
        (player.id, createRoleAssignmentPacket
          { playerId := player.id, role := PlayerRole.GUESSER,
            topic := (startNewRoundIfPossible s topicIndex wordIndex
              liarIndex).1.getCurrentTopic,
            secretWord := (startNewRoundIfPossible s topicIndex wordIndex
              liarIndex).1.getCurrentWord }) ∈
          (startNewRoundIfPossible s topicIndex wordIndex liarIndex).2)) := by
  have hstarted := fun w =>
    startNewRoundIfPossible_started s topicIndex w liarIndex hcan hidle ht hl h0
  have hcount : 3 ≤ s.players.length ∧ s.players.length ≤ 6 := by
    simpa [GameState.canStartRound] using hcan
  have htopic : (s.startNewRound topicIndex wordIndex liarIndex).getCurrentTopic =
      (GameState.TOPIC_WORDS.getD topicIndex ([], [])).1 := by
    rw [GameState.startNewRound_eq s topicIndex wordIndex liarIndex hcount]
    exact GameState.pickRandomTopicAndWord_topic topicIndex wordIndex
  have hbound : (GameState.TOPIC_WORDS.getD topicIndex ([], [])).1.length < 2 ^ 32 := by
    have hmem : GameState.TOPIC_WORDS.getD topicIndex ([], []) ∈ GameState.TOPIC_WORDS := by
      rw [List.getD_eq_getElem _ _ ht]
      exact List.getElem_mem _
    exact (GameState.TOPIC_WORDS_topic_bounds _ hmem).2
  rw [hstarted wordIndex]
  simp only [htopic]
  constructor
  · intro m hm
    simp only [List.mem_flatMap] at hm
    obtain ⟨player, hp, hmp⟩ := hm
    refine ⟨player, hp, ?_⟩
    by_cases hr : player.role = PlayerRole.LIAR
    · rw [if_pos hr, List.mem_singleton] at hmp
      rw [hmp]
      exact ⟨rfl, Or.inl ⟨hr, rfl⟩⟩
    · rw [if_neg hr] at hmp
      by_cases hg : player.role = PlayerRole.GUESSER
      · rw [if_pos hg, List.mem_singleton] at hmp
        rw [hmp]
        exact ⟨rfl, Or.inr ⟨hg, rfl⟩⟩
      · rw [if_neg hg] at hmp
        cases hmp
  · intro player hp
    constructor
    · intro hr
      constructor
      · intro wordIndex2
        rw [hstarted wordIndex2]
        simp only [List.mem_flatMap]
        refine ⟨player, ?_, ?_⟩
        · simp only [GameState.getAllPlayerStates] at hp ⊢
          rw [GameState.startNewRound_players_word_free s topicIndex wordIndex2 wordIndex
            liarIndex]
          exact hp
        · rw [if_pos hr]
          exact List.mem_singleton.mpr rfl
      · intro hid
        have hrt := roleAssignment_liar_roundtrip player.id
          (GameState.TOPIC_WORDS.getD topicIndex ([], [])).1 hid hbound
        exact hrt
    · intro hg
      simp only [List.mem_flatMap]
      refine ⟨player, hp, ?_⟩
      have hr : ¬ player.role = PlayerRole.LIAR := by
        rw [hg]; decide
      rw [if_neg hr, if_pos hg]
      exact List.mem_singleton.mpr rfl

/-- The round start of C28 on the idle sample of three players with the draws 0, 0, 1
(topic Fruit, word Apple, liar 2): the liar is sent `id 2, role 1, topic Fruit` and an
empty word, the same bytes as with the draw of the word Mango; guesser 1 is sent the
topic and the word Apple. -/
theorem startNewRoundIfPossible_role_packets_witness :
    (startNewRoundIfPossible sampleIdle 0 0 1).2 =
      [(1, createRoleAssignmentPacket
          { playerId := 1, role := PlayerRole.GUESSER, topic := bytesOf "Fruit",
            secretWord := bytesOf "Apple" }),
       (2, createRoleAssignmentPacket
          { playerId := 2, role := PlayerRole.LIAR, topic := bytesOf "Fruit",
            secretWord := [] }),
       (3, createRoleAssignmentPacket
          { playerId := 3, role := PlayerRole.GUESSER, topic := bytesOf "Fruit",
            secretWord := bytesOf "Apple" })] ∧
    (2, createRoleAssignmentPacket
      { playerId := 2, role := PlayerRole.LIAR, topic := bytesOf "Fruit",
        secretWord := [] }) ∈ (startNewRoundIfPossible sampleIdle 0 7 1).2 :=
  ⟨by decide,
    (((startNewRoundIfPossible_role_packets sampleIdle 0 0 1 (by decide) rfl (by decide)
      (by decide) (by decide)).2
      { id := 2, username := bytesOf "bob", role := PlayerRole.LIAR, score := 0 }
      (by decide)).1 rfl).1 7⟩

/-! ## Connection registry -/

theorem UMap.find_filter {V : Type} (m : UMap V) (hn : (UMap.keys m).Nodup)
    (p : V → Bool) (k : Nat) :
    UMap.find (m.filter (fun entry => p entry.2)) k = (UMap.find m k).filter p := by
  induction m with
  | nil => rfl
  | cons e rest ih =>
    obtain ⟨k', v⟩ := e
    simp only [UMap.keys, List.map_cons, List.nodup_cons] at hn
    have ih2 := ih hn.2
    by_cases hp : p v = true
    · rw [List.filter_cons_of_pos (by simpa using hp)]
      by_cases hk : k' = k
      · simp [UMap.find, hk, Option.filter, hp]
      · simp [UMap.find, hk, ih2]
    · rw [List.filter_cons_of_neg (by simpa using hp), ih2]
      by_cases hk : k' = k
      · have hnone : UMap.find rest k = none := by
          rw [UMap.find_eq_none_iff]
          rw [← hk]
          exact hn.1
        simp [UMap.find, hk, hnone, Option.filter, hp]
      · simp [UMap.find, hk]

theorem ConnectionManager.getActiveConnections_eq (m : ConnectionManager) :
    m.getActiveConnections =
      (m.connections.filter
        (fun entry => decide (entry.2.status = ConnectionStatus.ACTIVE))).map Prod.fst := by
  have h : ∀ (l : UMap ConnectionInfo) (ids : List Nat),
      l.foldl (fun ids entry =>
        if entry.2.status = ConnectionStatus.ACTIVE then ids ++ [entry.1] else ids) ids =
      ids ++ (l.filter
        (fun entry => decide (entry.2.status = ConnectionStatus.ACTIVE))).map Prod.fst := by
    intro l
    induction l with
    | nil => intro ids; simp
    | cons e rest ih =>
      intro ids
      rw [List.foldl_cons, ih]
      by_cases hs : e.2.status = ConnectionStatus.ACTIVE
      · simp [hs, List.filter_cons]
      · simp [hs, List.filter_cons]
  unfold ConnectionManager.getActiveConnections
  rw [h]
  rfl

theorem ConnectionManager.getActiveConnectionCount_eq (m : ConnectionManager) :
    m.getActiveConnectionCount =
      (m.connections.filter
        (fun entry => decide (entry.2.status = ConnectionStatus.ACTIVE))).length := by
  have h : ∀ (l : UMap ConnectionInfo) (count : Nat),
      l.foldl (fun count entry =>
        if entry.2.status = ConnectionStatus.ACTIVE then count + 1 else count) count =
      count + (l.filter
        (fun entry => decide (entry.2.status = ConnectionStatus.ACTIVE))).length := by
    intro l
    induction l with
    | nil => intro count; simp
    | cons e rest ih =>
      intro count
      rw [List.foldl_cons, ih]
      by_cases hs : e.2.status = ConnectionStatus.ACTIVE
      · simp [hs, List.filter_cons]; omega
      · simp [hs, List.filter_cons]
  unfold ConnectionManager.getActiveConnectionCount
  rw [h]
  omega

theorem ConnectionManager.cleanupLoop_eq (l : UMap ConnectionInfo) :
    ConnectionManager.cleanupLoop l =
      l.filter (fun entry => !decide (entry.2.status = ConnectionStatus.DISCONNECTING)) := by
  induction l with
  | nil => rfl
  | cons e rest ih =>
    by_cases hs : e.2.status = ConnectionStatus.DISCONNECTING
    · simp [ConnectionManager.cleanupLoop, hs, ih, List.filter_cons]
    · simp [ConnectionManager.cleanupLoop, hs, ih, List.filter_cons]

/-- C29: for every registry state and id, `ConnectionManager::addConnection` returns
false and leaves the registry unchanged (the existing entry keeps its socket, status and
username) when the id is already registered; otherwise it returns true and registers the
id with the given socket and address, status CONNECTING and an empty username, leaving
every other entry unchanged. -/
theorem ConnectionManager.addConnection_spec (m : ConnectionManager)
    (id socket address now : Nat) :
    ((UMap.find m.connections id).isSome = true →
      m.addConnection id socket address now = (false, m)) ∧
    (UMap.find m.connections id = none →
      (m.addConnection id socket address now).1 = true ∧
      (m.addConnection id socket address now).2.getConnection id =
        some { id := id, socket := socket, address := address, username := [],
               status := ConnectionStatus.CONNECTING, lastHeartbeat := now,
               connectedAt := now } ∧
      (∀ other, other ≠ id →
        (m.addConnection id socket address now).2.getConnection other =
          m.getConnection other) ∧
      (m.addConnection id socket address now).2.connections =
        m.connections ++ [(id, ConnectionInfo.new id socket address now)]) := by
  constructor
  · intro h
    unfold ConnectionManager.addConnection
    rw [if_pos h]
  · intro h
    have hnot : id ∉ UMap.keys m.connections := (UMap.find_eq_none_iff m.connections id).mp h
    have hadd : m.addConnection id socket address now =
        (true, { m with
          connections := UMap.assign m.connections id
            (ConnectionInfo.new id socket address now) }) := by
      unfold ConnectionManager.addConnection
      rw [if_neg (by rw [h]; simp)]
    rw [hadd]
    refine ⟨rfl, ?_, ?_, ?_⟩
    · simp only [ConnectionManager.getConnection]
      rw [UMap.find_assign, if_pos rfl]
      rfl
    · intro other ho
      simp only [ConnectionManager.getConnection]
      rw [UMap.find_assign, if_neg ho]
    · exact UMap.assign_of_not_mem m.connections id _ hnot

/-- The two cases of C29 on the sample registry: a second registration of the id 3 is
refused and changes nothing; the id 5 is registered with status CONNECTING and an empty
username. -/
theorem ConnectionManager.addConnection_spec_witness :
    sampleRegistry.addConnection 3 999 8 9 = (false, sampleRegistry) ∧
    (sampleRegistry.addConnection 5 105 8 9).1 = true ∧
    (sampleRegistry.addConnection 5 105 8 9).2.getConnection 5 =
      some { id := 5, socket := 105, address := 8, username := [],
             status := ConnectionStatus.CONNECTING, lastHeartbeat := 9, connectedAt := 9 } :=
  ⟨(ConnectionManager.addConnection_spec sampleRegistry 3 999 8 9).1 (by decide),
    ((ConnectionManager.addConnection_spec sampleRegistry 5 105 8 9).2 (by decide)).1,
    by decide⟩

/-- C30: for every registry state (a map: the ids of its entries are distinct),
`getActiveConnections` returns each id whose status is ACTIVE exactly once and no other
id, `getActiveConnectionCount` equals the length of that list, and
`cleanupInactiveConnections` removes exactly the entries whose status is DISCONNECTING,
leaving every other entry unchanged and in place. -/
theorem ConnectionManager.active_and_cleanup_spec (m : ConnectionManager)
    (hn : (UMap.keys m.connections).Nodup) :
    (∀ id, id ∈ m.getActiveConnections ↔
      ∃ info, m.getConnection id = some info ∧ info.status = ConnectionStatus.ACTIVE) ∧
    m.getActiveConnections.Nodup ∧
    m.getActiveConnectionCount = m.getActiveConnections.length ∧
    (∀ id info, m.getConnection id = some info →
      (info.status = ConnectionStatus.DISCONNECTING →
        m.cleanupInactiveConnections.getConnection id = none) ∧
      (info.status ≠ ConnectionStatus.DISCONNECTING →
        m.cleanupInactiveConnections.getConnection id = some info)) ∧
    (∀ id, m.getConnection id = none →
      m.cleanupInactiveConnections.getConnection id = none) ∧
    m.cleanupInactiveConnections.connections =
      m.connections.filter
        (fun entry => decide (entry.2.status ≠ ConnectionStatus.DISCONNECTING)) := by
  have hact := ConnectionManager.getActiveConnections_eq m
  have hcnt := ConnectionManager.getActiveConnectionCount_eq m
  have hclean : m.cleanupInactiveConnections.connections =
      m.connections.filter
        (fun entry => !decide (entry.2.status = ConnectionStatus.DISCONNECTING)) := by
    simp only [ConnectionManager.cleanupInactiveConnections]
    exact ConnectionManager.cleanupLoop_eq m.connections
  have hfind : ∀ id, m.cleanupInactiveConnections.getConnection id =
      (UMap.find m.connections id).filter
        (fun info => !decide (info.status = ConnectionStatus.DISCONNECTING)) := by
    intro id
    simp only [ConnectionManager.getConnection, hclean]
    exact UMap.find_filter m.connections hn
      (fun info => !decide (info.status = ConnectionStatus.DISCONNECTING)) id
  refine ⟨?_, ?_, ?_, ?_, ?_, ?_⟩
  · intro id
    rw [hact]
    simp only [List.mem_map, List.mem_filter, decide_eq_true_eq,
      ConnectionManager.getConnection]
    constructor
    · rintro ⟨entry, ⟨hmem, hs⟩, rfl⟩
      exact ⟨entry.2, (UMap.find_eq_some_iff m.connections hn entry.1 entry.2).mpr hmem, hs⟩
    · rintro ⟨info, hf, hs⟩
      exact ⟨(id, info), ⟨(UMap.find_eq_some_iff m.connections hn id info).mp hf, hs⟩, rfl⟩
  · rw [hact]
    have hsub : ((m.connections.filter
        (fun entry => decide (entry.2.status = ConnectionStatus.ACTIVE))).map Prod.fst).Sublist
        (UMap.keys m.connections) :=
      (List.filter_sublist m.connections).map Prod.fst
    exact hsub.nodup hn
  · rw [hcnt, hact, List.length_map]
  · intro id info hinfo
    simp only [ConnectionManager.getConnection] at hinfo
    constructor
    · intro hs
      rw [hfind id, hinfo]
      simp [Option.filter, hs]
    · intro hs
      rw [hfind id, hinfo]
      simp [Option.filter, hs]
  · intro id hnone
    simp only [ConnectionManager.getConnection] at hnone
    rw [hfind id, hnone]
    rfl
  · rw [hclean]
    apply List.filter_congr
    intro x _
    simp

/-- The listing and the cleanup of C30 on the sample registry (1 ACTIVE, 2 DISCONNECTING,
3 ACTIVE, 4 CONNECTING): the active ids are 1 and 3, their count is 2, and the cleanup
removes the entry 2 only. -/
theorem ConnectionManager.active_and_cleanup_spec_witness :
    sampleRegistry.getActiveConnections = [1, 3] ∧
    sampleRegistry.getActiveConnectionCount = 2 ∧
    UMap.keys sampleRegistry.cleanupInactiveConnections.connections = [1, 3, 4] ∧
    sampleRegistry.getActiveConnectionCount = sampleRegistry.getActiveConnections.length :=
  ⟨by decide, by decide, by decide,
    (ConnectionManager.active_and_cleanup_spec sampleRegistry (by decide)).2.2.1⟩

/-! ## Malformed headers in the receive loop -/

/-- A buffer of at least 6 bytes whose declared length is below 6 counts as complete and
decodes to the header's type with an empty payload and total size 6; the receive loop
dispatches it exactly when that type is non-zero, and goes on 6 bytes further. -/
theorem Packet.malformed_header_frame (b : List Byte) (h6 : 6 ≤ b.length)
    (hlen : readU32 b < 6) (fuel : Nat) :
    Packet.isCompletePacket b = true ∧
    Packet.deserialize b = { length := readU32 b, type := readU16 (b.drop 4), data := [] } ∧
    (Packet.deserialize b).getTotalSize = 6 ∧
    framesOf (fuel + 1) b =
      (if readU16 (b.drop 4) ≠ 0 then
          { length := readU32 b, type := readU16 (b.drop 4), data := [] } ::
            (framesOf fuel (b.drop 6)).1
        else (framesOf fuel (b.drop 6)).1,
       (framesOf fuel (b.drop 6)).2) := by
  have hc : Packet.isCompletePacket b = true :=
    (Packet.isCompletePacket_iff b).mpr ⟨h6, by omega⟩
  have hd := (Packet.deserialize_failure b).2 h6 (Or.inl hlen)
  have ht : (Packet.deserialize b).getTotalSize = 6 := by
    rw [hd]; rfl
  refine ⟨hc, hd, ht, ?_⟩
  rw [framesOf]
  simp only [hc, ht, Bool.not_true, Bool.false_eq_true, if_false]
  rw [if_pos (by omega), hd]
  rfl

/-- C36 (the code departs from it): on the 6-byte buffer `0 0 0 0 0 5`, whose declared
length 0 is below 6, `isCompletePacket` is true and `Packet::deserialize` returns an empty
payload with total size 6, so the receive loop consumes exactly 6 bytes; but the packet
keeps the type 5 of the malformed header, so the loop enqueues and dispatches it instead
of treating it as non-actionable. -/
theorem receiveChunk_dispatches_malformed :
    Packet.isCompletePacket [0, 0, 0, 0, 0, 5] = true ∧
    (Packet.deserialize [0, 0, 0, 0, 0, 5]).getData = [] ∧
    (Packet.deserialize [0, 0, 0, 0, 0, 5]).getTotalSize = 6 ∧
    (extractFrames [0, 0, 0, 0, 0, 5, 9] 7 0).2 = 6 ∧
    receiveChunk [] [0, 0, 0, 0, 0, 5] = ([{ length := 0, type := 5, data := [] }], []) ∧
    (receiveChunk [] [0, 0, 0, 0, 0, 5]).1 ≠ [] := by
  decide

/-! ## Removal of a player -/

/-- C39: `GameState::removePlayer` on its own does not end the round: for every state
with an active round and every known id `p`, `removePlayer(p)` returns true, removes
player `p`, `p`'s own vote and every vote whose target is `p`, sets the liar id to 0 if
`p` was the liar, and leaves the active flag true and the topic, the secret word, the
other players (roles and scores included) and the remaining votes unchanged; for an
unknown id it returns false and changes nothing. -/
theorem GameState.removePlayer_spec (s : GameState) (p : Nat) :
    (UMap.find s.players p = none → s.removePlayer p = (false, s)) ∧
    ((UMap.find s.players p).isSome = true →
      (s.removePlayer p).1 = true ∧
      (s.removePlayer p).2.roundActive = s.roundActive ∧
      (s.removePlayer p).2.currentTopic = s.currentTopic ∧
      (s.removePlayer p).2.currentWord = s.currentWord ∧
      (s.removePlayer p).2.currentLiarId = (if s.currentLiarId = p then 0 else s.currentLiarId) ∧
      UMap.find (s.removePlayer p).2.players p = none ∧
      (∀ other, other ≠ p →
        UMap.find (s.removePlayer p).2.players other = UMap.find s.players other) ∧
      (s.removePlayer p).2.players = s.players.filter (fun pair => decide (pair.1 ≠ p)) ∧
      (∀ vote, vote ∈ (s.removePlayer p).2.votes ↔
        vote ∈ s.votes ∧ vote.1 ≠ p ∧ vote.2 ≠ p) ∧
      (s.removePlayer p).2.votes =
        s.votes.filter (fun vote => decide (vote.1 ≠ p) && decide (vote.2 ≠ p))) := by
  constructor
  · intro h
    unfold GameState.removePlayer
    rw [if_pos (by rw [h]; rfl)]
  · intro h
    rw [GameState.removePlayer_of_known s p h]
    refine ⟨rfl, rfl, rfl, rfl, rfl, ?_, ?_, rfl, ?_, ?_⟩
    · simp only
      rw [UMap.find_erase, if_pos rfl]
    · intro other ho
      simp only
      rw [UMap.find_erase, if_neg ho]
    · intro vote
      simp only [UMap.erase, List.mem_filter, decide_eq_true_eq]
      tauto
    · simp only [UMap.erase, List.filter_filter]
      apply List.filter_congr
      intro x _
      rw [Bool.and_comm]

/-- The removal of C39 in the sample round with the votes 1 for 2, 3 for 2, 2 for 1: the
liar 2 is removed, its vote and the two votes for it go, the liar id becomes 0, and the
round stays active with its topic and word; an unknown id changes nothing. -/
theorem GameState.removePlayer_spec_witness :
    (sampleRound [(1, 2), (3, 2), (2, 1)]).removePlayer 9 =
      (false, sampleRound [(1, 2), (3, 2), (2, 1)]) ∧
    ((sampleRound [(1, 2), (3, 2), (2, 1)]).removePlayer 2).1 = true ∧
    ((sampleRound [(1, 2), (3, 2), (2, 1)]).removePlayer 2).2.votes = [] ∧
    ((sampleRound [(1, 3), (3, 1), (2, 1)]).removePlayer 2).2.votes = [(1, 3), (3, 1)] ∧
    ((sampleRound [(1, 2), (3, 2), (2, 1)]).removePlayer 2).2.currentLiarId = 0 ∧
    ((sampleRound [(1, 2), (3, 2), (2, 1)]).removePlayer 2).2.roundActive = true ∧
    ((sampleRound [(1, 2), (3, 2), (2, 1)]).removePlayer 2).2.currentTopic = bytesOf "Fruit" :=
  ⟨(GameState.removePlayer_spec (sampleRound [(1, 2), (3, 2), (2, 1)]) 9).1 (by decide),
    ((GameState.removePlayer_spec (sampleRound [(1, 2), (3, 2), (2, 1)]) 2).2 (by decide)).1,
    by decide, by decide, by decide, by decide, by decide⟩

/-! ## Votes of reachable states -/

theorem UMap.mem_keys_iff_find {V : Type} (m : UMap V) (k : Nat) :
    k ∈ UMap.keys m ↔ (UMap.find m k).isSome = true := by
  have h := UMap.find_eq_none_iff m k
  cases hf : UMap.find m k with
  | none =>
    rw [hf] at h
    simp only [true_iff] at h
    simp [h]
  | some v =>
    rw [hf] at h
    simp only [reduceCtorEq, false_iff, not_not] at h
    simp [h]

theorem UMap.keys_assign {V : Type} (m : UMap V) (k : Nat) (v : V) :
    UMap.keys (UMap.assign m k v) =
      if k ∈ UMap.keys m then UMap.keys m else UMap.keys m ++ [k] := by
  by_cases h : k ∈ UMap.keys m
  · rw [if_pos h]
    have hs := (UMap.mem_keys_iff_find m k).mp h
    cases hf : UMap.find m k with
    | none => rw [hf] at hs; cases hs
    | some w => exact UMap.keys_assign_of_find m k v w hf
  · rw [if_neg h, UMap.assign_of_not_mem m k v h]
    simp [UMap.keys]

theorem UMap.keys_assign_nodup {V : Type} (m : UMap V) (k : Nat) (v : V)
    (hn : (UMap.keys m).Nodup) : (UMap.keys (UMap.assign m k v)).Nodup := by
  rw [UMap.keys_assign]
  split
  · exact hn
  · rename_i h
    rw [List.nodup_append]
    refine ⟨hn, List.nodup_singleton k, ?_⟩
    intro a ha hb
    rw [List.mem_singleton] at hb
    exact h (hb ▸ ha)

theorem UMap.mem_keys_assign {V : Type} (m : UMap V) (k : Nat) (v : V) (k2 : Nat) :
    k2 ∈ UMap.keys (UMap.assign m k v) ↔ k2 ∈ UMap.keys m ∨ k2 = k := by
  rw [UMap.keys_assign]
  split
  · rename_i h
    constructor
    · intro h2; exact Or.inl h2
    · intro h2
      rcases h2 with h2 | h2
      · exact h2
      · rw [h2]; exact h
  · simp

theorem UMap.keys_erase {V : Type} (m : UMap V) (k : Nat) :
    UMap.keys (UMap.erase m k) = (UMap.keys m).filter (fun x => decide (x ≠ k)) := by
  simp only [UMap.keys, UMap.erase, List.filter_map]
  rfl

theorem GameState.calculateAndApplyScores_keys (s : GameState) (liarCaught : Bool)
    (votedOutId : Nat) (hasMajority : Bool) :
    UMap.keys (s.calculateAndApplyScores liarCaught votedOutId hasMajority).players =
      UMap.keys s.players ∧
    (s.calculateAndApplyScores liarCaught votedOutId hasMajority).votes = s.votes := by
  unfold GameState.calculateAndApplyScores
  split
  · exact ⟨rfl, rfl⟩
  · split
    · refine ⟨?_, rfl⟩
      simp only [UMap.keys, List.map_map]
      apply List.map_congr_left
      intro pair _
      simp only [Function.comp_apply]
      split
      · split <;> rfl
      · rfl
    · split
      · split
        · rename_i liar hfind
          exact ⟨UMap.keys_assign_of_find s.players s.currentLiarId _ liar hfind, rfl⟩
        · exact ⟨rfl, rfl⟩
      · exact ⟨rfl, rfl⟩

theorem GameState.votesKnown_of_reachable (s : GameState) (h : GameState.Reachable s) :
    s.votesKnown := by
  induction h with
  | new =>
    exact ⟨List.nodup_nil, List.nodup_nil, fun vote hv => by cases hv⟩
  | addPlayer s id username _ ih =>
    obtain ⟨h1, h2, h3⟩ := ih
    unfold GameState.addPlayer
    split
    · exact ⟨h1, h2, h3⟩
    · refine ⟨UMap.keys_assign_nodup s.players id _ h1, h2, ?_⟩
      intro vote hv
      simp only [UMap.mem_keys_assign]
      exact ⟨Or.inl (h3 vote hv).1, Or.inl (h3 vote hv).2⟩
  | removePlayer s id _ ih =>
    obtain ⟨h1, h2, h3⟩ := ih
    unfold GameState.removePlayer
    split
    · exact ⟨h1, h2, h3⟩
    · refine ⟨?_, ?_, ?_⟩
      · simp only [UMap.keys_erase]
        exact h1.filter _
      · simp only
        have hsub : (UMap.keys ((UMap.erase s.votes id).filter
            (fun vote => decide (vote.2 ≠ id)))).Sublist (UMap.keys s.votes) := by
          simp only [UMap.keys, UMap.erase]
          exact ((List.filter_sublist _).trans (List.filter_sublist _)).map Prod.fst
        exact hsub.nodup h2
      · intro vote hv
        simp only [UMap.erase, List.mem_filter, decide_eq_true_eq] at hv
        obtain ⟨⟨hmem, hv1⟩, hv2⟩ := hv
        simp only [UMap.keys_erase, List.mem_filter, decide_eq_true_eq]
        exact ⟨⟨(h3 vote hmem).1, hv1⟩, ⟨(h3 vote hmem).2, hv2⟩⟩
  | clearAllPlayers s _ _ =>
    exact ⟨List.nodup_nil, List.nodup_nil, fun vote hv => by cases hv⟩
  | startNewRound s topicIndex wordIndex liarIndex _ ih =>
    obtain ⟨h1, h2, h3⟩ := ih
    by_cases hc : 3 ≤ s.players.length ∧ s.players.length ≤ 6
    · rw [GameState.startNewRound_eq s topicIndex wordIndex liarIndex hc]
      refine ⟨?_, List.nodup_nil, fun vote hv => by cases hv⟩
      have hk : UMap.keys (s.players.map (fun pair =>
          (pair.1, { pair.2 with
            role := if pair.1 = (UMap.keys s.players).getD liarIndex 0 then PlayerRole.LIAR
                    else PlayerRole.GUESSER }))) = UMap.keys s.players := by
        simp only [UMap.keys, List.map_map]
        rfl
      simp only [hk]
      exact h1
    · unfold GameState.startNewRound
      rw [if_pos (by omega)]
      exact ⟨h1, h2, h3⟩
  | clearRound s _ ih =>
    obtain ⟨h1, _, _⟩ := ih
    refine ⟨?_, List.nodup_nil, fun vote hv => by cases hv⟩
    have hk : UMap.keys s.clearRound.players = UMap.keys s.players := by
      simp only [GameState.clearRound, UMap.keys, List.map_map]
      rfl
    rw [hk]
    exact h1
  | submitVote s voterId targetId _ ih =>
    obtain ⟨h1, h2, h3⟩ := ih
    unfold GameState.submitVote
    split
    · exact ⟨h1, h2, h3⟩
    · split
      · exact ⟨h1, h2, h3⟩
      · split
        · exact ⟨h1, h2, h3⟩
        · rename_i _ _ hknown
          refine ⟨h1, UMap.keys_assign_nodup s.votes voterId targetId h2, ?_⟩
          intro vote hv
          rcases UMap.mem_assign s.votes voterId targetId vote hv with hm | hm
          · exact h3 vote hm
          · have hvoter : vote.1 ∈ UMap.keys (UMap.assign s.votes voterId targetId) :=
              List.mem_map_of_mem Prod.fst hv
            simp only [not_or] at hknown
            have hk1 : voterId ∈ UMap.keys s.players := by
              rw [UMap.mem_keys_iff_find]
              cases hf : UMap.find s.players voterId with
              | none => exact absurd (by simp [hf]) hknown.1
              | some v => rfl
            have hk2 : targetId ∈ UMap.keys s.players := by
              rw [UMap.mem_keys_iff_find]
              cases hf : UMap.find s.players targetId with
              | none => exact absurd (by simp [hf]) hknown.2
              | some v => rfl
            constructor
            · rcases (UMap.mem_keys_assign s.votes voterId targetId vote.1).mp hvoter
                with hx | hx
              · obtain ⟨e, he, hfst⟩ := List.mem_map.mp hx
                rw [← hfst]
                exact (h3 e he).1
              · rw [hx]; exact hk1
            · rw [hm]; exact hk2
  | clearVotes s _ ih =>
    obtain ⟨h1, _, _⟩ := ih
    exact ⟨h1, List.nodup_nil, fun vote hv => by cases hv⟩
  | calculateAndApplyScores s liarCaught votedOutId hasMajority _ ih =>
    obtain ⟨h1, h2, h3⟩ := ih
    obtain ⟨hk, hv⟩ := GameState.calculateAndApplyScores_keys s liarCaught votedOutId
      hasMajority
    refine ⟨by rw [hk]; exact h1, by rw [hv]; exact h2, ?_⟩
    rw [hk, hv]
    exact h3

theorem UMap.sum_assign (m : UMap Nat) (k v : Nat) :
    ((UMap.assign m k v).map (fun e => e.2)).sum + (UMap.find m k).getD 0 =
      (m.map (fun e => e.2)).sum + v := by
  induction m with
  | nil => simp [UMap.assign, UMap.find]
  | cons e rest ih =>
    obtain ⟨k', v'⟩ := e
    by_cases h : k' = k
    · simp only [UMap.assign, UMap.find, h, if_true, List.map_cons, List.sum_cons,
        Option.getD_some]
      omega
    · simp only [UMap.assign, UMap.find, h, if_false, List.map_cons, List.sum_cons]
      omega

theorem GameState.getVoteTally_sum (s : GameState) :
    (s.getVoteTally.map (fun e => e.2)).sum = s.votes.length := by
  have h : ∀ (votes : UMap Nat) (tally : UMap Nat),
      ((votes.foldl (fun tally vote =>
          UMap.assign tally vote.2 ((UMap.find tally vote.2).getD 0 + 1)) tally).map
        (fun e => e.2)).sum = (tally.map (fun e => e.2)).sum + votes.length := by
    intro votes
    induction votes with
    | nil => intro tally; simp
    | cons vote rest ih =>
      intro tally
      rw [List.foldl_cons, ih]
      have := UMap.sum_assign tally vote.2 ((UMap.find tally vote.2).getD 0 + 1)
      simp only [List.length_cons]
      omega
  unfold GameState.getVoteTally
  rw [h]
  simp

/-- C38: in every state reachable from a fresh GameState by any sequence of its public
operations, every recorded vote has a voter id and a target id that are both ids of
current players; so the number of recorded votes never exceeds the player count, and the
counts of the vote tally sum to at most the player count. -/
theorem GameState.reachable_votes_known (s : GameState) (h : GameState.Reachable s) :
    (∀ vote ∈ s.votes, s.hasPlayer vote.1 = true ∧ s.hasPlayer vote.2 = true) ∧
    s.votes.length ≤ s.getPlayerCount ∧
    (s.getVoteTally.map (fun e => e.2)).sum ≤ s.getPlayerCount := by
  obtain ⟨h1, h2, h3⟩ := GameState.votesKnown_of_reachable s h
  have hlen : s.votes.length ≤ s.getPlayerCount := by
    have hsub : UMap.keys s.votes ⊆ UMap.keys s.players := by
      intro k hk
      obtain ⟨e, he, hfst⟩ := List.mem_map.mp hk
      rw [← hfst]
      exact (h3 e he).1
    have := (List.subperm_of_subset h2 hsub).length_le
    simpa [UMap.keys, GameState.getPlayerCount] using this
  refine ⟨?_, hlen, ?_⟩
  · intro vote hv
    simp only [GameState.hasPlayer]
    exact ⟨(UMap.mem_keys_iff_find s.players vote.1).mp (h3 vote hv).1,
      (UMap.mem_keys_iff_find s.players vote.2).mp (h3 vote hv).2⟩
  · rw [GameState.getVoteTally_sum]
    exact hlen

theorem sampleVoted_reachable : GameState.Reachable sampleVoted :=
  GameState.Reachable.submitVote _ 3 2
    (GameState.Reachable.submitVote _ 1 2
      (GameState.Reachable.startNewRound sampleJoined 0 0 1
        (GameState.Reachable.addPlayer _ 3 (bytesOf "cy")
          (GameState.Reachable.addPlayer _ 2 (bytesOf "bob")
            (GameState.Reachable.addPlayer _ 1 (bytesOf "ann")
              GameState.Reachable.new)))))

/-- The invariant of C38 on the state reached by three joins, a round start with the
draws 0, 0, 1, the votes of 1 and 3 for 2, and the removal of player 2: both votes went
with their target, and no more votes than players are recorded. -/
theorem GameState.reachable_votes_known_witness :
    sampleVoted.votes = [(1, 2), (3, 2)] ∧
    (sampleVoted.removePlayer 2).2.votes = [] ∧
    (sampleVoted.removePlayer 2).2.votes.length ≤ (sampleVoted.removePlayer 2).2.getPlayerCount :=
  ⟨by decide, by decide,
    (GameState.reachable_votes_known _
      (GameState.Reachable.removePlayer sampleVoted 2 sampleVoted_reachable)).2.1⟩

/-! ## Message queue -/

theorem MessageQueue.run_fifo (ops : List QueueOp) :
    ∀ q : MessageQueue,
      (MessageQueue.run ops q).2.2 ++ (MessageQueue.run ops q).1.queue =
        q.queue ++ (MessageQueue.run ops q).2.1 := by
  induction ops with
  | nil => intro q; simp [MessageQueue.run]
  | cons op later ih =>
    intro q
    cases op with
    | push packet =>
      have := ih (q.push packet)
      simp only [MessageQueue.run]
      rw [this]
      simp [MessageQueue.push]
    | tryPop =>
      simp only [MessageQueue.run]
      cases hq : q.queue with
      | nil =>
        have h1 : q.tryPop Packet.default = (false, q, Packet.default) := by
          simp [MessageQueue.tryPop, hq]
        rw [h1]
        simp only [Bool.false_eq_true, if_false]
        rw [ih q, hq]
      | cons front rest =>
        have h1 : q.tryPop Packet.default = (true, { queue := rest }, front) := by
          simp [MessageQueue.tryPop, hq]
        rw [h1]
        simp only [if_true, List.cons_append]
        rw [ih { queue := rest }]

/-- C31: MessageQueue is first-in first-out: for every sequence of `push` and `tryPop`
calls starting from an empty queue, the packets returned by the successful `tryPop`
calls, followed by the packets still queued, are the pushed packets in push order, so the
i-th successful `tryPop` returns the i-th pushed packet; `push` always increases the size
by one; and `tryPop` reports absent exactly when the queue is empty, in which case it
changes neither the queue nor the caller's packet. -/
theorem MessageQueue.fifo (ops : List QueueOp) :
    (MessageQueue.run ops MessageQueue.new).2.2 ++
        (MessageQueue.run ops MessageQueue.new).1.queue =
      (MessageQueue.run ops MessageQueue.new).2.1 ∧
    (∀ i, i < (MessageQueue.run ops MessageQueue.new).2.2.length →
      (MessageQueue.run ops MessageQueue.new).2.2[i]? =
        (MessageQueue.run ops MessageQueue.new).2.1[i]?) ∧
    (∀ (q : MessageQueue) (packet : Packet), (q.push packet).size = q.size + 1) ∧
    (∀ (q : MessageQueue) (packet : Packet),
      (q.tryPop packet).1 = false ↔ q.empty = true) ∧
    (∀ (q : MessageQueue) (packet : Packet),
      q.empty = true → q.tryPop packet = (false, q, packet)) ∧
    (∀ (q : MessageQueue) (packet front : Packet) (rest : List Packet),
      q.queue = front :: rest → q.tryPop packet = (true, { queue := rest }, front)) := by
  have h := MessageQueue.run_fifo ops MessageQueue.new
  simp only [MessageQueue.new, List.nil_append] at h
  refine ⟨h, ?_, ?_, ?_, ?_, ?_⟩
  · intro i hi
    simp only [MessageQueue.new] at hi ⊢
    rw [← h, List.getElem?_append_left hi]
  · intro q packet
    simp [MessageQueue.push, MessageQueue.size]
  · intro q packet
    cases hq : q.queue with
    | nil => simp [MessageQueue.tryPop, MessageQueue.empty, hq]
    | cons front rest => simp [MessageQueue.tryPop, MessageQueue.empty, hq]
  · intro q packet he
    cases hq : q.queue with
    | nil => simp [MessageQueue.tryPop, hq]
    | cons front rest => simp [MessageQueue.empty, hq] at he
  · intro q packet front rest hq
    simp [MessageQueue.tryPop, hq]

/-- The order of C31 on the calls push ECHO, tryPop, tryPop, push CHAT, push HEARTBEAT,
tryPop: the first and the third `tryPop` return the ECHO and the CHAT packet, the second
finds the queue empty, and the HEARTBEAT packet is still queued. -/
theorem MessageQueue.fifo_witness :
    MessageQueue.run
      [QueueOp.push (Packet.new 1 [5]), QueueOp.tryPop, QueueOp.tryPop,
       QueueOp.push (Packet.new 2 []), QueueOp.push (Packet.new 4 []), QueueOp.tryPop]
      MessageQueue.new =
      ({ queue := [Packet.new 4 []] },
       [Packet.new 1 [5], Packet.new 2 [], Packet.new 4 []],
       [Packet.new 1 [5], Packet.new 2 []]) ∧
    (MessageQueue.run
      [QueueOp.push (Packet.new 1 [5]), QueueOp.tryPop, QueueOp.tryPop,
       QueueOp.push (Packet.new 2 []), QueueOp.push (Packet.new 4 []), QueueOp.tryPop]
      MessageQueue.new).2.2 ++
      (MessageQueue.run
        [QueueOp.push (Packet.new 1 [5]), QueueOp.tryPop, QueueOp.tryPop,
         QueueOp.push (Packet.new 2 []), QueueOp.push (Packet.new 4 []), QueueOp.tryPop]
        MessageQueue.new).1.queue =
      [Packet.new 1 [5], Packet.new 2 [], Packet.new 4 []] :=
  ⟨by decide,
    (MessageQueue.fifo
      [QueueOp.push (Packet.new 1 [5]), QueueOp.tryPop, QueueOp.tryPop,
       QueueOp.push (Packet.new 2 []), QueueOp.push (Packet.new 4 []), QueueOp.tryPop]).1⟩

/-! ## Broadcast -/

theorem Server.broadcastLoop_calls (osSend : Nat → SendOutcome) (packet : Packet)
    (ids : List Nat) :
    ∀ m : ConnectionManager,
      (Server.broadcastLoop osSend packet ids m).2.map Prod.fst = ids := by
  induction ids with
  | nil => intro m; rfl
  | cons id rest ih =>
    intro m
    simp only [Server.broadcastLoop, List.map_cons, ih]

theorem Server.broadcastExceptLoop_calls (osSend : Nat → SendOutcome) (excludeClientId : Nat)
    (packet : Packet) (ids : List Nat) :
    ∀ m : ConnectionManager,
      (Server.broadcastExceptLoop osSend excludeClientId packet ids m).2.map Prod.fst =
        ids.filter (fun id => decide (id ≠ excludeClientId)) := by
  induction ids with
  | nil => intro m; rfl
  | cons id rest ih =>
    intro m
    by_cases h : id = excludeClientId
    · simp only [Server.broadcastExceptLoop, h, ne_eq, not_true_eq_false, if_false, ih]
      simp [List.filter_cons]
    · simp only [Server.broadcastExceptLoop, ne_eq, h, not_false_eq_true, if_true,
        List.map_cons, ih]
      simp [List.filter_cons, h]

/-- C32: for every registry, hence every snapshot of active connection ids, and every
pattern of per-connection send outcomes, `Server::broadcast` calls `sendPacket` once for
every id of the snapshot, in order, and `Server::broadcastExcept` calls it for every id
of the snapshot except the excluded id and never for the excluded id; whatever a send
comes to, the calls for the remaining ids are made. -/
theorem Server.broadcast_attempts_all (m : ConnectionManager) (osSend : Nat → SendOutcome)
    (excludeClientId : Nat) (packet : Packet) :
    (Server.broadcast m osSend packet).2.map Prod.fst = m.getActiveConnections ∧
    (Server.broadcastExcept m osSend excludeClientId packet).2.map Prod.fst =
      m.getActiveConnections.filter (fun id => decide (id ≠ excludeClientId)) ∧
    excludeClientId ∉ (Server.broadcastExcept m osSend excludeClientId packet).2.map Prod.fst ∧
    (∀ id ∈ m.getActiveConnections, id ≠ excludeClientId →
      id ∈ (Server.broadcastExcept m osSend excludeClientId packet).2.map Prod.fst) := by
  have h1 : (Server.broadcast m osSend packet).2.map Prod.fst = m.getActiveConnections :=
    Server.broadcastLoop_calls osSend packet m.getActiveConnections m
  have h2 : (Server.broadcastExcept m osSend excludeClientId packet).2.map Prod.fst =
      m.getActiveConnections.filter (fun id => decide (id ≠ excludeClientId)) :=
    Server.broadcastExceptLoop_calls osSend excludeClientId packet m.getActiveConnections m
  refine ⟨h1, h2, ?_, ?_⟩
  · rw [h2]
    simp [List.mem_filter]
  · intro id hid hne
    rw [h2]
    simp [List.mem_filter, hid, hne]

/-- The sweep of C32 on the sample registry (active ids 1 and 3) when the send to 1 fails
with a lost connection: both ids are called, the send to 3 succeeds, and connection 1
ends DISCONNECTING; `broadcastExcept 1` calls 3 only. -/
theorem Server.broadcast_attempts_all_witness :
    (Server.broadcast sampleRegistry
      (fun id => if id = 1 then SendOutcome.connectionLost else SendOutcome.complete)
      (Packet.new 2 [7])).2 = [(1, false), (3, true)] ∧
    (Server.broadcastExcept sampleRegistry
      (fun id => if id = 1 then SendOutcome.connectionLost else SendOutcome.complete) 1
      (Packet.new 2 [7])).2 = [(3, true)] ∧
    (Server.broadcast sampleRegistry
      (fun id => if id = 1 then SendOutcome.connectionLost else SendOutcome.complete)
      (Packet.new 2 [7])).2.map Prod.fst = sampleRegistry.getActiveConnections :=
  ⟨by decide, by decide,
    (Server.broadcast_attempts_all sampleRegistry
      (fun id => if id = 1 then SendOutcome.connectionLost else SendOutcome.complete) 1
      (Packet.new 2 [7])).1⟩

/-! ## Truncated player states -/

/-- C33 as stated fails: on the 12-byte buffer `0 0 0 7 0 0 0 1 0 0 0 5` the id (bytes
0-3, value 7), the role (bytes 4-7) and the score (bytes 8-11) lie wholly inside the
buffer, yet `deserializePlayerState` returns the default state: id 0, role NONE, score 0,
not the decoded values. -/
theorem deserializePlayerState_short_buffer :
    ([0, 0, 0, 7, 0, 0, 0, 1, 0, 0, 0, 5] : List Byte).length = 12 ∧
    beValue (([0, 0, 0, 7, 0, 0, 0, 1, 0, 0, 0, 5] : List Byte).take 4) = 7 ∧
    deserializePlayerState [0, 0, 0, 7, 0, 0, 0, 1, 0, 0, 0, 5] = PlayerState.default ∧
    (deserializePlayerState [0, 0, 0, 7, 0, 0, 0, 1, 0, 0, 0, 5]).id ≠ 7 ∧
    (deserializePlayerState [0, 0, 0, 7, 0, 0, 0, 1, 0, 0, 0, 5]).score ≠ 5 := by
  decide

/-- C33 (amended): for every input buffer, `deserializePlayerState` reads the four fixed
fields all or none: for a buffer shorter than 16 bytes it returns the default state (id
0, role NONE, score 0, empty username), whatever bytes are present; for a buffer of at
least 16 bytes it returns the id of bytes 0-3, the role of bytes 4-7 and the score of
bytes 8-11, and the username of the declared length taken from byte 16 on when that
length is non-zero and the username lies wholly inside the buffer, an empty username
otherwise. -/
theorem deserializePlayerState_guarded (data : List Byte) :
    (data.length < 16 → deserializePlayerState data = PlayerState.default) ∧
    (16 ≤ data.length →
      (deserializePlayerState data).id = beValue (data.take 4) ∧
      (deserializePlayerState data).role = ⟨toI32 (beValue ((data.drop 4).take 4))⟩ ∧
      (deserializePlayerState data).score = toI32 (beValue ((data.drop 8).take 4)) ∧
      (0 < beValue ((data.drop 12).take 4) ∧
          16 + beValue ((data.drop 12).take 4) ≤ data.length →
        (deserializePlayerState data).username =
          (data.drop 16).take (beValue ((data.drop 12).take 4))) ∧
      (¬ (0 < beValue ((data.drop 12).take 4) ∧
          16 + beValue ((data.drop 12).take 4) ≤ data.length) →
        (deserializePlayerState data).username = [])) := by
  constructor
  · intro h
    unfold deserializePlayerState
    rw [if_pos (by omega)]
  · intro h
    have h0 : readU32 data = beValue (data.take 4) := readU32_eq_beValue data (by omega)
    have h4 : readU32 (data.drop 4) = beValue ((data.drop 4).take 4) :=
      readU32_eq_beValue _ (by rw [List.length_drop]; omega)
    have h8 : readU32 (data.drop 8) = beValue ((data.drop 8).take 4) :=
      readU32_eq_beValue _ (by rw [List.length_drop]; omega)
    have h12 : readU32 (data.drop 12) = beValue ((data.drop 12).take 4) :=
      readU32_eq_beValue _ (by rw [List.length_drop]; omega)
    rw [← h0, ← h4, ← h8, ← h12]
    unfold deserializePlayerState
    simp only [Nat.reduceMul, Nat.zero_add, Nat.reduceAdd, List.drop_zero]
    rw [if_neg (by omega), if_neg (by omega)]
    by_cases hu : data.length ≥ 16 + readU32 (data.drop 12) ∧ readU32 (data.drop 12) > 0
    · rw [if_pos hu]
      refine ⟨rfl, rfl, rfl, fun _ => rfl, ?_⟩
      intro hn
      exact absurd ⟨hu.2, hu.1⟩ hn
    · rw [if_neg hu]
      refine ⟨rfl, rfl, rfl, ?_, fun _ => rfl⟩
      intro hp
      exact absurd ⟨hp.2, hp.1⟩ hu

/-- The cases of C33 (amended) on two buffers: 15 bytes decode to the default state; 18
bytes that declare a 5-byte username decode to id 7, role LIAR, score -3 and an empty
username. -/
theorem deserializePlayerState_guarded_witness :
    deserializePlayerState [0, 0, 0, 7, 0, 0, 0, 1, 255, 255, 255, 253, 0, 0, 0] =
      PlayerState.default ∧
    deserializePlayerState
        [0, 0, 0, 7, 0, 0, 0, 1, 255, 255, 255, 253, 0, 0, 0, 5, 104, 105] =
      { id := 7, username := [], role := PlayerRole.LIAR, score := -3 } ∧
    (deserializePlayerState
        [0, 0, 0, 7, 0, 0, 0, 1, 255, 255, 255, 253, 0, 0, 0, 5, 104, 105]).id = 7 :=
  ⟨(deserializePlayerState_guarded
      [0, 0, 0, 7, 0, 0, 0, 1, 255, 255, 255, 253, 0, 0, 0]).1 (by decide),
    by decide,
    ((deserializePlayerState_guarded
      [0, 0, 0, 7, 0, 0, 0, 1, 255, 255, 255, 253, 0, 0, 0, 5, 104, 105]).2 (by decide)).1⟩

/-! ## Join during an active round -/

theorem startNewRoundIfPossible_of_active (g : GameState)
    (topicIndex wordIndex liarIndex : Nat) (hactive : g.roundActive = true) :
    startNewRoundIfPossible g topicIndex wordIndex liarIndex = (g, []) := by
  unfold startNewRoundIfPossible
  by_cases hc : g.canStartRound = true
  · simp [hc, GameState.isRoundActive, hactive]
  · simp [hc]

theorem createGameStateUpdatePacket_data (states : List PlayerState) :
    (createGameStateUpdatePacket states).getData =
      be32 (states.length % 2 ^ 32) ++ (states.map serializePlayerState).flatten := by
  unfold createGameStateUpdatePacket
  simp only [foldl_serialize_eq]
  rfl

theorem extract_createGameStateUpdate (states : List PlayerState)
    (hcount : states.length < 2 ^ 32)
    (hv : ∀ s ∈ states, s.id < 2 ^ 32 ∧
      (-2147483648 ≤ s.role.val ∧ s.role.val < 2147483648) ∧
      (-2147483648 ≤ s.score ∧ s.score < 2147483648) ∧ s.username.length < 2 ^ 32) :
    extractGameStateUpdate (createGameStateUpdatePacket states) = states := by
  have hdata := createGameStateUpdatePacket_data states
  rw [Nat.mod_eq_of_lt hcount] at hdata
  unfold extractGameStateUpdate
  simp only [hdata]
  have hlen : (be32 states.length ++ (states.map serializePlayerState).flatten).length =
      4 + (states.map serializePlayerState).flatten.length := by
    rw [List.length_append, be32_length]
  rw [if_neg (by omega), readU32_be32_append, Nat.mod_eq_of_lt hcount]
  have h := extractGameStateUpdateLoop_spec
    (be32 states.length ++ (states.map serializePlayerState).flatten) states 4 [] hv rfl
  simpa using h

theorem serializePlayerState_role_bytes (p : PlayerState) :
    ((serializePlayerState p).drop 4).take 4 = be32 (toU32 p.role.val) := by
  unfold serializePlayerState
  by_cases h : p.username.length > 0
  · simp [h, be32]
  · simp [h, be32]

/-- The state and the calls of the PLAYER_JOIN case for an id that is not yet a player,
while a round is active. -/
theorem handlePlayerJoin_of_active (s : GameState) (clientId : Nat) (packet : Packet)
    (topicIndex wordIndex liarIndex : Nat)
    (hactive : s.roundActive = true) (hnew : UMap.find s.players clientId = none) :
    handlePlayerJoin s clientId packet topicIndex wordIndex liarIndex =
      ({ s with
          players := s.players ++
            [(clientId, { id := clientId,
                          username := if packet.getData.length > 0 then packet.getData
                                      else defaultUsername clientId,
                          role := PlayerRole.NONE, score := 0 })] },
       [Outgoing.sendPacket clientId (createGameStateUpdatePacket
          (s.getAllPlayerStates ++
            [{ id := clientId,
               username := if packet.getData.length > 0 then packet.getData
                           else defaultUsername clientId,
               role := PlayerRole.NONE, score := 0 }])),
        Outgoing.broadcastExcept clientId (createPlayerStatePacket MessageType.PLAYER_JOINED
          { id := clientId,
            username := if packet.getData.length > 0 then packet.getData
                        else defaultUsername clientId,
            role := PlayerRole.NONE, score := 0 })]) := by
  have hnot : clientId ∉ UMap.keys s.players := (UMap.find_eq_none_iff s.players clientId).mp hnew
  have hadd : ∀ username, s.addPlayer clientId username =
      (true, { s with
        players := s.players ++
          [(clientId, { id := clientId, username := username, role := PlayerRole.NONE,
                        score := 0 })] }) := by
    intro username
    unfold GameState.addPlayer
    rw [if_neg (by rw [hnew]; simp), UMap.assign_of_not_mem s.players clientId _ hnot]
  have hfind : ∀ (joiner : PlayerState),
      UMap.find (s.players ++ [(clientId, joiner)]) clientId = some joiner := by
    intro joiner
    rw [← UMap.assign_of_not_mem s.players clientId _ hnot, UMap.find_assign, if_pos rfl]
  have hstart : ∀ pl : UMap PlayerState,
      startNewRoundIfPossible { s with players := pl } topicIndex wordIndex liarIndex =
        ({ s with players := pl }, []) :=
    fun pl => startNewRoundIfPossible_of_active { s with players := pl } topicIndex wordIndex
      liarIndex hactive
  unfold handlePlayerJoin
  simp only [hadd, Bool.not_true, Bool.false_eq_true, if_false, hstart]
  simp only [GameState.getPlayerState, hfind, GameState.getAllPlayerStates, List.map_append,
    List.map_cons, List.map_nil, List.append_nil, List.singleton_append, List.cons_append,
    List.nil_append]

/-- C40: if a PLAYER_JOIN from a not-yet-present id is processed while a round is active,
the joiner is added with role NONE and score 0 and nothing else changes in the game
state, so no new round is started; the GAME_STATE_UPDATE sent to the joiner is built from
every existing player in its current state followed by the joiner, its payload is the
count and the encodings of these players in turn, and the roster entry of a player whose
role is LIAR carries the role bytes `0 0 0 1`; for fields within their ranges the packet
decodes to that roster. -/
theorem handlePlayerJoin_active_round (s : GameState) (clientId : Nat) (packet : Packet)
    (topicIndex wordIndex liarIndex : Nat) (username : List Byte)
    (hactive : s.roundActive = true) (hnew : UMap.find s.players clientId = none)
    (hname : username =
      if packet.getData.length > 0 then packet.getData else defaultUsername clientId) :
    (handlePlayerJoin s clientId packet topicIndex wordIndex liarIndex).1 =
      { s with
        players := s.players ++
          [(clientId, { id := clientId, username := username, role := PlayerRole.NONE,
                        score := 0 })] } ∧
    (handlePlayerJoin s clientId packet topicIndex wordIndex liarIndex).1.isRoundActive = true ∧
    (handlePlayerJoin s clientId packet topicIndex wordIndex liarIndex).1.getCurrentLiarId =
      s.getCurrentLiarId ∧
    (handlePlayerJoin s clientId packet topicIndex wordIndex liarIndex).2 =
      [Outgoing.sendPacket clientId (createGameStateUpdatePacket
        (s.getAllPlayerStates ++
          [{ id := clientId, username := username, role := PlayerRole.NONE, score := 0 }])),
       Outgoing.broadcastExcept clientId (createPlayerStatePacket MessageType.PLAYER_JOINED
        { id := clientId, username := username, role := PlayerRole.NONE, score := 0 })] ∧
    (createGameStateUpdatePacket
        (s.getAllPlayerStates ++
          [{ id := clientId, username := username, role := PlayerRole.NONE,
             score := 0 }])).getData =
      be32 ((s.getAllPlayerStates.length + 1) % 2 ^ 32) ++
        ((s.getAllPlayerStates.map serializePlayerState).flatten ++
          serializePlayerState
            { id := clientId, username := username, role := PlayerRole.NONE, score := 0 }) ∧
    (∀ p ∈ s.getAllPlayerStates, p.role = PlayerRole.LIAR →
      ((serializePlayerState p).drop 4).take 4 = [0, 0, 0, 1]) ∧
    ((s.getAllPlayerStates.length + 1 < 2 ^ 32 ∧ clientId < 2 ^ 32 ∧
        username.length < 2 ^ 32 ∧
        ∀ p ∈ s.getAllPlayerStates, p.id < 2 ^ 32 ∧
          (-2147483648 ≤ p.role.val ∧ p.role.val < 2147483648) ∧
          (-2147483648 ≤ p.score ∧ p.score < 2147483648) ∧ p.username.length < 2 ^ 32) →
      extractGameStateUpdate (createGameStateUpdatePacket
        (s.getAllPlayerStates ++
          [{ id := clientId, username := username, role := PlayerRole.NONE,
             score := 0 }])) =
        s.getAllPlayerStates ++
          [{ id := clientId, username := username, role := PlayerRole.NONE, score := 0 }]) := by
  have h := handlePlayerJoin_of_active s clientId packet topicIndex wordIndex liarIndex
    hactive hnew
  rw [← hname] at h
  rw [h]
  refine ⟨rfl, hactive, rfl, rfl, ?_, ?_, ?_⟩
  · rw [createGameStateUpdatePacket_data]
    simp
  · intro p _ hr
    rw [serializePlayerState_role_bytes, hr]
    decide
  · intro hb
    obtain ⟨hcount, hid, hu, hv⟩ := hb
    apply extract_createGameStateUpdate
    · simpa using hcount
    · intro q hq
      rcases List.mem_append.mp hq with hq | hq
      · exact hv q hq
      · rw [List.mem_singleton] at hq
        rw [hq]
        exact ⟨hid, ⟨by simp [PlayerRole.NONE], by simp [PlayerRole.NONE]⟩,
          ⟨by simp, by simp⟩, hu⟩

/-- The join of C40 in the sample round (liar 2, one vote recorded): player 4 joins under
the name `dee`; it gets role NONE, the round goes on unchanged, and the roster sent to it
lists players 1, 2, 3 with the roles GUESSER, LIAR, GUESSER and itself with NONE. -/
theorem handlePlayerJoin_active_round_witness :
    (handlePlayerJoin (sampleRound [(1, 2)]) 4 (Packet.new 10 (bytesOf "dee")) 0 0 0).1 =
      { sampleRound [(1, 2)] with
        players := (sampleRound [(1, 2)]).players ++
          [(4, { id := 4, username := bytesOf "dee", role := PlayerRole.NONE, score := 0 })] } ∧
    (handlePlayerJoin (sampleRound [(1, 2)]) 4 (Packet.new 10 (bytesOf "dee")) 0 0 0).2 =
      [Outgoing.sendPacket 4 (createGameStateUpdatePacket
        ((sampleRound [(1, 2)]).getAllPlayerStates ++
          [{ id := 4, username := bytesOf "dee", role := PlayerRole.NONE, score := 0 }])),
       Outgoing.broadcastExcept 4 (createPlayerStatePacket MessageType.PLAYER_JOINED
        { id := 4, username := bytesOf "dee", role := PlayerRole.NONE, score := 0 })] ∧
    (extractGameStateUpdate (createGameStateUpdatePacket
        ((sampleRound [(1, 2)]).getAllPlayerStates ++
          [{ id := 4, username := bytesOf "dee", role := PlayerRole.NONE,
             score := 0 }]))).map (fun p => (p.id, p.role)) =
      [(1, PlayerRole.GUESSER), (2, PlayerRole.LIAR), (3, PlayerRole.GUESSER),
       (4, PlayerRole.NONE)] :=
  ⟨by decide,
    (handlePlayerJoin_active_round (sampleRound [(1, 2)]) 4 (Packet.new 10 (bytesOf "dee"))
      0 0 0 (bytesOf "dee") rfl (by decide) (by decide)).2.2.2.1,
    by decide⟩

/-! ## Checked decoders -/

theorem readU32Checked_of_le (data : List Byte) (offset : Nat)
    (h : offset + 4 ≤ data.length) :
    readU32Checked data offset = some (readU32 (data.drop offset)) := by
  simp [readU32Checked, h]

theorem sliceChecked_of_le (data : List Byte) (offset len : Nat)
    (h : offset + len ≤ data.length) :
    sliceChecked data offset len = some ((data.drop offset).take len) := by
  simp [sliceChecked, h]

theorem deserializePlayerStateChecked_eq (data : List Byte) :
    deserializePlayerStateChecked data = some (deserializePlayerState data) := by
  unfold deserializePlayerStateChecked deserializePlayerState
  by_cases h : data.length < 4 * 4
  · simp [h]
  · simp only [h, if_false]
    have h16 : 16 ≤ data.length := by omega
    rw [readU32Checked_of_le data 0 (by omega), readU32Checked_of_le data (0 + 4) (by omega),
      readU32Checked_of_le data (0 + 4 + 4) (by omega)]
    simp only [Option.bind_eq_bind, Option.some_bind]
    rw [readU32Checked_of_le data (0 + 4 + 4 + 4) (by omega)]
    simp only [Option.some_bind]
    split
    · rename_i hfit
      rw [sliceChecked_of_le data _ _ hfit.1]
      rfl
    · rfl

theorem deserializeVoteCommandChecked_eq (data : List Byte) :
    deserializeVoteCommandChecked data = some (deserializeVoteCommand data) := by
  unfold deserializeVoteCommandChecked deserializeVoteCommand
  by_cases h : data.length < 4 * 2
  · simp [h]
  · simp only [h, if_false]
    rw [readU32Checked_of_le data 0 (by omega), readU32Checked_of_le data 4 (by omega)]
    rfl

theorem deserializeChatMessageChecked_eq (data : List Byte) :
    deserializeChatMessageChecked data = some (deserializeChatMessage data) := by
  unfold deserializeChatMessageChecked deserializeChatMessage
  by_cases h : data.length < 4 * 3
  · simp [h]
  · simp only [h, if_false]
    rw [readU32Checked_of_le data 0 (by omega), readU32Checked_of_le data (0 + 4) (by omega)]
    simp only [Option.bind_eq_bind, Option.some_bind]
    by_cases hfit : readU32 (data.drop (0 + 4)) > 0 ∧
        0 + 4 + 4 + readU32 (data.drop (0 + 4)) ≤ data.length
    · simp only [hfit, and_self, decide_True, if_true]
      rw [sliceChecked_of_le data _ _ hfit.2]
      simp only [Option.some_bind]
      split
      · rfl
      · rename_i h4
        rw [readU32Checked_of_le data _ (by omega)]
        simp only [Option.some_bind]
        split
        · rename_i hm
          rw [sliceChecked_of_le data _ _ hm.2]
          rfl
        · rfl
    · simp only [hfit, decide_False, if_false, Bool.false_eq_true, Option.some_bind]
      split
      · rfl
      · rename_i h4
        rw [readU32Checked_of_le data _ (by omega)]
        simp only [Option.some_bind]
        split
        · rename_i hm
          rw [sliceChecked_of_le data _ _ hm.2]
          rfl
        · rfl

theorem deserializeRoleAssignmentChecked_eq (data : List Byte) :
    deserializeRoleAssignmentChecked data = some (deserializeRoleAssignment data) := by
  unfold deserializeRoleAssignmentChecked deserializeRoleAssignment
  by_cases h : data.length < 4 * 3
  · simp [h]
  · simp only [h, if_false]
    rw [readU32Checked_of_le data 0 (by omega), readU32Checked_of_le data (0 + 4) (by omega)]
    simp only [Option.bind_eq_bind, Option.some_bind]
    rw [readU32Checked_of_le data (0 + 4 + 4) (by omega)]
    simp only [Option.some_bind]
    by_cases hfit : readU32 (data.drop (0 + 4 + 4)) > 0 ∧
        0 + 4 + 4 + 4 + readU32 (data.drop (0 + 4 + 4)) ≤ data.length
    · simp only [hfit, and_self, decide_True, if_true]
      rw [sliceChecked_of_le data _ _ hfit.2]
      simp only [Option.some_bind]
      split
      · rfl
      · rename_i h4
        rw [readU32Checked_of_le data _ (by omega)]
        simp only [Option.some_bind]
        split
        · rename_i hm
          rw [sliceChecked_of_le data _ _ hm.2]
          rfl
        · rfl
    · simp only [hfit, decide_False, if_false, Bool.false_eq_true, Option.some_bind]
      split
      · rfl
      · rename_i h4
        rw [readU32Checked_of_le data _ (by omega)]
        simp only [Option.some_bind]
        split
        · rename_i hm
          rw [sliceChecked_of_le data _ _ hm.2]
          rfl
        · rfl

theorem deserializeVoteResultLoopChecked_eq (data : List Byte) :
    ∀ (n offset : Nat) (tally : UMap Nat) (done : Nat), ∃ k,
      deserializeVoteResultLoopChecked data n offset tally done =
        some ((deserializeVoteResultLoop data n offset tally).1,
          (deserializeVoteResultLoop data n offset tally).2, done + k) ∧
      8 * k ≤ data.length - offset := by
  intro n
  induction n with
  | zero =>
    intro offset tally done
    exact ⟨0, by simp [deserializeVoteResultLoopChecked, deserializeVoteResultLoop], by omega⟩
  | succ n ih =>
    intro offset tally done
    by_cases h : data.length < offset + 4 * 2
    · exact ⟨0, by simp [deserializeVoteResultLoopChecked, deserializeVoteResultLoop, h],
        by omega⟩
    · obtain ⟨k, hk, hle⟩ := ih (offset + 4 + 4)
        (UMap.assign tally (readU32 (data.drop offset)) (readU32 (data.drop (offset + 4))))
        (done + 1)
      refine ⟨k + 1, ?_, by omega⟩
      simp only [deserializeVoteResultLoopChecked, deserializeVoteResultLoop, h, if_false,
        Option.bind_eq_bind]
      rw [readU32Checked_of_le data offset (by omega),
        readU32Checked_of_le data (offset + 4) (by omega)]
      simp only [Option.some_bind]
      rw [hk]
      simp only [Nat.add_assoc, Nat.add_comm 1 k]

theorem deserializeVoteResultChecked_eq (data : List Byte) :
    ∃ k, deserializeVoteResultChecked data = some (deserializeVoteResult data, k) ∧
      k ≤ data.length / 8 := by
  unfold deserializeVoteResultChecked deserializeVoteResult
  by_cases h : data.length < 4 * 3
  · exact ⟨0, by simp [h], by omega⟩
  · obtain ⟨k, hk, hle⟩ := deserializeVoteResultLoopChecked_eq data
      (readU32 (data.drop 0)) (0 + 4) VoteResult.default.tally 0
    refine ⟨k, ?_, by omega⟩
    simp only [h, if_false, Option.bind_eq_bind]
    rw [readU32Checked_of_le data 0 (by omega)]
    simp only [Option.some_bind]
    rw [hk]
    simp only [Option.some_bind, Nat.zero_add]
    split
    · rfl
    · rename_i h8
      rw [readU32Checked_of_le data _ (by omega), readU32Checked_of_le data _ (by omega)]
      rfl

theorem extractGameStateUpdateLoopChecked_eq (data : List Byte) :
    ∀ (n offset : Nat) (states : List PlayerState) (done : Nat), ∃ k,
      extractGameStateUpdateLoopChecked data n offset states done =
        some (extractGameStateUpdateLoop data n offset states, done + k) ∧
      16 * k ≤ data.length - offset := by
  intro n
  induction n with
  | zero =>
    intro offset states done
    exact ⟨0, by simp [extractGameStateUpdateLoopChecked, extractGameStateUpdateLoop],
      by omega⟩
  | succ n ih =>
    intro offset states done
    by_cases h : data.length < offset + 4 * 4
    · exact ⟨0, by simp [extractGameStateUpdateLoopChecked, extractGameStateUpdateLoop, h],
        by omega⟩
    · by_cases hp : data.length < offset + (4 * 4 + readU32 (data.drop (offset + 4 * 3)))
      · refine ⟨0, ?_, by omega⟩
        simp only [extractGameStateUpdateLoopChecked, extractGameStateUpdateLoop, h, if_false,
          Option.bind_eq_bind]
        rw [readU32Checked_of_le data _ (by omega)]
        simp [hp]
      · obtain ⟨k, hk, hle⟩ := ih (offset + (4 * 4 + readU32 (data.drop (offset + 4 * 3))))
          (states ++ [deserializePlayerState
            ((data.drop offset).take (4 * 4 + readU32 (data.drop (offset + 4 * 3))))])
          (done + 1)
        refine ⟨k + 1, ?_, by omega⟩
        simp only [extractGameStateUpdateLoopChecked, extractGameStateUpdateLoop, h, if_false,
          Option.bind_eq_bind]
        rw [readU32Checked_of_le data _ (by omega)]
        simp only [Option.some_bind, hp, if_false]
        rw [sliceChecked_of_le data _ _ (by omega)]
        simp only [Option.some_bind, deserializePlayerStateChecked_eq]
        rw [hk]
        simp only [Nat.add_assoc, Nat.add_comm 1 k]

theorem extractGameStateUpdateChecked_eq (packet : Packet) :
    ∃ k, extractGameStateUpdateChecked packet = some (extractGameStateUpdate packet, k) ∧
      k ≤ packet.getData.length / 8 := by
  unfold extractGameStateUpdateChecked extractGameStateUpdate
  by_cases h : packet.getData.length < 4
  · exact ⟨0, by simp [h], by omega⟩
  · obtain ⟨k, hk, hle⟩ := extractGameStateUpdateLoopChecked_eq packet.getData
      (readU32 packet.getData) 4 [] 0
    refine ⟨k, ?_, by omega⟩
    simp only [h, if_false, Option.bind_eq_bind]
    rw [readU32Checked_of_le packet.getData 0 (by omega)]
    simp only [Option.some_bind, List.drop_zero]
    rw [hk]
    simp only [Nat.zero_add]

/-- C34: for every byte buffer, whatever its length and content, each of
deserializePlayerState, deserializeChatMessage, deserializeRoleAssignment,
deserializeVoteCommand, deserializeVoteResult and extractGameStateUpdate, run with every
read defined only on bytes at offsets below the buffer's length, has a value, and it is
the value the decoder returns: no read touches a byte outside the buffer. The loops of
deserializeVoteResult and extractGameStateUpdate complete at most (buffer length / 8)
iterations, whatever count the buffer declares. -/
theorem decoders_read_in_bounds (data : List Byte) (packet : Packet) :
    deserializePlayerStateChecked data = some (deserializePlayerState data) ∧
    deserializeChatMessageChecked data = some (deserializeChatMessage data) ∧
    deserializeRoleAssignmentChecked data = some (deserializeRoleAssignment data) ∧
    deserializeVoteCommandChecked data = some (deserializeVoteCommand data) ∧
    (∃ iterations,
      deserializeVoteResultChecked data = some (deserializeVoteResult data, iterations) ∧
      iterations ≤ data.length / 8) ∧
    (∃ iterations,
      extractGameStateUpdateChecked packet =
        some (extractGameStateUpdate packet, iterations) ∧
      iterations ≤ packet.getData.length / 8) :=
  ⟨deserializePlayerStateChecked_eq data, deserializeChatMessageChecked_eq data,
    deserializeRoleAssignmentChecked_eq data, deserializeVoteCommandChecked_eq data,
    deserializeVoteResultChecked_eq data, extractGameStateUpdateChecked_eq packet⟩

/-! ## CHAT_MESSAGE: vote commands and relayed chat -/

theorem Packet.getType_new (t : Nat) (d : List Byte) : (Packet.new t d).getType = t := rfl

theorem startNewRoundIfPossible_packet_types (g : GameState)
    (topicIndex wordIndex liarIndex : Nat) :
    ∀ m ∈ (startNewRoundIfPossible g topicIndex wordIndex liarIndex).2,
      m.2.getType = MessageType.ROLE_ASSIGNMENT := by
  intro m hm
  unfold startNewRoundIfPossible at hm
  split at hm
  · simp at hm
  · split at hm
    · simp at hm
    · simp only at hm
      split at hm
      · simp at hm
      · rw [List.mem_flatMap] at hm
        obtain ⟨player, _, hmem⟩ := hm
        split at hmem
        · rw [List.mem_singleton] at hmem
          subst hmem
          rfl
        · split at hmem
          · rw [List.mem_singleton] at hmem
            subst hmem
            rfl
          · simp at hmem

theorem resolveIfAllVoted_no_chat (g : GameState) (topicIndex wordIndex liarIndex : Nat) :
    ∀ o ∈ (resolveIfAllVoted g topicIndex wordIndex liarIndex).2,
      (Outgoing.packet o).getType ≠ MessageType.CHAT_BROADCAST := by
  intro o ho
  unfold resolveIfAllVoted at ho
  simp only at ho
  split at ho
  · simp only [List.mem_append, List.mem_singleton, List.mem_map, List.mem_cons,
      List.not_mem_nil, or_false] at ho
    rcases ho with (rfl | rfl) | ⟨m, hm, rfl⟩
    · simp [Outgoing.packet, createVoteResultPacket, Packet.getType_new,
        MessageType.VOTE_RESULT, MessageType.CHAT_BROADCAST]
    · simp [Outgoing.packet, createGameStateUpdatePacket, Packet.getType_new,
        MessageType.GAME_STATE_UPDATE, MessageType.CHAT_BROADCAST]
    · have ht := startNewRoundIfPossible_packet_types _ _ _ _ m hm
      simp [Outgoing.packet, ht, MessageType.ROLE_ASSIGNMENT, MessageType.CHAT_BROADCAST]
  · simp at ho

theorem getLast_of_suffix {α : Type} (l l2 : List α) (hs : l2 <:+ l) (h2 : l2 ≠ [])
    (h : l ≠ []) : l2.getLast h2 = l.getLast h := by
  obtain ⟨t, rfl⟩ := hs
  exact (List.getLast_append' t l2 h2).symm

theorem rdropWhile_suffix_of_trimmed {α : Type} (p q : α → Bool) (l l2 : List α)
    (hq : ∀ a, q a = true → p a = true)
    (hl : l.rdropWhile p = l) (hs : l2 <:+ l) : l2.rdropWhile q = l2 := by
  rw [List.rdropWhile_eq_self_iff] at hl ⊢
  intro h2 hlast
  have hne : l ≠ [] := by
    rintro rfl
    exact h2 (List.suffix_nil.mp hs)
  rw [getLast_of_suffix l l2 hs h2 hne] at hlast
  exact hl hne (hq _ hlast)

theorem targetName_eq (message : List Byte)
    (hm : message.rdropWhile isTrailingBlank = message) :
    ((message.drop 6).dropWhile (fun c => c = 32)).rdropWhile isTrailingBlank =
      ((message.drop 6).dropWhile (fun c => c = 32)).rdropWhile (fun c => c = 32) := by
  have hs : (message.drop 6).dropWhile (fun c => decide (c = 32)) <:+ message :=
    (List.dropWhile_suffix _).trans (List.drop_suffix 6 message)
  rw [rdropWhile_suffix_of_trimmed isTrailingBlank isTrailingBlank message _ (fun _ h => h) hm hs,
    rdropWhile_suffix_of_trimmed isTrailingBlank (fun c => decide (c = 32)) message _
      (fun a h => by simp [isTrailingBlank] at h ⊢; exact Or.inl (Or.inl h)) hm hs]

theorem GameState.submitVote_state_of_refused (s : GameState) (voterId targetId : Nat)
    (h : (s.submitVote voterId targetId).1 = false) : (s.submitVote voterId targetId).2 = s := by
  unfold GameState.submitVote at h ⊢
  split_ifs at h ⊢
  · rfl
  · rfl
  · rfl

theorem handleChatMessage_of_vote (s : GameState) (connInfo : ConnectionInfo)
    (clientId : Nat) (packet : Packet) (topicIndex wordIndex liarIndex : Nat)
    (hvote : 6 < (packet.getData.rdropWhile isTrailingBlank).length ∧
      (packet.getData.rdropWhile isTrailingBlank).take 6 = bytesOf "/vote ") :
    handleChatMessage s (some connInfo) clientId packet topicIndex wordIndex liarIndex =
      if s.isRoundActive = false then (s, [])
      else
        match s.getAllPlayerStates.find? (fun p => p.username =
          (((packet.getData.rdropWhile isTrailingBlank).drop 6).dropWhile
            (fun c => c = 32)).rdropWhile (fun c => c = 32)) with
        | none => (s, [])
        | some target =>
          if target.id = 0 then (s, [])
          else if (s.submitVote clientId target.id).1 = true then
            resolveIfAllVoted (s.submitVote clientId target.id).2 topicIndex wordIndex liarIndex
          else (s, []) := by
  have htrim := targetName_eq (packet.getData.rdropWhile isTrailingBlank)
    (List.rdropWhile_idempotent _ _)
  unfold handleChatMessage
  simp only [gt_iff_lt, hvote, and_self, if_true, htrim]
  by_cases ha : s.isRoundActive = true
  · simp only [ha, Bool.not_true, Bool.false_eq_true, if_false]
    cases hfind : s.getAllPlayerStates.find? (fun p => p.username =
      (((packet.getData.rdropWhile isTrailingBlank).drop 6).dropWhile
        (fun c => c = 32)).rdropWhile (fun c => c = 32)) with
    | none => simp
    | some target =>
      simp only
      by_cases h0 : target.id = 0
      · simp [h0]
      · simp only [h0, if_false]
        by_cases hv : (s.submitVote clientId target.id).1 = true
        · simp [hv]
        · have hf : (s.submitVote clientId target.id).1 = false := by simpa using hv
          simp [hf, GameState.submitVote_state_of_refused s clientId target.id hf]
  · have hf : s.isRoundActive = false := by simpa using ha
    simp [hf]

theorem handleChatMessage_of_chat (s : GameState) (connInfo : ConnectionInfo)
    (clientId : Nat) (packet : Packet) (topicIndex wordIndex liarIndex : Nat)
    (hchat : ¬ (6 < (packet.getData.rdropWhile isTrailingBlank).length ∧
      (packet.getData.rdropWhile isTrailingBlank).take 6 = bytesOf "/vote ")) :
    handleChatMessage s (some connInfo) clientId packet topicIndex wordIndex liarIndex =
      (s, [Outgoing.broadcast (createChatMessagePacket
        { senderId := clientId,
          senderUsername :=
            if (s.getPlayerState clientId).id ≠ 0 then (s.getPlayerState clientId).username
            else if connInfo.username.isEmpty then defaultUsername clientId
            else connInfo.username,
          senderMessage := packet.getData.rdropWhile isTrailingBlank })]) := by
  unfold handleChatMessage
  simp only [gt_iff_lt, hchat, if_false]

theorem deserialize_createChatMessagePacket (m : ChatMessage) (hid : m.senderId < 2 ^ 32)
    (hu : m.senderUsername.length < 2 ^ 32) (hm : m.senderMessage.length < 2 ^ 32) :
    deserializeChatMessage (createChatMessagePacket m).getData = m := by
  have hdata : (createChatMessagePacket m).getData = serializeChatMessage m := rfl
  rw [hdata, serializeChatMessage_eq m hu hm]
  exact deserializeChatMessage_layout m.senderId m.senderUsername m.senderMessage hid hu hm

/-- C37: for a CHAT_MESSAGE of payload `m` from a registered connection, let `m'` be `m`
with its trailing spaces, `'\n'` and `'\r'` removed. When `m'` is longer than 6 bytes and
begins with `"/vote "`, no call the handler makes carries a CHAT_BROADCAST packet, and
the handler does nothing when no round is active; otherwise it looks up the first player
of the roster whose username equals the rest of `m'` with leading and trailing spaces
removed, does nothing when there is none (or its id is 0), and else submits the vote
`submitVote(clientId, target.id)`, going on to the vote resolution when the vote is
accepted and changing nothing when it is refused. Every other message leaves the game
state as it is and is broadcast once, as a CHAT_BROADCAST packet built from the sender
id, a username and `m'`, which decodes to these when the fields are within 32 bits. -/
theorem handleChatMessage_vote_or_relay (s : GameState) (connInfo : ConnectionInfo)
    (clientId : Nat) (packet : Packet) (topicIndex wordIndex liarIndex : Nat)
    (m' : List Byte) (hm : m' = packet.getData.rdropWhile isTrailingBlank) :
    ((6 < m'.length ∧ m'.take 6 = bytesOf "/vote ") →
      (∀ o ∈ (handleChatMessage s (some connInfo) clientId packet
          topicIndex wordIndex liarIndex).2,
        (Outgoing.packet o).getType ≠ MessageType.CHAT_BROADCAST) ∧
      handleChatMessage s (some connInfo) clientId packet topicIndex wordIndex liarIndex =
        if s.isRoundActive = false then (s, [])
        else
          match s.getAllPlayerStates.find? (fun p => p.username =
            ((m'.drop 6).dropWhile (fun c => c = 32)).rdropWhile (fun c => c = 32)) with
          | none => (s, [])
          | some target =>
            if target.id = 0 then (s, [])
            else if (s.submitVote clientId target.id).1 = true then
              resolveIfAllVoted (s.submitVote clientId target.id).2
                topicIndex wordIndex liarIndex
            else (s, [])) ∧
    (¬ (6 < m'.length ∧ m'.take 6 = bytesOf "/vote ") →
      ∃ username,
        handleChatMessage s (some connInfo) clientId packet topicIndex wordIndex liarIndex =
          (s, [Outgoing.broadcast (createChatMessagePacket
            { senderId := clientId, senderUsername := username, senderMessage := m' })]) ∧
        (createChatMessagePacket
          { senderId := clientId, senderUsername := username,
            senderMessage := m' }).getType = MessageType.CHAT_BROADCAST ∧
        (clientId < 2 ^ 32 → username.length < 2 ^ 32 → m'.length < 2 ^ 32 →
          deserializeChatMessage (createChatMessagePacket
            { senderId := clientId, senderUsername := username,
              senderMessage := m' }).getData =
            { senderId := clientId, senderUsername := username, senderMessage := m' })) := by
  subst hm
  refine ⟨fun hvote => ?_, fun hchat => ?_⟩
  · have heq := handleChatMessage_of_vote s connInfo clientId packet
      topicIndex wordIndex liarIndex hvote
    refine ⟨?_, heq⟩
    rw [heq]
    intro o ho
    split at ho
    · simp at ho
    · split at ho
      · simp at ho
      · split at ho
        · simp at ho
        · split at ho
          · exact resolveIfAllVoted_no_chat _ _ _ _ o ho
          · simp at ho
  · refine ⟨_, handleChatMessage_of_chat s connInfo clientId packet
      topicIndex wordIndex liarIndex hchat, rfl, fun hid hu hlen => ?_⟩
    exact deserialize_createChatMessagePacket _ hid hu hlen

/-- The handler of C37 in the sample round where player 1 has voted: the message
`/vote bob` followed by a space, `'\r'` and `'\n'`, sent by player 3, is trimmed to
`/vote bob`, produces no CHAT_BROADCAST, and records the vote of 3 for player 2. -/
theorem handleChatMessage_vote_or_relay_witness :
    bytesOf "/vote bob" =
      (Packet.new 16 (bytesOf "/vote bob" ++ [32, 13, 10])).getData.rdropWhile
        isTrailingBlank ∧
    (∀ o ∈ (handleChatMessage (sampleRound [(1, 2)]) (some (ConnectionInfo.new 3 102 7 0)) 3
        (Packet.new 16 (bytesOf "/vote bob" ++ [32, 13, 10])) 0 0 0).2,
      (Outgoing.packet o).getType ≠ MessageType.CHAT_BROADCAST) ∧
    handleChatMessage (sampleRound [(1, 2)]) (some (ConnectionInfo.new 3 102 7 0)) 3
        (Packet.new 16 (bytesOf "/vote bob" ++ [32, 13, 10])) 0 0 0 =
      (sampleRound [(1, 2), (3, 2)], []) :=
  ⟨by decide,
    ((handleChatMessage_vote_or_relay (sampleRound [(1, 2)]) (ConnectionInfo.new 3 102 7 0) 3
      (Packet.new 16 (bytesOf "/vote bob" ++ [32, 13, 10])) 0 0 0 (bytesOf "/vote bob")
      (by decide)).1 ⟨by decide, by decide⟩).1,
    by decide⟩

end net
